import Mathlib

/-!
# one.filer ProjFS provider: a shallow embedding

The definitions below follow `package/src/sync_storage.cpp`,
`package/src/async_bridge.cpp` and `package/src/projfs_provider.cpp`.

Conventions of the embedding:

* `std::string` is the list of its characters, `std::vector<uint8_t>` a list of bytes;
* member functions that change their object return the new object next to their result;
* what the operating system or the JavaScript side decides (the pattern matcher, the
  room in the output buffer, allocation, the value a provider function returns) is an
  explicit argument;
* debug messages (`EmitDebugMessage`, `std::cout`) change nothing that is modelled and are
  left out.
-/

namespace oneifsprojfs

/-! ## Strings and status codes -/

/-- The type `std::string`, as the sequence of its characters. -/
abbrev CppString := List Char

/-- The type `std::vector<uint8_t>`. -/
abbrev Bytes := List UInt8

/-- The double quote character. -/
def dquote : Char := Char.ofNat 34

/-- The backslash character. -/
def backslash : Char := Char.ofNat 92

/-- The status codes the provider returns or receives. -/
inductive HRESULT
  | S_OK
  | E_OUTOFMEMORY
  | E_INVALIDARG
  | ERROR_FILE_NOT_FOUND
  | ERROR_ACCESS_DENIED
  | ERROR_INVALID_PARAMETER
  | ERROR_INSUFFICIENT_BUFFER
  | ERROR_UNHANDLED_EXCEPTION
  deriving DecidableEq, Repr

/-- The macro `FAILED(hr)`: every code of `HRESULT` other than `S_OK` is a failure code. -/
def FAILED (hr : HRESULT) : Bool := hr != HRESULT.S_OK

/-- The test `hay.find(needle) != std::string::npos`. -/
def containsSubstr (needle hay : CppString) : Bool :=
  hay.tails.any (fun t => needle.isPrefixOf t)

/-! ## SyncStorage (`sync_storage.cpp`) -/

/-- The record `ObjectMetadata`; the field `exists` of the source is `exists_` here. -/
structure ObjectMetadata where
  exists_ : Bool
  isDirectory : Bool
  size : Nat
  type : CppString
  deriving DecidableEq, Repr

/-- Modelled from the spec: `sync_storage.h` is not among the sources, so the value of a
default-constructed `ObjectMetadata` (the declaration `ObjectMetadata metadata;`) is taken
as not existing, not a directory, of size zero and with an empty type. -/
def ObjectMetadata.init : ObjectMetadata :=
  { exists_ := false, isDirectory := false, size := 0, type := [] }

/-- The state of a `SyncStorage`: the regular files of the directory `objectsPath_`
(file name and content, in directory order) and the two memo maps. -/
structure SyncStorage where
  objects : List (CppString × CppString)
  metadataCache : CppString → Option ObjectMetadata
  typeCache : CppString → Option CppString

/-- A storage over the given object files with empty memo maps. -/
def SyncStorage.fresh (objects : List (CppString × CppString)) : SyncStorage :=
  { objects := objects, metadataCache := fun _ => none, typeCache := fun _ => none }

/-- The function `SyncStorage::ReadObject`: the whole content of the file `objectsPath_ / hash`. -/
def SyncStorage.ReadObject (s : SyncStorage) (hash : CppString) : Option CppString :=
  s.objects.lookup hash

/-- The function `SyncStorage::ListObjects`: the names of the regular files. -/
def SyncStorage.ListObjects (s : SyncStorage) : List CppString :=
  s.objects.map Prod.fst

/-- The function `SyncStorage::ListDirectory`. -/
def SyncStorage.ListDirectory (s : SyncStorage) (virtualPath : CppString) : List CppString :=
  if virtualPath = "/".toList ∨ virtualPath = [] then
    ["objects".toList, "chats".toList, "debug".toList, "invites".toList, "types".toList]
  else if virtualPath = "/objects".toList ∨ virtualPath = "/objects/".toList then
    s.ListObjects
  else
    []

/-- The function `SyncStorage::ReadFirst100Bytes`, applied to the file of `hash`; a file
that cannot be opened gives the empty string. -/
def SyncStorage.ReadFirst100Bytes (s : SyncStorage) (hash : CppString) : CppString :=
  match s.objects.lookup hash with
  | some content => content.take 100
  | none => []

/-- A line terminator, which the regular-expression atom `.` does not match. -/
def isLineTerminator (c : Char) : Bool :=
  c == Char.ofNat 10 || c == Char.ofNat 13

/-- The literal text with which a match of `typePattern` begins. The C++ literal
`"itemtype=\"//refin\\\\.io/([^\"]+)\""` denotes the regular expression
`itemtype="//refin\\.io/([^"]+)"`, in which `\\` is an escaped backslash and the `.`
after it is the any-character atom. -/
def typePatternHead : CppString :=
  "itemtype=".toList ++ [dquote] ++ "//refin".toList ++ [backslash]

/-- A match of `typePattern` that starts at the head of `s`: the captured group. -/
def matchTypeAt (s : CppString) : Option CppString :=
  if typePatternHead.isPrefixOf s then
    match s.drop typePatternHead.length with
    | [] => none
    | c :: rest =>
      if isLineTerminator c then none
      else if "io/".toList.isPrefixOf rest then
        let body := rest.drop 3
        let t := body.takeWhile (fun x => x != dquote)
        if t ≠ [] ∧ (body.drop t.length).head? = some dquote then some t else none
      else none
  else none

/-- The call `std::regex_search(microdata, match, typePattern)`: the leftmost match. -/
def searchType : CppString → Option CppString
  | [] => none
  | c :: cs =>
    match matchTypeAt (c :: cs) with
    | some t => some t
    | none => searchType cs

/-- The function `SyncStorage::ExtractTypeFromMicrodata`. -/
def ExtractTypeFromMicrodata (microdata : CppString) : CppString :=
  match searchType microdata with
  | some t => t
  | none =>
    if containsSubstr "<div".toList microdata || containsSubstr "itemscope".toList microdata then
      "CLOB".toList
    else
      "BLOB".toList

/-- The function `SyncStorage::GetObjectType`, with its memo map `typeCache_`. -/
def SyncStorage.GetObjectType (s : SyncStorage) (hash : CppString) : CppString × SyncStorage :=
  match s.typeCache hash with
  | some t => (t, s)
  | none =>
    let type := ExtractTypeFromMicrodata (s.ReadFirst100Bytes hash)
    (type, { s with typeCache := fun h => if h = hash then some type else s.typeCache h })

/-- The function `SyncStorage::GetObjectMetadata`, with its memo map `metadataCache_`. -/
def SyncStorage.GetObjectMetadata (s : SyncStorage) (hash : CppString) :
    ObjectMetadata × SyncStorage :=
  match s.metadataCache hash with
  | some m => (m, s)
  | none =>
    let r : ObjectMetadata × SyncStorage :=
      match s.objects.lookup hash with
      | some content =>
        let t := s.GetObjectType hash
        ({ exists_ := true, size := content.length, isDirectory := false, type := t.1 }, t.2)
      | none =>
        ({ exists_ := false, size := 0, isDirectory := false, type := "UNKNOWN".toList }, s)
    (r.1, { r.2 with metadataCache := fun h => if h = hash then some r.1 else r.2.metadataCache h })

/-- A character of the class `[0-9a-fA-F]`. -/
def isHexDigit (c : Char) : Bool :=
  ('0' ≤ c && c ≤ '9') || ('a' ≤ c && c ≤ 'f') || ('A' ≤ c && c ≤ 'F')

/-- A match of `hashPattern`, the expression `/objects/([0-9a-fA-F]{64})(?:/|$)`, that
starts at the head of `s`: the captured group. -/
def matchHashAt (s : CppString) : Option CppString :=
  if "/objects/".toList.isPrefixOf s then
    let rest := s.drop 9
    let h := rest.take 64
    if h.length = 64 ∧ h.all isHexDigit = true ∧
        (rest.drop 64 = [] ∨ (rest.drop 64).head? = some '/') then some h else none
  else none

/-- The function `SyncStorage::ExtractHashFromPath`: the group of the leftmost match of
`hashPattern`, or the empty string. -/
def ExtractHashFromPath : CppString → CppString
  | [] => []
  | c :: cs =>
    match matchHashAt (c :: cs) with
    | some h => h
    | none => ExtractHashFromPath cs

/-- The function `SyncStorage::IsObjectPath`: `virtualPath.compare(0, 9, "/objects/") == 0`. -/
def IsObjectPath (virtualPath : CppString) : Bool :=
  virtualPath.take 9 == "/objects/".toList

/-- The function `SyncStorage::GetVirtualPathMetadata`. -/
def SyncStorage.GetVirtualPathMetadata (s : SyncStorage) (virtualPath : CppString) :
    ObjectMetadata × SyncStorage :=
  if virtualPath = "/".toList ∨ virtualPath = "/objects".toList ∨ virtualPath = "/chats".toList ∨
      virtualPath = "/debug".toList ∨ virtualPath = "/invites".toList ∨
      virtualPath = "/types".toList then
    ({ ObjectMetadata.init with
        exists_ := true, isDirectory := true, size := 0, type := "DIRECTORY".toList }, s)
  else if IsObjectPath virtualPath = true ∧ ExtractHashFromPath virtualPath ≠ [] then
    let hash := ExtractHashFromPath virtualPath
    let r := s.GetObjectMetadata hash
    if virtualPath = "/objects/".toList ++ hash then
      ({ ObjectMetadata.init with
          exists_ := r.1.exists_, isDirectory := false, size := r.1.size, type := "FILE".toList },
        r.2)
    else
      ({ ObjectMetadata.init with exists_ := false }, r.2)
  else
    ({ ObjectMetadata.init with exists_ := false }, s)

/-- The function `SyncStorage::ReadVirtualPath`. -/
def SyncStorage.ReadVirtualPath (s : SyncStorage) (virtualPath : CppString) : Option CppString :=
  if IsObjectPath virtualPath = false then none
  else
    let hash := ExtractHashFromPath virtualPath
    if hash = [] then none
    else if virtualPath = "/objects/".toList ++ hash then s.ReadObject hash
    else none

/-! ## Content cache -/

/-- The record `FileInfo` of a directory entry, with the fields the sources assign. -/
structure FileInfo where
  name : CppString
  hash : CppString
  size : Nat
  isDirectory : Bool
  isBlobOrClob : Bool
  mode : Nat
  deriving DecidableEq, Repr

/-- Modelled from the spec: `content_cache.h` is not among the sources, so the value of a
default-constructed `FileInfo` is taken as empty strings, zero numbers and false flags. -/
def FileInfo.init : FileInfo :=
  { name := [], hash := [], size := 0, isDirectory := false, isBlobOrClob := false, mode := 0 }

/-- The record `DirectoryListing`: the entries in the order of the data source. -/
structure DirectoryListing where
  entries : List FileInfo
  deriving DecidableEq, Repr

/-- The record `FileContent`: an owned byte buffer. -/
structure FileContent where
  data : Bytes
  deriving DecidableEq, Repr

/-- Modelled from the spec: `content_cache.h` is not among the sources. The Content Cache
is three maps from a path to metadata, to a directory listing and to byte content, with
get and set operations, no eviction, and last-writer-wins on overwrite. -/
structure ContentCache where
  fileInfo : CppString → Option FileInfo
  directoryListing : CppString → Option DirectoryListing
  fileContent : CppString → Option FileContent

/-- Modelled from the spec: the cache of a new bridge holds nothing. -/
def ContentCache.empty : ContentCache :=
  { fileInfo := fun _ => none, directoryListing := fun _ => none, fileContent := fun _ => none }

/-- Modelled from the spec: `getFileInfo(path) -> optional`. -/
def ContentCache.GetFileInfo (c : ContentCache) (path : CppString) : Option FileInfo :=
  c.fileInfo path

/-- Modelled from the spec: `getDirectoryListing(path) -> optional`. -/
def ContentCache.GetDirectoryListing (c : ContentCache) (path : CppString) :
    Option DirectoryListing :=
  c.directoryListing path

/-- Modelled from the spec: `getFileContent(path) -> optional`. -/
def ContentCache.GetFileContent (c : ContentCache) (path : CppString) : Option FileContent :=
  c.fileContent path

/-- Modelled from the spec: `setFileInfo(path, info)`, last writer wins. -/
def ContentCache.SetFileInfo (c : ContentCache) (path : CppString) (info : FileInfo) :
    ContentCache :=
  { c with fileInfo := fun p => if p = path then some info else c.fileInfo p }

/-- Modelled from the spec: `setDirectoryListing(path, listing)`, last writer wins. -/
def ContentCache.SetDirectoryListing (c : ContentCache) (path : CppString)
    (listing : DirectoryListing) : ContentCache :=
  { c with directoryListing := fun p => if p = path then some listing else c.directoryListing p }

/-- Modelled from the spec: `setFileContent(path, content)`, last writer wins. -/
def ContentCache.SetFileContent (c : ContentCache) (path : CppString) (content : FileContent) :
    ContentCache :=
  { c with fileContent := fun p => if p = path then some content else c.fileContent p }

/-! ## The JavaScript data provider, as seen from the bridge -/

/-- A JavaScript object of the entry shape: each property is present or absent. -/
structure JsObject where
  name : Option CppString
  hash : Option CppString
  size : Option Nat
  isDirectory : Option Bool
  isBlobOrClob : Option Bool
  mode : Option Nat
  deriving DecidableEq, Repr

/-- An element of a JavaScript array: an object or something else. -/
inductive JsItem
  | object (o : JsObject)
  | other
  deriving DecidableEq, Repr

/-- A JavaScript value handed to the bridge. -/
inductive JsValue
  | null
  | object (o : JsObject)
  | array (items : List JsItem)
  | buffer (data : Bytes)
  | other
  deriving DecidableEq, Repr

/-- What a provider function does when the bridge calls it: it returns a promise, which is
resolved (with or without an argument), rejected or not settled, or it returns a value
directly. -/
inductive JsReturn
  | promiseResolved (arg : Option JsValue)
  | promiseRejected
  | promisePending
  | direct (v : JsValue)
  deriving DecidableEq, Repr

/-- The functions of the external data provider that the fetch operations call. -/
structure JsProvider where
  getFileInfo : CppString → JsReturn
  readFile : CppString → JsReturn
  readDirectory : CppString → JsReturn

/-- The conversion `Napi::Number::Uint32Value` on a non-negative integral number. -/
def Uint32Value (n : Nat) : Nat := n % 2 ^ 32

/-- The function `AsyncBridge::ParseFileInfo`. -/
def ParseFileInfo (jsObject : JsObject) : FileInfo :=
  let info := FileInfo.init
  let info := match jsObject.name with
    | some v => { info with name := v }
    | none => info
  let info := match jsObject.hash with
    | some v => { info with hash := v }
    | none => info
  let info := match jsObject.size with
    | some v => { info with size := Uint32Value v }
    | none => info
  let info := match jsObject.isDirectory with
    | some v => { info with isDirectory := v }
    | none => info
  let info := match jsObject.isBlobOrClob with
    | some v => { info with isBlobOrClob := v }
    | none => info
  match jsObject.mode with
  | some v => { info with mode := Uint32Value v }
  | none => info

/-- The function `AsyncBridge::ParseDirectoryListing`: elements that are not objects are
passed over. -/
def ParseDirectoryListing : List JsItem → DirectoryListing
  | [] => { entries := [] }
  | JsItem.object o :: rest =>
    { entries := ParseFileInfo o :: (ParseDirectoryListing rest).entries }
  | JsItem.other :: rest => ParseDirectoryListing rest

/-- The object without any of the entry properties. -/
def JsObject.none : JsObject :=
  { name := Option.none, hash := Option.none, size := Option.none, isDirectory := Option.none,
    isBlobOrClob := Option.none, mode := Option.none }

/-- The test `v.IsObject() && !v.IsNull()` followed by `v.As<Napi::Object>()`: arrays and
buffers are objects too, without the entry properties. -/
def JsValue.asObject : JsValue → Option JsObject
  | JsValue.object o => some o
  | JsValue.array _ => some JsObject.none
  | JsValue.buffer _ => some JsObject.none
  | JsValue.null => Option.none
  | JsValue.other => Option.none

/-! ## AsyncBridge (`async_bridge.cpp`) -/

/-- A call handed to the JavaScript thread through `NonBlockingCall`. -/
inductive JsCall
  | getFileInfo (path : CppString)
  | readFile (path : CppString)
  | readDirectory (path : CppString)
  deriving DecidableEq, Repr

/-- A fetch member function of the bridge, as invoked by a caller. -/
inductive BridgeRequest
  | FetchFileInfo (path : CppString)
  | FetchDirectoryListing (path : CppString)
  | FetchFileContent (path : CppString)
  deriving DecidableEq, Repr

/-- The kind of a queued write intent (`WriteOperation::Type`). -/
inductive WriteOperationType
  | CREATE
  | UPDATE
  | DELETE_FILE
  deriving DecidableEq, Repr

/-- The record `WriteOperation` of the write queue, as the queueing functions build it. -/
structure WriteOperation where
  type : WriteOperationType
  path : CppString
  content : Bytes
  deriving DecidableEq, Repr

/-- The state of an `AsyncBridge`: the shared cache, which callbacks are registered, the
calls posted to the JavaScript thread and not yet served, and (for observation only) the
fetch requests received so far, oldest first. The write side has the queue `writeQueue_`
(front first), whether `createFile` is registered, and the `createFile` calls (path and
content) posted through `createFileCallback_`, oldest first. -/
structure AsyncBridge where
  cache : ContentCache
  getFileInfoCallback : Bool
  readFileCallback : Bool
  readDirectoryCallback : Bool
  posted : List JsCall
  received : List BridgeRequest
  createFileCallback : Bool := false
  writeQueue : List WriteOperation := []
  createFilePosted : List (CppString × Bytes) := []

/-- The function `AsyncBridge::GetCache`. -/
def AsyncBridge.GetCache (b : AsyncBridge) : ContentCache := b.cache

/-- The function `AsyncBridge::FetchFileInfo`, up to the posting of the call. -/
def AsyncBridge.FetchFileInfo (b : AsyncBridge) (path : CppString) : AsyncBridge :=
  let b := { b with received := b.received ++ [BridgeRequest.FetchFileInfo path] }
  if b.getFileInfoCallback = false then b
  else { b with posted := b.posted ++ [JsCall.getFileInfo path] }

/-- The function `AsyncBridge::FetchDirectoryListing`, up to the posting of the call. -/
def AsyncBridge.FetchDirectoryListing (b : AsyncBridge) (path : CppString) : AsyncBridge :=
  let b := { b with received := b.received ++ [BridgeRequest.FetchDirectoryListing path] }
  if b.readDirectoryCallback = false then b
  else { b with posted := b.posted ++ [JsCall.readDirectory path] }

/-- The function `AsyncBridge::FetchFileContent`, up to the posting of the call. -/
def AsyncBridge.FetchFileContent (b : AsyncBridge) (path : CppString) : AsyncBridge :=
  let b := { b with received := b.received ++ [BridgeRequest.FetchFileContent path] }
  if b.readFileCallback = false then b
  else { b with posted := b.posted ++ [JsCall.readFile path] }

/-- The body of the lambda given to `NonBlockingCall`, run on the JavaScript thread: the
provider function is called and its result handled (`onResolve`, `onReject`, or the
direct-result branch). -/
def AsyncBridge.serve (js : JsProvider) (b : AsyncBridge) : JsCall → AsyncBridge
  | JsCall.getFileInfo path =>
    match js.getFileInfo path with
    | JsReturn.promiseResolved (some v) =>
      match v.asObject with
      | some o => { b with cache := b.cache.SetFileInfo path (ParseFileInfo o) }
      | none => b
    | JsReturn.direct v =>
      match v.asObject with
      | some o => { b with cache := b.cache.SetFileInfo path (ParseFileInfo o) }
      | none => b
    | _ => b
  | JsCall.readDirectory path =>
    match js.readDirectory path with
    | JsReturn.promiseResolved (some (JsValue.array items)) =>
      { b with cache := b.cache.SetDirectoryListing path (ParseDirectoryListing items) }
    | _ => b
  | JsCall.readFile path =>
    match js.readFile path with
    | JsReturn.promiseResolved (some (JsValue.buffer data)) =>
      { b with cache := b.cache.SetFileContent path { data := data } }
    | _ => b

/-- The JavaScript thread serves every posted call, oldest first. -/
def AsyncBridge.servePosted (js : JsProvider) (b : AsyncBridge) : AsyncBridge :=
  b.posted.foldl (AsyncBridge.serve js) { b with posted := [] }

/-- The function `AsyncBridge::QueueCreateFile`. -/
def AsyncBridge.QueueCreateFile (b : AsyncBridge) (path : CppString) (content : Bytes) :
    AsyncBridge :=
  { b with writeQueue := b.writeQueue ++
      [{ type := WriteOperationType.CREATE, path := path, content := content }] }

/-- The function `AsyncBridge::QueueUpdateFile`. -/
def AsyncBridge.QueueUpdateFile (b : AsyncBridge) (path : CppString) (content : Bytes) :
    AsyncBridge :=
  { b with writeQueue := b.writeQueue ++
      [{ type := WriteOperationType.UPDATE, path := path, content := content }] }

/-- The function `AsyncBridge::QueueDeleteFile`. -/
def AsyncBridge.QueueDeleteFile (b : AsyncBridge) (path : CppString) : AsyncBridge :=
  { b with writeQueue := b.writeQueue ++
      [{ type := WriteOperationType.DELETE_FILE, path := path, content := [] }] }

/-- The body of the loop of `ProcessWriteQueue` for the operation at the front: a CREATE
is posted to `createFile` when that callback is registered; UPDATE and DELETE_FILE do
nothing. -/
def AsyncBridge.processOperation (b : AsyncBridge) (op : WriteOperation) : AsyncBridge :=
  match op.type with
  | WriteOperationType.CREATE =>
    if b.createFileCallback then
      { b with createFilePosted := b.createFilePosted ++ [(op.path, op.content)] }
    else b
  | WriteOperationType.UPDATE => b
  | WriteOperationType.DELETE_FILE => b

/-- The function `AsyncBridge::ProcessWriteQueue`: the queue is swapped into a local
queue, which is then processed front to back. -/
def AsyncBridge.ProcessWriteQueue (b : AsyncBridge) : AsyncBridge :=
  b.writeQueue.foldl AsyncBridge.processOperation { b with writeQueue := [] }

/-! ## ProjFSProvider (`projfs_provider.h`, `projfs_provider.cpp`) -/

/-- An enumeration identifier (`GUID`), compared by value. -/
abbrev GUID := Nat

/-- The largest value of the C++ type `int`. -/
def INT_MAX : Int := 2147483647

/-- The statement `callCount++` on an `int`. Past `INT_MAX` the C++ behaviour is undefined;
the embedding takes the two's-complement wrap. -/
def incInt (c : Int) : Int := if c = INT_MAX then -2147483648 else c + 1

/-- An increment by `n` of a `std::atomic<uint64_t>` counter. -/
def add64 (x n : Nat) : Nat := (x + n) % 2 ^ 64

/-- The decrement of a `std::atomic<uint64_t>` counter: zero wraps to the largest value. -/
def dec64 (x : Nat) : Nat := if x = 0 then 2 ^ 64 - 1 else x - 1

/-- The record `EnumerationState`, with the member initialisers of the header. -/
structure EnumerationState where
  entries : List CppString := []
  nextIndex : Nat := 0
  isLoading : Bool := false
  isComplete : Bool := false
  callCount : Int := 0
  deriving DecidableEq, Repr

/-- The constant `EnumerationState::MAX_CALLS_PER_ENUM`. -/
def MAX_CALLS_PER_ENUM : Int := 100

/-- The record `ProviderStats`. -/
structure ProviderStats where
  placeholderRequests : Nat := 0
  fileDataRequests : Nat := 0
  directoryEnumerations : Nat := 0
  enumerationCallbacks : Nat := 0
  activeEnumerations : Nat := 0
  bytesRead : Nat := 0
  cacheHits : Nat := 0
  cacheMisses : Nat := 0
  deriving DecidableEq, Repr

/-- The state of a `ProjFSProvider` that the callbacks read and write. -/
structure ProjFSProvider where
  storage : SyncStorage
  asyncBridge : Option AsyncBridge
  stats : ProviderStats
  enumerationStates : GUID → Option EnumerationState
  rootEnumerationCount : Int

/-- What the operating system decides during a callback: the file-name matcher, the names
for which `PrjFillDirEntryBuffer` fails with a code other than
`ERROR_INSUFFICIENT_BUFFER`, and the system time read by `GetSystemTimeAsFileTime`. -/
structure Win32 where
  PrjFileNameMatch : CppString → CppString → Bool
  fillRejects : CppString → Bool
  systemTime : Nat

/-- The attribute `FILE_ATTRIBUTE_DIRECTORY`. -/
def FILE_ATTRIBUTE_DIRECTORY : Nat := 16

/-- The attribute `FILE_ATTRIBUTE_NORMAL`. -/
def FILE_ATTRIBUTE_NORMAL : Nat := 128

/-- The record `PRJ_FILE_BASIC_INFO`. -/
structure PRJ_FILE_BASIC_INFO where
  IsDirectory : Bool
  FileSize : Nat
  CreationTime : Nat
  LastAccessTime : Nat
  LastWriteTime : Nat
  ChangeTime : Nat
  FileAttributes : Nat
  deriving DecidableEq, Repr

/-- The part of `PRJ_CALLBACK_DATA` that the callbacks read: the path relative to the
virtualization root and whether `Flags` has `PRJ_CB_DATA_FLAG_ENUM_RESTART_SCAN`. The
instance context is the provider, passed next to it and never null here. -/
structure PRJ_CALLBACK_DATA where
  FilePathName : CppString
  restartScan : Bool

/-- The statement `std::replace(relativePath.begin(), relativePath.end(), backslash, slash)`. -/
def replaceBackslashes (relativePath : CppString) : CppString :=
  relativePath.map (fun c => if c = backslash then '/' else c)

/-- The virtual path the callbacks compute from `FilePathName`: backslashes are replaced
and a slash is put in front; the empty path gives `/`. -/
def virtualPathOf (filePathName : CppString) : CppString :=
  let relativePath := replaceBackslashes filePathName
  if relativePath = [] then "/".toList else "/".toList ++ relativePath

/-- The function `ProjFSProvider::CreateFileBasicInfo`; `ft` is the system time read. -/
def CreateFileBasicInfo (metadata : ObjectMetadata) (ft : Nat) : PRJ_FILE_BASIC_INFO :=
  if metadata.isDirectory then
    { IsDirectory := true, FileSize := 0, FileAttributes := FILE_ATTRIBUTE_DIRECTORY,
      CreationTime := ft, LastWriteTime := ft, LastAccessTime := ft, ChangeTime := ft }
  else
    { IsDirectory := false, FileSize := metadata.size, FileAttributes := FILE_ATTRIBUTE_NORMAL,
      CreationTime := ft, LastWriteTime := ft, LastAccessTime := ft, ChangeTime := ft }

/-- The outcome of `GetPlaceholderInfoCallback`: the status, the provider afterwards, and
the basic info handed to `PrjWritePlaceholderInfo` together with the metadata it was made
from, when that function was called. -/
structure PlaceholderResult where
  hr : HRESULT
  provider : ProjFSProvider
  written : Option (ObjectMetadata × PRJ_FILE_BASIC_INFO)

/-- The predicate on a virtual path of being one of the five known virtual directories. -/
def isKnownVirtualDirectory (virtualPath : CppString) : Bool :=
  virtualPath == "/objects".toList || virtualPath == "/chats".toList ||
    virtualPath == "/invites".toList || virtualPath == "/debug".toList ||
    virtualPath == "/types".toList

/-- The callback `ProjFSProvider::GetPlaceholderInfoCallback`; `writeResult` is what
`PrjWritePlaceholderInfo` returns. -/
def GetPlaceholderInfoCallback (os : Win32) (writeResult : HRESULT) (provider : ProjFSProvider)
    (callbackData : PRJ_CALLBACK_DATA) : PlaceholderResult :=
  let provider := { provider with
    stats := { provider.stats with
      placeholderRequests := add64 provider.stats.placeholderRequests 1 } }
  let virtualPath := virtualPathOf callbackData.FilePathName
  let m := provider.storage.GetVirtualPathMetadata virtualPath
  let provider := { provider with storage := m.2 }
  if m.1.exists_ then
    { hr := writeResult, provider := provider,
      written := some (m.1, CreateFileBasicInfo m.1 os.systemTime) }
  else
    match provider.asyncBridge with
    | some bridge =>
      match bridge.GetCache.GetFileInfo virtualPath with
      | some fileInfo =>
        let metadata : ObjectMetadata :=
          { exists_ := true, isDirectory := fileInfo.isDirectory, size := fileInfo.size,
            type := if fileInfo.isDirectory then "DIRECTORY".toList else "FILE".toList }
        { hr := writeResult,
          provider := { provider with
            stats := { provider.stats with cacheHits := add64 provider.stats.cacheHits 1 } },
          written := some (metadata, CreateFileBasicInfo metadata os.systemTime) }
      | none =>
        let provider := { provider with
          stats := { provider.stats with cacheMisses := add64 provider.stats.cacheMisses 1 } }
        if isKnownVirtualDirectory virtualPath then
          let metadata : ObjectMetadata :=
            { exists_ := true, isDirectory := true, size := 0, type := "DIRECTORY".toList }
          { hr := writeResult, provider := provider,
            written := some (metadata, CreateFileBasicInfo metadata os.systemTime) }
        else
          { hr := HRESULT.ERROR_FILE_NOT_FOUND,
            provider := { provider with asyncBridge := some (bridge.FetchFileInfo virtualPath) },
            written := none }
    | none =>
      if isKnownVirtualDirectory virtualPath then
        let metadata : ObjectMetadata :=
          { exists_ := true, isDirectory := true, size := 0, type := "DIRECTORY".toList }
        { hr := writeResult, provider := provider,
          written := some (metadata, CreateFileBasicInfo metadata os.systemTime) }
      else
        { hr := HRESULT.ERROR_FILE_NOT_FOUND, provider := provider, written := none }

/-- The bytes of a `std::string`. -/
def toBytes (s : CppString) : Bytes := s.map (fun c => UInt8.ofNat c.toNat)

/-- The outcome of `GetFileDataCallback`: the status, the provider afterwards, and the
offset and data handed to `PrjWriteFileData`, when that function was called. -/
structure FileDataResult where
  hr : HRESULT
  provider : ProjFSProvider
  written : Option (Nat × Bytes)

/-- The part of `GetFileDataCallback` that serves a byte range of `data`: nothing is
written at or past the end; otherwise `bytesToWrite` bytes from `byteOffset` on are copied
to an aligned buffer and given to `PrjWriteFileData`. `allocOk` tells whether
`PrjAllocateAlignedBuffer` returned a buffer, `writeResult` what `PrjWriteFileData`
returns; `cacheHit` tells whether the cache-hit counter is incremented. -/
def serveRange (allocOk : Bool) (writeResult : HRESULT) (provider : ProjFSProvider)
    (data : Bytes) (byteOffset length : Nat) (cacheHit : Bool) : FileDataResult :=
  let contentSize := data.length
  if byteOffset ≥ contentSize then
    { hr := HRESULT.S_OK, provider := provider, written := none }
  else
    let bytesToWrite := min length (contentSize - byteOffset)
    let stats := { provider.stats with bytesRead := add64 provider.stats.bytesRead bytesToWrite }
    let stats := if cacheHit then { stats with cacheHits := add64 stats.cacheHits 1 } else stats
    let provider := { provider with stats := stats }
    if allocOk = false then
      { hr := HRESULT.E_OUTOFMEMORY, provider := provider, written := none }
    else
      { hr := writeResult, provider := provider,
        written := some (byteOffset, (data.drop byteOffset).take bytesToWrite) }

/-- The callback `ProjFSProvider::GetFileDataCallback`. -/
def GetFileDataCallback (allocOk : Bool) (writeResult : HRESULT) (provider : ProjFSProvider)
    (callbackData : PRJ_CALLBACK_DATA) (byteOffset length : Nat) : FileDataResult :=
  let provider := { provider with
    stats := { provider.stats with fileDataRequests := add64 provider.stats.fileDataRequests 1 } }
  let virtualPath := virtualPathOf callbackData.FilePathName
  let cached : Option FileContent :=
    match provider.asyncBridge with
    | some bridge =>
      match bridge.GetCache.GetFileContent virtualPath with
      | some content => if content.data ≠ [] then some content else none
      | none => none
    | none => none
  match cached with
  | some content => serveRange allocOk writeResult provider content.data byteOffset length true
  | none =>
    let provider :=
      match provider.asyncBridge with
      | some _ => { provider with
          stats := { provider.stats with cacheMisses := add64 provider.stats.cacheMisses 1 } }
      | none => provider
    let stored : Option CppString :=
      if IsObjectPath virtualPath then provider.storage.ReadVirtualPath virtualPath else none
    match stored with
    | some content =>
      serveRange allocOk writeResult provider (toBytes content) byteOffset length false
    | none =>
      match provider.asyncBridge with
      | some bridge =>
        { hr := HRESULT.ERROR_FILE_NOT_FOUND,
          provider := { provider with asyncBridge := some (bridge.FetchFileContent virtualPath) },
          written := none }
      | none => { hr := HRESULT.ERROR_FILE_NOT_FOUND, provider := provider, written := none }

/-! ### Directory enumeration -/

/-- The output buffer behind `PRJ_DIR_ENTRY_BUFFER_HANDLE`: how many entries it has room
for in this callback, and the entries written to it so far. Whatever the layout of the
real buffer, in one callback it accepts some number of entries and then reports that it
is full; `capacity` is that number. -/
structure DirEntryBuffer where
  capacity : Nat
  written : List (CppString × PRJ_FILE_BASIC_INFO)
  deriving DecidableEq, Repr

/-- The function `PrjFillDirEntryBuffer`. -/
def PrjFillDirEntryBuffer (os : Win32) (fileName : CppString) (info : PRJ_FILE_BASIC_INFO)
    (buf : DirEntryBuffer) : HRESULT × DirEntryBuffer :=
  if os.fillRejects fileName then (HRESULT.E_INVALIDARG, buf)
  else if buf.written.length < buf.capacity then
    (HRESULT.S_OK, { buf with written := buf.written ++ [(fileName, info)] })
  else (HRESULT.ERROR_INSUFFICIENT_BUFFER, buf)

/-- The callback `ProjFSProvider::StartDirectoryEnumerationCallback`. -/
def StartDirectoryEnumerationCallback (provider : ProjFSProvider)
    (callbackData : PRJ_CALLBACK_DATA) (enumerationId : GUID) : HRESULT × ProjFSProvider :=
  let provider := { provider with
    stats := { provider.stats with
      activeEnumerations := add64 provider.stats.activeEnumerations 1 } }
  let provider :=
    if replaceBackslashes callbackData.FilePathName = [] then
      { provider with rootEnumerationCount := incInt provider.rootEnumerationCount }
    else provider
  (HRESULT.S_OK,
    { provider with
      enumerationStates := fun g =>
        if g = enumerationId then some {} else provider.enumerationStates g })

/-- The callback `ProjFSProvider::EndDirectoryEnumerationCallback`. -/
def EndDirectoryEnumerationCallback (provider : ProjFSProvider)
    (_callbackData : PRJ_CALLBACK_DATA) (enumerationId : GUID) : HRESULT × ProjFSProvider :=
  (HRESULT.S_OK,
    { provider with
      stats := { provider.stats with activeEnumerations := dec64 provider.stats.activeEnumerations },
      enumerationStates := fun g =>
        if g = enumerationId then none else provider.enumerationStates g })

/-- The name of one of the five virtual directories of the root. -/
def isRootVirtualEntry (entry : CppString) : Bool :=
  entry == "objects".toList || entry == "chats".toList || entry == "invites".toList ||
    entry == "debug".toList || entry == "types".toList

/-- The metadata of one entry in the pagination loop: the virtual directories of the
root are forced to directories; otherwise the cached `FileInfo` of
`virtualPath + "/" + entry` is used, and the storage metadata of that path when there is
no cache or no cached `FileInfo`. -/
def entryMetadata (cache : Option ContentCache) (storage : SyncStorage)
    (virtualPath entry : CppString) : ObjectMetadata × SyncStorage :=
  let entryPath := virtualPath ++ "/".toList ++ entry
  if virtualPath = "/".toList ∧ isRootVirtualEntry entry = true then
    ({ exists_ := true, isDirectory := true, size := 0, type := "DIRECTORY".toList }, storage)
  else
    match cache with
    | some c =>
      match c.GetFileInfo entryPath with
      | some fileInfo =>
        ({ exists_ := true, isDirectory := fileInfo.isDirectory, size := fileInfo.size,
           type := if fileInfo.isDirectory then "DIRECTORY".toList else "FILE".toList }, storage)
      | none => storage.GetVirtualPathMetadata entryPath
    | none => storage.GetVirtualPathMetadata entryPath

/-- The loop `while (enumState.nextIndex < enumState.entries.size())` of the callback, on
the storage, `nextIndex` and the output buffer. The first argument bounds the number of
iterations; `entries.length - nextIndex` is enough, since every iteration that does not
leave the loop increments `nextIndex`. -/
def paginate (os : Win32) (cache : Option ContentCache) (virtualPath searchPattern : CppString)
    (entries : List CppString) :
    Nat → SyncStorage → Nat → DirEntryBuffer → SyncStorage × Nat × DirEntryBuffer
  | 0, storage, nextIndex, buf => (storage, nextIndex, buf)
  | fuel + 1, storage, nextIndex, buf =>
    if h : nextIndex < entries.length then
      let entry := entries[nextIndex]
      if os.PrjFileNameMatch entry searchPattern = false then
        paginate os cache virtualPath searchPattern entries fuel storage (nextIndex + 1) buf
      else
        let m := entryMetadata cache storage virtualPath entry
        if m.1.exists_ = false then
          paginate os cache virtualPath searchPattern entries fuel m.2 (nextIndex + 1) buf
        else
          let r := PrjFillDirEntryBuffer os entry (CreateFileBasicInfo m.1 os.systemTime) buf
          if FAILED r.1 = true ∧ r.1 ≠ HRESULT.ERROR_INSUFFICIENT_BUFFER then
            paginate os cache virtualPath searchPattern entries fuel m.2 (nextIndex + 1) r.2
          else if r.1 = HRESULT.ERROR_INSUFFICIENT_BUFFER then
            (m.2, nextIndex, r.2)
          else
            paginate os cache virtualPath searchPattern entries fuel m.2 (nextIndex + 1) r.2
    else (storage, nextIndex, buf)

/-- The outcome of `GetDirectoryEnumerationCallback`: the status, the provider afterwards
and the output buffer afterwards. -/
structure EnumResult where
  hr : HRESULT
  provider : ProjFSProvider
  buffer : DirEntryBuffer

/-- The provider with the state of session `enumerationId` replaced. -/
def ProjFSProvider.setEnumState (provider : ProjFSProvider) (enumerationId : GUID)
    (enumState : EnumerationState) : ProjFSProvider :=
  { provider with
    enumerationStates := fun g =>
      if g = enumerationId then some enumState else provider.enumerationStates g }

/-- The local state of the loading step: the entries of the session, the flag
`gotEntries`, and the provider. -/
structure LoadState where
  entries : List CppString
  gotEntries : Bool
  provider : ProjFSProvider

/-- The first source of the loading step ("Try cache first"): the cached listing of
`virtualPath`, whose names are appended to the entries. -/
def loadFromCache (provider : ProjFSProvider) (virtualPath : CppString)
    (entries : List CppString) : LoadState :=
  match provider.asyncBridge with
  | some bridge =>
    match bridge.GetCache.GetDirectoryListing virtualPath with
    | some listing =>
      { entries := entries ++ listing.entries.map (fun fileInfo => fileInfo.name),
        gotEntries := true,
        provider := { provider with
          stats := { provider.stats with cacheHits := add64 provider.stats.cacheHits 1 } } }
    | none =>
      { entries := entries, gotEntries := false,
        provider := { provider with
          stats := { provider.stats with cacheMisses := add64 provider.stats.cacheMisses 1 } } }
  | none => { entries := entries, gotEntries := false, provider := provider }

/-- The second source ("use storage ONLY for /objects paths"). -/
def loadFromStorage (virtualPath : CppString) (l : LoadState) : LoadState :=
  if l.gotEntries = false ∧
      (virtualPath = "/objects".toList ∨ IsObjectPath virtualPath = true) then
    { l with entries := l.provider.storage.ListDirectory virtualPath, gotEntries := true }
  else l

/-- The third source: `FetchDirectoryListing`, a wait of 100 ms during which the
JavaScript thread serves the posted calls, and a second look into the cache. -/
def loadFromBridge (js : JsProvider) (virtualPath : CppString) (l : LoadState) : LoadState :=
  if l.gotEntries = false then
    match l.provider.asyncBridge with
    | some bridge =>
      let bridge := (bridge.FetchDirectoryListing virtualPath).servePosted js
      match bridge.GetCache.GetDirectoryListing virtualPath with
      | some listing =>
        { entries := listing.entries.map (fun fileInfo => fileInfo.name), gotEntries := true,
          provider := { l.provider with
            asyncBridge := some bridge,
            stats := { l.provider.stats with cacheHits := add64 l.provider.stats.cacheHits 1 } } }
      | none => { l with provider := { l.provider with asyncBridge := some bridge } }
    | none => l
  else l

/-- The loading step of the callback (first call of a session): the three sources in
turn. The result is the entries and the provider afterwards. -/
def loadEntries (js : JsProvider) (provider : ProjFSProvider) (virtualPath : CppString)
    (entries : List CppString) : LoadState :=
  loadFromBridge js virtualPath (loadFromStorage virtualPath
    (loadFromCache provider virtualPath entries))

/-- The part of the callback from the label `process_entries` on. -/
def processEntries (os : Win32) (provider : ProjFSProvider) (virtualPath : CppString)
    (enumerationId : GUID) (searchExpression : Option CppString) (enumState : EnumerationState)
    (buf : DirEntryBuffer) : EnumResult :=
  if enumState.nextIndex ≥ enumState.entries.length then
    { hr := HRESULT.S_OK,
      provider := provider.setEnumState enumerationId { enumState with isComplete := true },
      buffer := buf }
  else
    let searchPattern := searchExpression.getD "*".toList
    let r := paginate os (provider.asyncBridge.map AsyncBridge.GetCache) virtualPath searchPattern
      enumState.entries (enumState.entries.length - enumState.nextIndex) provider.storage
      enumState.nextIndex buf
    { hr := HRESULT.S_OK,
      provider := ({ provider with storage := r.1 } : ProjFSProvider).setEnumState enumerationId
        { enumState with nextIndex := r.2.1 },
      buffer := r.2.2 }

/-- The state of session `enumerationId` that a get-batch call works on: the state in
the table, or a newly created one when the table has none ("creating new state"). -/
def sessionOf (enumerationId : GUID) (provider : ProjFSProvider) : EnumerationState :=
  match provider.enumerationStates enumerationId with
  | some st => st
  | none => {}

/-- The start of the callback on the session state: the state is looked up or created,
reset when the restart-scan flag is set, and `callCount` is incremented. -/
def enterSession (provider : ProjFSProvider) (restartScan : Bool) (enumerationId : GUID) :
    EnumerationState :=
  let enumState := sessionOf enumerationId provider
  let enumState : EnumerationState :=
    if restartScan then
      { enumState with
        nextIndex := 0, callCount := 0, entries := [], isComplete := false, isLoading := false }
    else enumState
  { enumState with callCount := incInt enumState.callCount }

/-- The callback from the safety check on `callCount` on: the call cap, the loading step
of a first call, and the pagination. The embedding is sequential: no other thread
changes the session while a call waits on `enumerationCv_`, so the bounded wait of a call
that finds `isLoading` set ends by timeout. -/
def enumerateFrom (os : Win32) (js : JsProvider) (provider : ProjFSProvider)
    (virtualPath : CppString) (enumerationId : GUID) (searchExpression : Option CppString)
    (enumState : EnumerationState) (dirEntryBufferHandle : DirEntryBuffer) : EnumResult :=
  if enumState.callCount > MAX_CALLS_PER_ENUM then
    { hr := HRESULT.S_OK, provider := provider.setEnumState enumerationId enumState,
      buffer := dirEntryBufferHandle }
  else if enumState.entries = [] ∧ enumState.isComplete = false then
    if enumState.isLoading then
      { hr := HRESULT.S_OK, provider := provider.setEnumState enumerationId enumState,
        buffer := dirEntryBufferHandle }
    else
      let l := loadEntries js provider virtualPath enumState.entries
      processEntries os l.provider virtualPath enumerationId searchExpression
        { enumState with entries := l.entries, isLoading := false, isComplete := true }
        dirEntryBufferHandle
  else
    processEntries os provider virtualPath enumerationId searchExpression enumState
      dirEntryBufferHandle

/-- The provider with the two counters of a get-batch call incremented. -/
def countEnumerationCall (provider : ProjFSProvider) : ProjFSProvider :=
  { provider with
    stats := { provider.stats with
      directoryEnumerations := add64 provider.stats.directoryEnumerations 1,
      enumerationCallbacks := add64 provider.stats.enumerationCallbacks 1 } }

/-- The callback `ProjFSProvider::GetDirectoryEnumerationCallback`. -/
def GetDirectoryEnumerationCallback (os : Win32) (js : JsProvider) (provider : ProjFSProvider)
    (callbackData : PRJ_CALLBACK_DATA) (enumerationId : GUID)
    (searchExpression : Option CppString) (dirEntryBufferHandle : DirEntryBuffer) : EnumResult :=
  enumerateFrom os js (countEnumerationCall provider) (virtualPathOf callbackData.FilePathName)
    enumerationId searchExpression
    (enterSession (countEnumerationCall provider) callbackData.restartScan enumerationId)
    dirEntryBufferHandle

/-- One get-batch call on session `enumerationId` with an empty output buffer that has
room for `capacity` entries: the names written, in order, and the provider afterwards. -/
def getBatch (os : Win32) (js : JsProvider) (provider : ProjFSProvider)
    (callbackData : PRJ_CALLBACK_DATA) (enumerationId : GUID)
    (searchExpression : Option CppString) (capacity : Nat) : List CppString × ProjFSProvider :=
  let r := GetDirectoryEnumerationCallback os js provider callbackData enumerationId
    searchExpression { capacity := capacity, written := [] }
  (r.buffer.written.map Prod.fst, r.provider)

/-- Get-batch calls repeated until a call returns no entry: the names returned, in call
order. Call number `k` (from `k = first` on) has the restart-scan flag iff `restart k` and
an output buffer with room for `caps k` entries. The first argument bounds the number of
calls; the result is `none` when that many calls all returned an entry. -/
def drainSession (os : Win32) (js : JsProvider) (filePathName : CppString)
    (enumerationId : GUID) (searchExpression : Option CppString) (restart : Nat → Bool)
    (caps : Nat → Nat) : Nat → Nat → ProjFSProvider → Option (List CppString)
  | 0, _, _ => none
  | fuel + 1, first, provider =>
    let r := getBatch os js provider
      { FilePathName := filePathName, restartScan := restart first } enumerationId
      searchExpression (caps first)
    if r.1 = [] then some []
    else
      (drainSession os js filePathName enumerationId searchExpression restart caps fuel
        (first + 1) r.2).map (fun rest => r.1 ++ rest)

/-! ## Sessions and sequences of calls -/

/-- The inputs of one get-batch call. -/
structure EnumCall where
  callbackData : PRJ_CALLBACK_DATA
  searchExpression : Option CppString
  dirEntryBufferHandle : DirEntryBuffer

/-- The provider after a sequence of get-batch calls on session `enumerationId`. -/
def runCalls (os : Win32) (js : JsProvider) (enumerationId : GUID) :
    ProjFSProvider → List EnumCall → ProjFSProvider
  | provider, [] => provider
  | provider, c :: cs =>
    runCalls os js enumerationId
      (GetDirectoryEnumerationCallback os js provider c.callbackData enumerationId
        c.searchExpression c.dirEntryBufferHandle).provider cs

/-- Two providers with the same storage and the same bridge (and so the same cache). -/
def sameData (p q : ProjFSProvider) : Prop :=
  p.storage = q.storage ∧ p.asyncBridge = q.asyncBridge

/-- Two outcomes of a get-batch call with the same status, the same output buffer, the
same storage and bridge, and the same state of session `enumerationId`. -/
def EnumResult.agree (enumerationId : GUID) (r s : EnumResult) : Prop :=
  r.hr = s.hr ∧ r.buffer = s.buffer ∧ sameData r.provider s.provider ∧
    r.provider.enumerationStates enumerationId = s.provider.enumerationStates enumerationId

/-- Two storage states that answer every query alike: the same object files, and for
every hash the same type and the same metadata (computed or memoized). -/
def sameAnswers (s t : SyncStorage) : Prop :=
  s.objects = t.objects ∧ (∀ h, (s.GetObjectType h).1 = (t.GetObjectType h).1) ∧
    (∀ h, (s.GetObjectMetadata h).1 = (t.GetObjectMetadata h).1)

/-- Whether the pagination loop writes `entry` to a buffer that has room: the name
matches the search pattern, its metadata resolves as existing, and
`PrjFillDirEntryBuffer` does not fail on it. -/
def entryShown (os : Win32) (cache : Option ContentCache) (storage : SyncStorage)
    (virtualPath searchPattern entry : CppString) : Bool :=
  os.PrjFileNameMatch entry searchPattern &&
    (entryMetadata cache storage virtualPath entry).1.exists_ && !os.fillRejects entry

/-- What the pagination loop achieves, started at index `i` with buffer `buf` and ending
in `r`: the storage answers as `s0` does, the buffer has received the next shown entries,
as many as it had room for, and the shown entries from the final index on are the
remaining ones. -/
def PaginateOutcome (shown : CppString → Bool) (entries : List CppString) (s0 : SyncStorage)
    (i : Nat) (buf : DirEntryBuffer) (r : SyncStorage × Nat × DirEntryBuffer) : Prop :=
  sameAnswers s0 r.1 ∧ r.2.2.capacity = buf.capacity ∧
    r.2.2.written.map Prod.fst =
      buf.written.map Prod.fst ++
        ((entries.drop i).filter shown).take (buf.capacity - buf.written.length) ∧
    (entries.drop r.2.1).filter shown =
      ((entries.drop i).filter shown).drop (buf.capacity - buf.written.length) ∧
    i ≤ r.2.1 ∧ (i ≤ entries.length → r.2.1 ≤ entries.length)

/-- The total room of `m` consecutive get-batch calls, from call number `first` on. -/
def totalRoom (caps : Nat → Nat) : Nat → Nat → Nat
  | _, 0 => 0
  | first, m + 1 => caps first + totalRoom caps (first + 1) m

/-- A session of `enumerationId` that has loaded `entries`, stands at index `i` and has
counted `c` calls, in a provider with bridge `bridge` whose storage answers as `s0`. -/
def Paginating (bridge : Option AsyncBridge) (s0 : SyncStorage) (enumerationId : GUID)
    (entries : List CppString) (i : Nat) (c : Nat) (p : ProjFSProvider) : Prop :=
  p.asyncBridge = bridge ∧ sameAnswers s0 p.storage ∧
    p.enumerationStates enumerationId =
      some { entries := entries, nextIndex := i, isLoading := false, isComplete := true,
             callCount := c }

/-- The first `m` get-batch calls of a sequence, without the restart-scan flag, from call
number `first` on: the names each call returned, and the provider afterwards. Call `k`
has an output buffer with room for `caps k` entries. -/
def batches (os : Win32) (js : JsProvider) (filePathName : CppString) (enumerationId : GUID)
    (searchExpression : Option CppString) (caps : Nat → Nat) :
    Nat → Nat → ProjFSProvider → List (List CppString) × ProjFSProvider
  | 0, _, provider => ([], provider)
  | m + 1, first, provider =>
    let r := getBatch os js provider { FilePathName := filePathName, restartScan := false }
      enumerationId searchExpression (caps first)
    let rest := batches os js filePathName enumerationId searchExpression caps m (first + 1) r.2
    (r.1 :: rest.1, rest.2)

/-! ## Notifications -/

/-- The enumeration `PRJ_NOTIFICATION` of the Windows SDK, by its numeric value. -/
abbrev PRJ_NOTIFICATION := Nat

/-- The value `PRJ_NOTIFICATION_FILE_OPENED`. -/
def PRJ_NOTIFICATION_FILE_OPENED : PRJ_NOTIFICATION := 2

/-- The callback `ProjFSProvider::NotificationCallback`. -/
def NotificationCallback (_callbackData : PRJ_CALLBACK_DATA) (_isDirectory : Bool)
    (notification : PRJ_NOTIFICATION) (_destinationFileName : Option CppString) : HRESULT :=
  if notification = PRJ_NOTIFICATION_FILE_OPENED then HRESULT.S_OK
  else HRESULT.ERROR_ACCESS_DENIED

/-! ## Write intents -/

/-- A write intent handed to one of the three queueing functions. -/
inductive WriteIntent
  | create (path : CppString) (content : Bytes)
  | update (path : CppString) (content : Bytes)
  | delete (path : CppString)
  deriving DecidableEq, Repr

/-- The queueing function that takes the intent. -/
def AsyncBridge.enqueue (b : AsyncBridge) : WriteIntent → AsyncBridge
  | WriteIntent.create path content => b.QueueCreateFile path content
  | WriteIntent.update path content => b.QueueUpdateFile path content
  | WriteIntent.delete path => b.QueueDeleteFile path

/-- The `createFile` call that an intent asks for: the path and content of a CREATE. -/
def WriteIntent.createCall : WriteIntent → Option (CppString × Bytes)
  | WriteIntent.create path content => some (path, content)
  | WriteIntent.update _ _ => none
  | WriteIntent.delete _ => none

/-! ## Events on a storage -/

/-- Something that happens to a `SyncStorage` between two queries: one of its memoizing
member functions is called, or the object directory on disk changes to other files. -/
inductive StorageEvent
  | getObjectMetadata (hash : CppString)
  | getObjectType (hash : CppString)
  | getVirtualPathMetadata (virtualPath : CppString)
  | diskChanged (objects : List (CppString × CppString))

/-- The storage after an event. -/
def StorageEvent.apply (s : SyncStorage) : StorageEvent → SyncStorage
  | StorageEvent.getObjectMetadata hash => (s.GetObjectMetadata hash).2
  | StorageEvent.getObjectType hash => (s.GetObjectType hash).2
  | StorageEvent.getVirtualPathMetadata virtualPath => (s.GetVirtualPathMetadata virtualPath).2
  | StorageEvent.diskChanged objects => { s with objects := objects }

/-- The storage after a sequence of events. -/
def applyEvents (s : SyncStorage) (events : List StorageEvent) : SyncStorage :=
  events.foldl StorageEvent.apply s

/-! ## Counters -/

/-- Every counter of `b` other than `activeEnumerations` is at least its value in `a`. -/
def ProviderStats.countersLe (a b : ProviderStats) : Prop :=
  a.placeholderRequests ≤ b.placeholderRequests ∧ a.fileDataRequests ≤ b.fileDataRequests ∧
    a.directoryEnumerations ≤ b.directoryEnumerations ∧
    a.enumerationCallbacks ≤ b.enumerationCallbacks ∧ a.bytesRead ≤ b.bytesRead ∧
    a.cacheHits ≤ b.cacheHits ∧ a.cacheMisses ≤ b.cacheMisses

/-- Every counter is below `bound`. -/
def ProviderStats.below (bound : Nat) (a : ProviderStats) : Prop :=
  a.placeholderRequests < bound ∧ a.fileDataRequests < bound ∧
    a.directoryEnumerations < bound ∧ a.enumerationCallbacks < bound ∧
    a.activeEnumerations < bound ∧ a.bytesRead < bound ∧ a.cacheHits < bound ∧
    a.cacheMisses < bound

instance (a b : ProviderStats) : Decidable (a.countersLe b) := by
  unfold ProviderStats.countersLe
  infer_instance

instance (bound : Nat) (a : ProviderStats) : Decidable (a.below bound) := by
  unfold ProviderStats.below
  infer_instance

/-! ## Concurrent get-batch callbacks on one session

The callback holds `enumerationMutex_` from its start to the statement `lock.unlock()`
before the loading step, and again from `lock.lock()` after it to its return; a waiting
thread gives the mutex up inside `wait_for`. The steps below are these locked sections,
executed one at a time in any order, on the shared state of one session. -/

/-- Where a callback invocation stands. -/
inductive ThreadPos
  | outside
  | waiting
  | loading
  | returned
  deriving DecidableEq, Repr

/-- The shared state of one session and the position of every callback invocation. -/
structure SharedSession where
  state : EnumerationState
  pos : Nat → ThreadPos

/-- The start of the callback on the session state, as in `enterSession`: reset on the
restart-scan flag, then `callCount++`. -/
def enterState (restartScan : Bool) (enumState : EnumerationState) : EnumerationState :=
  let enumState : EnumerationState :=
    if restartScan then
      { enumState with
        nextIndex := 0, callCount := 0, entries := [], isComplete := false, isLoading := false }
    else enumState
  { enumState with callCount := incInt enumState.callCount }

/-- The effect on the session state of the part from `process_entries` on, when the
pagination loop leaves `nextIndex` at `nextIndex`. -/
def processState (nextIndex : Nat) (enumState : EnumerationState) : EnumerationState :=
  if enumState.nextIndex ≥ enumState.entries.length then { enumState with isComplete := true }
  else { enumState with nextIndex := nextIndex }

/-- A step of one callback invocation: it enters the callback and runs to the loading
step, to the wait or to its return; while loading it writes entries without the mutex;
it finishes loading; it is woken from the wait with `isLoading` false; its wait times
out with `isLoading` still true. -/
inductive SessionAction
  | enter (thread : Nat) (restartScan : Bool) (nextIndex : Nat)
  | loadProgress (thread : Nat) (entries : List CppString)
  | finishLoading (thread : Nat) (nextIndex : Nat)
  | wake (thread : Nat) (nextIndex : Nat)
  | timeout (thread : Nat)

/-- The session with invocation `thread` moved to `p`. -/
def SharedSession.move (c : SharedSession) (thread : Nat) (p : ThreadPos)
    (enumState : EnumerationState) : SharedSession :=
  { state := enumState, pos := fun t => if t = thread then p else c.pos t }

/-- The effect of a step; a step that is not enabled changes nothing. -/
def SharedSession.step (c : SharedSession) : SessionAction → SharedSession
  | SessionAction.enter thread restartScan nextIndex =>
    if c.pos thread = ThreadPos.outside then
      let enumState := enterState restartScan c.state
      if enumState.callCount > MAX_CALLS_PER_ENUM then
        c.move thread ThreadPos.returned enumState
      else if enumState.entries = [] ∧ enumState.isComplete = false then
        if enumState.isLoading then c.move thread ThreadPos.waiting enumState
        else c.move thread ThreadPos.loading { enumState with isLoading := true }
      else c.move thread ThreadPos.returned (processState nextIndex enumState)
    else c
  | SessionAction.loadProgress thread entries =>
    if c.pos thread = ThreadPos.loading then
      c.move thread ThreadPos.loading { c.state with entries := entries }
    else c
  | SessionAction.finishLoading thread nextIndex =>
    if c.pos thread = ThreadPos.loading then
      c.move thread ThreadPos.returned
        (processState nextIndex { c.state with isLoading := false, isComplete := true })
    else c
  | SessionAction.wake thread nextIndex =>
    if c.pos thread = ThreadPos.waiting ∧ c.state.isLoading = false then
      if c.state.entries ≠ [] ∨ c.state.isComplete = true then
        c.move thread ThreadPos.returned (processState nextIndex c.state)
      else c.move thread ThreadPos.returned c.state
    else c
  | SessionAction.timeout thread =>
    if c.pos thread = ThreadPos.waiting ∧ c.state.isLoading = true then
      c.move thread ThreadPos.returned c.state
    else c

/-- The session after a sequence of steps. -/
def SharedSession.run (c : SharedSession) (actions : List SessionAction) : SharedSession :=
  actions.foldl SharedSession.step c

/-- A session in state `enumState` on which no callback is running. -/
def SharedSession.idle (enumState : EnumerationState) : SharedSession :=
  { state := enumState, pos := fun _ => ThreadPos.outside }

/-- Whether the action is an entry with the restart-scan flag. -/
def SessionAction.isRestart : SessionAction → Bool
  | SessionAction.enter _ restartScan _ => restartScan
  | _ => false

/-- Whether no step of `actions`, run from `c`, is an entry with the restart-scan flag at
a state whose `isLoading` is true. -/
def SharedSession.restartsOutsideLoading : SharedSession → List SessionAction → Bool
  | _, [] => true
  | c, a :: rest =>
    (!a.isRestart || !c.state.isLoading) && (c.step a).restartsOutsideLoading rest

/-- At most one invocation is in the loading step, and none is while `isLoading` is
false. -/
def SharedSession.oneLoader (c : SharedSession) : Prop :=
  (∀ t u, c.pos t = ThreadPos.loading → c.pos u = ThreadPos.loading → t = u) ∧
    (c.state.isLoading = false → ∀ t, c.pos t ≠ ThreadPos.loading)

/-- The `createFile` call that a queued operation leads to: the path and content of a
CREATE. -/
def WriteOperation.createCall (op : WriteOperation) : Option (CppString × Bytes) :=
  match op.type with
  | WriteOperationType.CREATE => some (op.path, op.content)
  | WriteOperationType.UPDATE => none
  | WriteOperationType.DELETE_FILE => none

/-- The counter value `y` comes from `x` by no change or by one increment by less than
`2 ^ 63`, taken modulo `2 ^ 64`. -/
def bumped (x y : Nat) : Prop := y = x ∨ ∃ n, n < 2 ^ 63 ∧ y = add64 x n

/-- The counters `b` come from `a` by at most one increment of each counter other than
`activeEnumerations`, which is the same. -/
def ProviderStats.bumpedFrom (a b : ProviderStats) : Prop :=
  bumped a.placeholderRequests b.placeholderRequests ∧
    bumped a.fileDataRequests b.fileDataRequests ∧
    bumped a.directoryEnumerations b.directoryEnumerations ∧
    bumped a.enumerationCallbacks b.enumerationCallbacks ∧
    bumped a.bytesRead b.bytesRead ∧ bumped a.cacheHits b.cacheHits ∧
    bumped a.cacheMisses b.cacheMisses ∧ b.activeEnumerations = a.activeEnumerations

/-! ## The iterations of the pagination loop -/

/-- How one iteration of the loop `while (enumState.nextIndex < enumState.entries.size())`
ends: the name does not match the pattern (`nextIndex++; continue`), the metadata does not
exist (`nextIndex++; continue`), `PrjFillDirEntryBuffer` fails with a code other than
`ERROR_INSUFFICIENT_BUFFER` (`nextIndex++; continue`), the buffer is full (`break`), or the
entry was added (`nextIndex++`). -/
inductive IterationKind
  | noMatch
  | missing
  | fillFailed
  | bufferFull
  | added
  deriving DecidableEq, Repr

/-- One pass through the body of the loop for `entry`: how it ends, the storage and the
output buffer afterwards. -/
def loopBody (os : Win32) (cache : Option ContentCache)
    (virtualPath searchPattern entry : CppString) (storage : SyncStorage)
    (buf : DirEntryBuffer) : IterationKind × SyncStorage × DirEntryBuffer :=
  if os.PrjFileNameMatch entry searchPattern = false then (IterationKind.noMatch, storage, buf)
  else
    let m := entryMetadata cache storage virtualPath entry
    if m.1.exists_ = false then (IterationKind.missing, m.2, buf)
    else
      let r := PrjFillDirEntryBuffer os entry (CreateFileBasicInfo m.1 os.systemTime) buf
      if FAILED r.1 = true ∧ r.1 ≠ HRESULT.ERROR_INSUFFICIENT_BUFFER then
        (IterationKind.fillFailed, m.2, r.2)
      else if r.1 = HRESULT.ERROR_INSUFFICIENT_BUFFER then (IterationKind.bufferFull, m.2, r.2)
      else (IterationKind.added, m.2, r.2)

/-- The iterations that the loop `paginate` performs, in order: for each the index
`nextIndex` with which `entries` is read and how the iteration ends. -/
def paginateLog (os : Win32) (cache : Option ContentCache)
    (virtualPath searchPattern : CppString) (entries : List CppString) :
    Nat → SyncStorage → Nat → DirEntryBuffer → List (Nat × IterationKind)
  | 0, _, _, _ => []
  | fuel + 1, storage, nextIndex, buf =>
    if h : nextIndex < entries.length then
      let it := loopBody os cache virtualPath searchPattern entries[nextIndex] storage buf
      if it.1 = IterationKind.bufferFull then [(nextIndex, IterationKind.bufferFull)]
      else
        (nextIndex, it.1) ::
          paginateLog os cache virtualPath searchPattern entries fuel it.2.1 (nextIndex + 1)
            it.2.2
    else []

/-- The iterations of the loop in `processEntries`: none when the sanity check on
`nextIndex` returns at once. -/
def processEntriesLog (os : Win32) (provider : ProjFSProvider) (virtualPath : CppString)
    (searchExpression : Option CppString) (enumState : EnumerationState)
    (buf : DirEntryBuffer) : List (Nat × IterationKind) :=
  if enumState.nextIndex ≥ enumState.entries.length then []
  else
    paginateLog os (provider.asyncBridge.map AsyncBridge.GetCache) virtualPath
      (searchExpression.getD "*".toList) enumState.entries
      (enumState.entries.length - enumState.nextIndex) provider.storage enumState.nextIndex buf

/-- The iterations of the loop in `enumerateFrom`: none in a capped call and in a call
that waits for another one to load. -/
def enumerateFromLog (os : Win32) (js : JsProvider) (provider : ProjFSProvider)
    (virtualPath : CppString) (searchExpression : Option CppString)
    (enumState : EnumerationState) (dirEntryBufferHandle : DirEntryBuffer) :
    List (Nat × IterationKind) :=
  if enumState.callCount > MAX_CALLS_PER_ENUM then []
  else if enumState.entries = [] ∧ enumState.isComplete = false then
    if enumState.isLoading then []
    else
      let l := loadEntries js provider virtualPath enumState.entries
      processEntriesLog os l.provider virtualPath searchExpression
        { enumState with entries := l.entries, isLoading := false, isComplete := true }
        dirEntryBufferHandle
  else
    processEntriesLog os provider virtualPath searchExpression enumState dirEntryBufferHandle

/-- The iterations of the pagination loop in one call of
`GetDirectoryEnumerationCallback`. -/
def enumerationLog (os : Win32) (js : JsProvider) (provider : ProjFSProvider)
    (callbackData : PRJ_CALLBACK_DATA) (enumerationId : GUID)
    (searchExpression : Option CppString) (dirEntryBufferHandle : DirEntryBuffer) :
    List (Nat × IterationKind) :=
  enumerateFromLog os js (countEnumerationCall provider)
    (virtualPathOf callbackData.FilePathName) searchExpression
    (enterSession (countEnumerationCall provider) callbackData.restartScan enumerationId)
    dirEntryBufferHandle

/-- The entries that the `added` iterations of a log wrote, in order. -/
def addedEntries (entries : List CppString) (log : List (Nat × IterationKind)) :
    List CppString :=
  (log.filter (fun e => e.2 = IterationKind.added)).map (fun e => entries.getD e.1 [])

/-- What a run of the pagination loop over `entries` does, from index `i` and buffer `buf`
to index `j` and buffer `out`, with the iterations `log`: the index does not decrease;
every iteration reads an index from `i` on and below `entries.length`; an iteration that
finds the buffer full is the last one and leaves the index at its entry; every other
iteration leaves the index beyond its entry; the iterations read consecutive indices; there
are at most `entries.length - i` of them; and the buffer has received the entries of the
`added` iterations. -/
def LoopRun (entries : List CppString) (i : Nat) (buf : DirEntryBuffer)
    (log : List (Nat × IterationKind)) (j : Nat) (out : DirEntryBuffer) : Prop :=
  i ≤ j ∧
    (∀ e ∈ log, i ≤ e.1 ∧ e.1 < entries.length ∧
      (e.2 = IterationKind.bufferFull → j = e.1 ∧ log.getLast? = some e) ∧
      (e.2 ≠ IterationKind.bufferFull → e.1 < j)) ∧
    log.map Prod.fst = List.range' i log.length ∧ log.length ≤ entries.length - i ∧
    out.written.map Prod.fst = buf.written.map Prod.fst ++ addedEntries entries log ∧
    out.capacity = buf.capacity

/-! ## The loading step in a sequence of calls -/

/-- Whether a get-batch call reaches the loading step of `enumerateFrom`: the call is not
capped, the session has no entries and is not complete, and no load is marked as
running. -/
def performsFetch (provider : ProjFSProvider) (callbackData : PRJ_CALLBACK_DATA)
    (enumerationId : GUID) : Bool :=
  let enumState :=
    enterSession (countEnumerationCall provider) callbackData.restartScan enumerationId
  decide (¬ enumState.callCount > MAX_CALLS_PER_ENUM ∧
    (enumState.entries = [] ∧ enumState.isComplete = false) ∧ enumState.isLoading = false)

/-- The number of calls of a sequence on session `enumerationId` that reach the loading
step. -/
def fetchCount (os : Win32) (js : JsProvider) (enumerationId : GUID) :
    ProjFSProvider → List EnumCall → Nat
  | _, [] => 0
  | provider, c :: cs =>
    (if performsFetch provider c.callbackData enumerationId then 1 else 0) +
      fetchCount os js enumerationId
        (GetDirectoryEnumerationCallback os js provider c.callbackData enumerationId
          c.searchExpression c.dirEntryBufferHandle).provider cs

/-! ## `IFSProjFSBridge::SetCachedDirectory` (`ifsprojfs_bridge.cpp`) -/

/-- The conversion of one element of the array in `SetCachedDirectory` to a `FileInfo`.
The directory flag is forced for the five virtual directories of the root, taken from the
property `isDirectory` when there is one, and derived from the storage metadata of the
entry path otherwise. -/
def cachedFileInfo (storage : SyncStorage) (path : CppString) (entry : JsObject) :
    FileInfo × SyncStorage :=
  let fileInfo := FileInfo.init
  let fileInfo := match entry.name with
    | some v => { fileInfo with name := v }
    | none => fileInfo
  let fileInfo := match entry.hash with
    | some v => { fileInfo with hash := v }
    | none => fileInfo
  let fileInfo := match entry.size with
    | some v => { fileInfo with size := Uint32Value v }
    | none => fileInfo
  let r : FileInfo × SyncStorage :=
    if path = "/".toList ∧ isRootVirtualEntry fileInfo.name = true then
      ({ fileInfo with isDirectory := true }, storage)
    else
      match entry.isDirectory with
      | some v => ({ fileInfo with isDirectory := v }, storage)
      | none =>
        let entryPath :=
          if path = "/".toList then "/".toList ++ fileInfo.name
          else path ++ "/".toList ++ fileInfo.name
        let m := storage.GetVirtualPathMetadata entryPath
        ({ fileInfo with isDirectory := if m.1.exists_ then m.1.isDirectory else false }, m.2)
  let fileInfo := match entry.isBlobOrClob with
    | some v => { r.1 with isBlobOrClob := v }
    | none => r.1
  let fileInfo := match entry.mode with
    | some v => { fileInfo with mode := Uint32Value v }
    | none => fileInfo
  (fileInfo, r.2)

/-- The first loop of `SetCachedDirectory`: the listing made of the elements that are
objects. -/
def cachedListing (path : CppString) : SyncStorage → List JsItem → List FileInfo × SyncStorage
  | storage, [] => ([], storage)
  | storage, JsItem.object o :: rest =>
    let r := cachedFileInfo storage path o
    let l := cachedListing path r.2 rest
    (r.1 :: l.1, l.2)
  | storage, JsItem.other :: rest => cachedListing path storage rest

/-- The key under which the second loop of `SetCachedDirectory` stores the entry `name` of
a directory other than the root: the path, a slash unless the path ends in one, and the
name. (For the empty path the source reads `entryPath.back()` of an empty string; it is
taken here as not ending in a slash.) -/
def cachedEntryPath (path name : CppString) : CppString :=
  let entryPath := path
  let entryPath := if entryPath.getLast? ≠ some '/' then entryPath ++ ['/'] else entryPath
  entryPath ++ name

/-- One pass of the second loop of `SetCachedDirectory`: for the root the entry is stored
under `"/" + name` and under `name`, otherwise under `cachedEntryPath`. -/
def cacheEntry (path : CppString) (cache : ContentCache) (entry : FileInfo) : ContentCache :=
  if path = "/".toList then
    (cache.SetFileInfo ("/".toList ++ entry.name) entry).SetFileInfo entry.name entry
  else cache.SetFileInfo (cachedEntryPath path entry.name) entry

/-- The method `IFSProjFSBridge::SetCachedDirectory` on the provider and its bridge: the
listing is built, stored in the cache under `path`, and every entry is stored as a
`FileInfo`. Without a bridge nothing is stored. -/
def SetCachedDirectory (provider : ProjFSProvider) (path : CppString) (entries : List JsItem) :
    ProjFSProvider :=
  let l := cachedListing path provider.storage entries
  let provider := { provider with storage := l.2 }
  match provider.asyncBridge with
  | some bridge =>
    let cache := bridge.GetCache.SetDirectoryListing path { entries := l.1 }
    let cache := l.1.foldl (cacheEntry path) cache
    { provider with asyncBridge := some { bridge with cache := cache } }
  | none => provider

/-! ## Concrete instances -/

/-- A hash of 64 characters `a`, used in the concrete instances. -/
def hashA : CppString := List.replicate 64 'a'

/-- An operating system whose matcher accepts every name, whose buffer rejects no name,
and whose clock reads zero. -/
def os0 : Win32 :=
  { PrjFileNameMatch := fun _ _ => true, fillRejects := fun _ => false, systemTime := 0 }

/-- A bridge over the given cache with every callback registered and nothing posted. -/
def bridgeOf (cache : ContentCache) : AsyncBridge :=
  { cache := cache, getFileInfoCallback := true, readFileCallback := true,
    readDirectoryCallback := true, posted := [], received := [] }

/-- A provider over the given object files and cache, with no enumeration session. -/
def providerOf (objects : List (CppString × CppString)) (cache : ContentCache) :
    ProjFSProvider :=
  { storage := SyncStorage.fresh objects, asyncBridge := some (bridgeOf cache), stats := {},
    enumerationStates := fun _ => none, rootEnumerationCount := 0 }

/-- The callback data of a request for the relative path `filePathName`, without the
restart-scan flag. -/
def requestFor (filePathName : String) : PRJ_CALLBACK_DATA :=
  { FilePathName := filePathName.toList, restartScan := false }

/-- A data provider none of whose promises is settled. -/
def js0 : JsProvider :=
  { getFileInfo := fun _ => JsReturn.promisePending, readFile := fun _ => JsReturn.promisePending,
    readDirectory := fun _ => JsReturn.promisePending }

/-- A cache that holds the listing `[a]` for `/d` and a `FileInfo` for `/d/a`. -/
def cacheD : ContentCache :=
  (ContentCache.empty.SetDirectoryListing "/d".toList
    { entries := [{ FileInfo.init with name := "a".toList }] }).SetFileInfo "/d/a".toList
    { FileInfo.init with name := "a".toList }

/-- A provider over `cacheD` on which session 7 has been started. -/
def startedD : ProjFSProvider :=
  (StartDirectoryEnumerationCallback (providerOf [] cacheD) (requestFor "d") 7).2

/-- A get-batch call on `/d` with room for one entry, without the restart-scan flag. -/
def callD : EnumCall :=
  { callbackData := requestFor "d", searchExpression := none,
    dirEntryBufferHandle := { capacity := 1, written := [] } }

/-- The names `0`, `1`, ..., `n - 1` in decimal. -/
def decimalNames (n : Nat) : List CppString := (List.range n).map (fun k => Nat.toDigits 10 k)

/-- The `FileInfo` of an entry called `name`. -/
def fileInfoOf (name : CppString) : FileInfo := { FileInfo.init with name := name }

/-- The cache `cache` with a `FileInfo` stored for every name of `names` under the path
`dir + "/" + name`. -/
def withFileInfos (cache : ContentCache) (dir : CppString) (names : List CppString) :
    ContentCache :=
  names.foldl (fun c n => c.SetFileInfo (dir ++ "/".toList ++ n) (fileInfoOf n)) cache

/-- A cache that holds for `/big` the listing of the 101 names `0` to `100`, and a
`FileInfo` for each of them. -/
def cacheBig : ContentCache :=
  withFileInfos
    (ContentCache.empty.SetDirectoryListing "/big".toList
      { entries := (decimalNames 101).map fileInfoOf })
    "/big".toList (decimalNames 101)

/-- A provider over `cacheBig` on which session 9 has been started. -/
def startedBig : ProjFSProvider :=
  (StartDirectoryEnumerationCallback (providerOf [] cacheBig) (requestFor "big") 9).2

/-- A cache that holds for `/e` the listing `[x]` and no `FileInfo` for `/e/x`. -/
def cacheE : ContentCache :=
  ContentCache.empty.SetDirectoryListing "/e".toList { entries := [fileInfoOf "x".toList] }

/-- A provider over `cacheE` on which session 5 has been started. -/
def startedE : ProjFSProvider :=
  (StartDirectoryEnumerationCallback (providerOf [] cacheE) (requestFor "e") 5).2

/-- A cache that holds for `/t` the listing `[a, b, c]` and a `FileInfo` for each name. -/
def cacheT : ContentCache :=
  withFileInfos
    (ContentCache.empty.SetDirectoryListing "/t".toList
      { entries := ["a".toList, "b".toList, "c".toList].map fileInfoOf })
    "/t".toList ["a".toList, "b".toList, "c".toList]

/-- A provider over `cacheT` on which session 3 has been started. -/
def startedT : ProjFSProvider :=
  (StartDirectoryEnumerationCallback (providerOf [] cacheT) (requestFor "t") 3).2

/-- A JavaScript object with the given name and no other property. -/
def jsNamed (name : CppString) : JsObject := { JsObject.none with name := some name }

/-- A data provider whose `readDirectory("/foo")` returns a promise resolved with
`[{name: "a.txt", size: 3}, {name: "b", isDirectory: true}]`. -/
def jsFoo : JsProvider :=
  { js0 with
    readDirectory := fun path =>
      if path = "/foo".toList then
        JsReturn.promiseResolved (some (JsValue.array
          [JsItem.object { jsNamed "a.txt".toList with size := some 3 },
           JsItem.object { jsNamed "b".toList with isDirectory := some true }]))
      else JsReturn.promisePending }

/-- A provider with an empty cache on which session 1 has been started. -/
def startedFoo : ProjFSProvider :=
  (StartDirectoryEnumerationCallback (providerOf [] ContentCache.empty) (requestFor "foo") 1).2

/-- A provider whose cache holds a `FileInfo` for `/foo/a.txt` and for `/foo/b`, and no
listing, on which session 1 has been started. -/
def startedFooInfos : ProjFSProvider :=
  (StartDirectoryEnumerationCallback
    (providerOf [] (withFileInfos ContentCache.empty "/foo".toList ["a.txt".toList, "b".toList]))
    (requestFor "foo") 1).2

/-- A data provider whose `readDirectory("/big")` returns a promise resolved with the
101 entries named `0` to `100`. -/
def jsBig : JsProvider :=
  { js0 with
    readDirectory := fun path =>
      if path = "/big".toList then
        JsReturn.promiseResolved (some (JsValue.array
          ((decimalNames 101).map (fun n => JsItem.object (jsNamed n)))))
      else JsReturn.promisePending }

/-- A provider whose cache holds a `FileInfo` for each of the 101 names under `/big`, and
no listing, on which session 9 has been started. -/
def startedBigInfos : ProjFSProvider :=
  (StartDirectoryEnumerationCallback
    (providerOf [] (withFileInfos ContentCache.empty "/big".toList (decimalNames 101)))
    (requestFor "big") 9).2

/-- The header `<div itemscope itemtype="//refin.io/Person">`. -/
def headerPerson : CppString :=
  "<div itemscope itemtype=".toList ++ [dquote] ++ "//refin.io/Person".toList ++ [dquote] ++
    ">".toList

/-- The header `itemtype="//refin.io/Person"`, a typed-item declaration and nothing else. -/
def headerBareDeclaration : CppString :=
  "itemtype=".toList ++ [dquote] ++ "//refin.io/Person".toList ++ [dquote]

/-- The header `itemtype="//refin\.io/T"`, in which a backslash follows `refin`. -/
def headerBackslash : CppString :=
  "itemtype=".toList ++ [dquote] ++ "//refin".toList ++ [backslash] ++ ".io/T".toList ++
    [dquote]

/-- The text `itemtype="//refin.io/` with which a typed-item declaration begins. -/
def declarationHead : CppString := "itemtype=".toList ++ [dquote] ++ "//refin.io/".toList

/-- A data provider whose `readDirectory("/foo")` returns the array `[{name: "a.txt"}]`
directly, not through a promise. -/
def jsDirect : JsProvider :=
  { js0 with
    readDirectory := fun path =>
      if path = "/foo".toList then
        JsReturn.direct (JsValue.array [JsItem.object (jsNamed "a.txt".toList)])
      else JsReturn.promisePending }

/-- A cache that holds the bytes 1, 2, 3 as the content of `/objects/` + `hashA` and the
listing `[x]` for `/objects`. -/
def cacheBoth : ContentCache :=
  (ContentCache.empty.SetFileContent ("/objects/".toList ++ hashA)
    { data := [1, 2, 3] }).SetDirectoryListing "/objects".toList
    { entries := [fileInfoOf "x".toList] }

/-- A provider whose object store holds "hello" under `hashA`, over the cache
`cacheBoth`. -/
def providerBoth : ProjFSProvider := providerOf [(hashA, "hello".toList)] cacheBoth

/-- The callback data of a request for the relative path `objects\` + `hashA`. -/
def requestObjectA : PRJ_CALLBACK_DATA :=
  { FilePathName := "objects".toList ++ [backslash] ++ hashA, restartScan := false }


/-- A provider whose `placeholderRequests` counter holds the largest 64-bit value and which
has one active enumeration. -/
def providerFull : ProjFSProvider :=
  { providerBoth with
    stats := { placeholderRequests := 2 ^ 64 - 1, activeEnumerations := 1 } }

/-- An interleaving of three calls on one session: two calls enter, the first loads and
finishes, the second is woken, and a third call restarts the scan. -/
def interleavingA : List SessionAction :=
  [SessionAction.enter 0 false 0, SessionAction.enter 1 false 0,
    SessionAction.loadProgress 0 ["x".toList], SessionAction.finishLoading 0 1,
    SessionAction.wake 1 1, SessionAction.enter 2 true 0]

/-- A get-batch call on `/foo` with room for one entry, without the restart-scan flag. -/
def callFoo : EnumCall :=
  { callbackData := requestFor "foo", searchExpression := none,
    dirEntryBufferHandle := { capacity := 1, written := [] } }

/-- The entry object `{name: "readme.txt", size: 5, isDirectory: false}`. -/
def jsReadme : JsObject :=
  { jsNamed "readme.txt".toList with size := some 5, isDirectory := some false }

/-- A provider with an empty cache after `setCachedDirectory("/", [readme.txt])`, on which
session 2 has been started for the root. -/
def primedRoot : ProjFSProvider :=
  (StartDirectoryEnumerationCallback
    (SetCachedDirectory (providerOf [] ContentCache.empty) "/".toList [JsItem.object jsReadme])
    (requestFor "") 2).2

/-- A provider with an empty cache after `setCachedDirectory("/docs", [readme.txt])`, on
which session 2 has been started for `/docs`. -/
def primedDocs : ProjFSProvider :=
  (StartDirectoryEnumerationCallback
    (SetCachedDirectory (providerOf [] ContentCache.empty) "/docs".toList
      [JsItem.object jsReadme])
    (requestFor "docs") 2).2

/-- The entry object `{name: "big.bin", size: 2^32 + 5, isDirectory: false}`. -/
def jsBigFile : JsObject :=
  { jsNamed "big.bin".toList with size := some (2 ^ 32 + 5), isDirectory := some false }

/-- A provider with an empty cache after `setCachedDirectory("/docs", [big.bin])`. -/
def primedBigFile : ProjFSProvider :=
  SetCachedDirectory (providerOf [] ContentCache.empty) "/docs".toList [JsItem.object jsBigFile]

/-- A get-batch call on `/t` whose output buffer has no room, without the restart-scan
flag. -/
def callFull : EnumCall :=
  { callbackData := requestFor "t", searchExpression := none,
    dirEntryBufferHandle := { capacity := 0, written := [] } }

/-! ## Lemmas on object paths -/

theorem objectsPath_eq (H : CppString) :
    "/objects/".toList ++ H = '/' :: 'o' :: 'b' :: 'j' :: 'e' :: 'c' :: 't' :: 's' :: '/' :: H := rfl

theorem matchHashAt_objects (H : CppString) (hl : H.length = 64)
    (hh : H.all isHexDigit = true) : matchHashAt ("/objects/".toList ++ H) = some H := by
  have h1 : List.take 64 H = H := List.take_of_length_le (by omega)
  have h2 : List.drop 64 H = [] := List.drop_of_length_le (by omega)
  rw [objectsPath_eq]
  simp [matchHashAt, List.isPrefixOf, h1, h2, hl, hh]

theorem ExtractHashFromPath_objects (H : CppString) (hl : H.length = 64)
    (hh : H.all isHexDigit = true) : ExtractHashFromPath ("/objects/".toList ++ H) = H := by
  have := matchHashAt_objects H hl hh
  rw [objectsPath_eq] at this ⊢
  simp [ExtractHashFromPath, this]

theorem IsObjectPath_objects (H : CppString) : IsObjectPath ("/objects/".toList ++ H) = true := by
  rw [objectsPath_eq]
  simp [IsObjectPath]

theorem objectsPath_not_root (H : CppString) (hl : H.length = 64) :
    ¬ ("/objects/".toList ++ H = "/".toList ∨ "/objects/".toList ++ H = "/objects".toList ∨
      "/objects/".toList ++ H = "/chats".toList ∨ "/objects/".toList ++ H = "/debug".toList ∨
      "/objects/".toList ++ H = "/invites".toList ∨ "/objects/".toList ++ H = "/types".toList) := by
  intro h
  have hlen : ("/objects/".toList ++ H).length = 73 := by simp [hl]
  rcases h with h | h | h | h | h | h <;> rw [h] at hlen <;> simp at hlen

theorem GetVirtualPathMetadata_object (s : SyncStorage) (H : CppString) (hl : H.length = 64)
    (hh : H.all isHexDigit = true) :
    (s.GetVirtualPathMetadata ("/objects/".toList ++ H)).1 =
      { exists_ := (s.GetObjectMetadata H).1.exists_, isDirectory := false,
        size := (s.GetObjectMetadata H).1.size, type := "FILE".toList } := by
  have hne : H ≠ [] := by intro h; rw [h] at hl; simp at hl
  unfold SyncStorage.GetVirtualPathMetadata
  rw [if_neg (objectsPath_not_root H hl)]
  have hE := ExtractHashFromPath_objects H hl hh
  have hI := IsObjectPath_objects H
  simp only [objectsPath_eq] at hE hI
  simp [hE, hI, hne, ObjectMetadata.init]

/-- C5 (as amended): for a hash `H` of 64 hexadecimal characters under which an object
with content `c` is stored, and whose memoized metadata (if any) was computed from that
object, `GetVirtualPathMetadata("/objects/" + H)` returns exists = true,
isDirectory = false, size = |c| and type "FILE". -/
theorem C5_object_path_metadata (s : SyncStorage) (H c : CppString) (hl : H.length = 64)
    (hh : H.all isHexDigit = true) (hc : s.objects.lookup H = some c)
    (hm : ∀ m, s.metadataCache H = some m → m.exists_ = true ∧ m.size = c.length) :
    (s.GetVirtualPathMetadata ("/objects/".toList ++ H)).1 =
      { exists_ := true, isDirectory := false, size := c.length, type := "FILE".toList } := by
  rw [GetVirtualPathMetadata_object s H hl hh]
  unfold SyncStorage.GetObjectMetadata
  cases hmc : s.metadataCache H with
  | some m => simp [hm m hmc]
  | none => simp [hc]

theorem C5_object_path_metadata_witness :
    ((SyncStorage.fresh [(hashA, "hello".toList)]).GetVirtualPathMetadata
      ("/objects/".toList ++ hashA)).1 =
      { exists_ := true, isDirectory := false, size := 5, type := "FILE".toList } :=
  C5_object_path_metadata (SyncStorage.fresh [(hashA, "hello".toList)]) hashA "hello".toList
    (by decide) (by decide) (by decide) (by intro m h; simp [SyncStorage.fresh] at h)

/-- C5 fails as stated: for the object "hello" stored under a hash of 64 hexadecimal
characters the reported type is "FILE", not "BLOB"; and when the metadata of the hash was
memoized before the object was stored, the path is reported as not existing. -/
theorem C5_counterexample :
    ((SyncStorage.fresh [(hashA, "hello".toList)]).GetVirtualPathMetadata
        ("/objects/".toList ++ hashA)).1 ≠
      { exists_ := true, isDirectory := false, size := 5, type := "BLOB".toList } ∧
    ((SyncStorage.fresh [(hashA, "hello".toList)]).GetVirtualPathMetadata
        ("/objects/".toList ++ hashA)).1.type = "FILE".toList ∧
    ({ ((SyncStorage.fresh []).GetVirtualPathMetadata ("/objects/".toList ++ hashA)).2 with
        objects := [(hashA, "hello".toList)] } : SyncStorage).ReadObject hashA =
      some "hello".toList ∧
    (({ ((SyncStorage.fresh []).GetVirtualPathMetadata ("/objects/".toList ++ hashA)).2 with
        objects := [(hashA, "hello".toList)] } : SyncStorage).GetVirtualPathMetadata
        ("/objects/".toList ++ hashA)).1.exists_ = false := by
  decide

/-- C6: for a hash `H` of 64 hexadecimal characters, `ReadVirtualPath("/objects/" + H)`
returns exactly the content stored under `H`, and no value when nothing is stored
under `H`. -/
theorem C6_read_object_path (s : SyncStorage) (H : CppString) (hl : H.length = 64)
    (hh : H.all isHexDigit = true) :
    (∀ c, s.objects.lookup H = some c →
      s.ReadVirtualPath ("/objects/".toList ++ H) = some c) ∧
    (s.objects.lookup H = none → s.ReadVirtualPath ("/objects/".toList ++ H) = none) := by
  have hne : H ≠ [] := by intro h; rw [h] at hl; simp at hl
  have key : s.ReadVirtualPath ("/objects/".toList ++ H) = s.objects.lookup H := by
    have hE := ExtractHashFromPath_objects H hl hh
    have hI := IsObjectPath_objects H
    simp only [objectsPath_eq] at hE hI
    simp [SyncStorage.ReadVirtualPath, hE, hI, hne, SyncStorage.ReadObject]
  constructor
  · intro c hc; rw [key, hc]
  · intro hc; rw [key, hc]

theorem C6_read_object_path_witness :
    (SyncStorage.fresh [(hashA, "hello".toList)]).ReadVirtualPath ("/objects/".toList ++ hashA) =
      some "hello".toList ∧
    (SyncStorage.fresh []).ReadVirtualPath ("/objects/".toList ++ hashA) = none :=
  ⟨(C6_read_object_path (SyncStorage.fresh [(hashA, "hello".toList)]) hashA (by decide)
      (by decide)).1 "hello".toList (by decide),
   (C6_read_object_path (SyncStorage.fresh []) hashA (by decide) (by decide)).2 (by decide)⟩

/-! ## File data -/

/-- C1 (as amended): when the Content Cache holds a non-empty buffer `C` for the virtual
path of the request, `GetFileDataCallback` returns success and writes nothing if
offset >= |C|; if offset < |C| and the aligned buffer is allocated, it hands exactly
min(length, |C| - offset) bytes, equal to `C[offset ..)` position by position, to
`PrjWriteFileData` at that offset and returns the status of that write. -/
theorem C1_cached_byte_range (allocOk : Bool) (writeResult : HRESULT) (provider : ProjFSProvider)
    (bridge : AsyncBridge) (callbackData : PRJ_CALLBACK_DATA) (content : FileContent)
    (byteOffset length : Nat) (hb : provider.asyncBridge = some bridge)
    (hc : bridge.GetCache.GetFileContent (virtualPathOf callbackData.FilePathName) = some content)
    (hne : content.data ≠ []) :
    (content.data.length ≤ byteOffset →
      (GetFileDataCallback allocOk writeResult provider callbackData byteOffset length).hr =
        HRESULT.S_OK ∧
      (GetFileDataCallback allocOk writeResult provider callbackData byteOffset length).written =
        none) ∧
    (byteOffset < content.data.length → allocOk = true →
      ∃ data : Bytes,
        (GetFileDataCallback allocOk writeResult provider callbackData byteOffset length).written =
          some (byteOffset, data) ∧
        (GetFileDataCallback allocOk writeResult provider callbackData byteOffset length).hr =
          writeResult ∧
        data.length = min length (content.data.length - byteOffset) ∧
        ∀ i, i < data.length → data[i]? = content.data[byteOffset + i]?) := by
  have key : GetFileDataCallback allocOk writeResult provider callbackData byteOffset length =
      serveRange allocOk writeResult { provider with
        stats := { provider.stats with
          fileDataRequests := add64 provider.stats.fileDataRequests 1 } }
        content.data byteOffset length true := by
    simp [GetFileDataCallback, hb, hc, hne]
  rw [key]
  constructor
  · intro h
    simp [serveRange, h]
  · intro h ha
    have h' : ¬ content.data.length ≤ byteOffset := by omega
    refine ⟨(content.data.drop byteOffset).take (min length (content.data.length - byteOffset)),
      ?_, ?_, ?_, ?_⟩
    · simp [serveRange, h', ha]
    · simp [serveRange, h', ha]
    · simp [List.length_take, List.length_drop]
    · intro i hi
      simp only [List.length_take, List.length_drop] at hi
      rw [List.getElem?_take_of_lt (by omega), List.getElem?_drop]

theorem C1_cached_byte_range_witness :
    ∃ data : Bytes,
      (GetFileDataCallback true HRESULT.S_OK
        (providerOf [] (ContentCache.empty.SetFileContent "/f".toList { data := [1, 2, 3] }))
        (requestFor "f") 1 5).written = some (1, data) ∧
      (GetFileDataCallback true HRESULT.S_OK
        (providerOf [] (ContentCache.empty.SetFileContent "/f".toList { data := [1, 2, 3] }))
        (requestFor "f") 1 5).hr = HRESULT.S_OK ∧
      data.length = min 5 (3 - 1) ∧
      ∀ i, i < data.length → data[i]? = ([1, 2, 3] : Bytes)[1 + i]? :=
  (C1_cached_byte_range true HRESULT.S_OK
    (providerOf [] (ContentCache.empty.SetFileContent "/f".toList { data := [1, 2, 3] }))
    (bridgeOf (ContentCache.empty.SetFileContent "/f".toList { data := [1, 2, 3] }))
    (requestFor "f") { data := [1, 2, 3] } 1 5 rfl (by decide) (by decide)).2 (by decide) rfl

/-- C1 fails as stated: with the empty buffer cached for `/f` the callback does not
return success (it reports not-found and asks the bridge for the content), and when the
aligned buffer cannot be allocated nothing is written for a request inside a cached
buffer. -/
theorem C1_counterexample :
    (GetFileDataCallback true HRESULT.S_OK
      (providerOf [] (ContentCache.empty.SetFileContent "/f".toList { data := [] }))
      (requestFor "f") 0 10).hr = HRESULT.ERROR_FILE_NOT_FOUND ∧
    ((GetFileDataCallback true HRESULT.S_OK
      (providerOf [] (ContentCache.empty.SetFileContent "/f".toList { data := [] }))
      (requestFor "f") 0 10).provider.asyncBridge.map (fun b => b.received)) =
        some [BridgeRequest.FetchFileContent "/f".toList] ∧
    (GetFileDataCallback false HRESULT.S_OK
      (providerOf [] (ContentCache.empty.SetFileContent "/f".toList { data := [1, 2, 3] }))
      (requestFor "f") 0 2).written = none ∧
    (GetFileDataCallback false HRESULT.S_OK
      (providerOf [] (ContentCache.empty.SetFileContent "/f".toList { data := [1, 2, 3] }))
      (requestFor "f") 0 2).hr = HRESULT.E_OUTOFMEMORY := by
  decide

/-! ## Placeholder information -/

theorem not_known_of_storage_miss (s : SyncStorage) (virtualPath : CppString)
    (hs : (s.GetVirtualPathMetadata virtualPath).1.exists_ = false) :
    isKnownVirtualDirectory virtualPath = false := by
  cases hk : isKnownVirtualDirectory virtualPath with
  | false => rfl
  | true =>
    exfalso
    have hroot : virtualPath = "/".toList ∨ virtualPath = "/objects".toList ∨
        virtualPath = "/chats".toList ∨ virtualPath = "/debug".toList ∨
        virtualPath = "/invites".toList ∨ virtualPath = "/types".toList := by
      simp only [isKnownVirtualDirectory, Bool.or_eq_true, beq_iff_eq] at hk
      tauto
    unfold SyncStorage.GetVirtualPathMetadata at hs
    rw [if_pos hroot] at hs
    simp at hs

/-- C3: when the provider has a bridge whose cache holds no FileInfo for the virtual path
`P` of the request and the object store reports exists = false for `P`,
`GetPlaceholderInfoCallback` returns ERROR_FILE_NOT_FOUND, writes no placeholder, and the
bridge receives exactly one further request, `FetchFileInfo(P)` (posted to the JavaScript
thread when a `getFileInfo` callback is registered); the cache is left as it was. -/
theorem C3_miss_fetches_once (os : Win32) (writeResult : HRESULT) (provider : ProjFSProvider)
    (bridge : AsyncBridge) (callbackData : PRJ_CALLBACK_DATA)
    (hb : provider.asyncBridge = some bridge)
    (hc : bridge.GetCache.GetFileInfo (virtualPathOf callbackData.FilePathName) = none)
    (hs : (provider.storage.GetVirtualPathMetadata
      (virtualPathOf callbackData.FilePathName)).1.exists_ = false) :
    (GetPlaceholderInfoCallback os writeResult provider callbackData).hr =
      HRESULT.ERROR_FILE_NOT_FOUND ∧
    (GetPlaceholderInfoCallback os writeResult provider callbackData).written = none ∧
    ∃ bridge',
      (GetPlaceholderInfoCallback os writeResult provider callbackData).provider.asyncBridge =
        some bridge' ∧
      bridge'.received =
        bridge.received ++ [BridgeRequest.FetchFileInfo (virtualPathOf callbackData.FilePathName)] ∧
      bridge'.cache = bridge.cache ∧
      (bridge.getFileInfoCallback = true →
        bridge'.posted =
          bridge.posted ++ [JsCall.getFileInfo (virtualPathOf callbackData.FilePathName)]) := by
  have hk := not_known_of_storage_miss _ _ hs
  refine ⟨?_, ?_, bridge.FetchFileInfo (virtualPathOf callbackData.FilePathName), ?_, ?_, ?_, ?_⟩
  · simp [GetPlaceholderInfoCallback, hb, hc, hs, hk]
  · simp [GetPlaceholderInfoCallback, hb, hc, hs, hk]
  · simp [GetPlaceholderInfoCallback, hb, hc, hs, hk]
  · unfold AsyncBridge.FetchFileInfo
    dsimp only
    split <;> rfl
  · unfold AsyncBridge.FetchFileInfo
    dsimp only
    split <;> rfl
  · intro hreg
    simp [AsyncBridge.FetchFileInfo, hreg]

theorem C3_miss_fetches_once_witness :
    (GetPlaceholderInfoCallback os0 HRESULT.S_OK (providerOf [] ContentCache.empty)
      (requestFor "foo")).hr = HRESULT.ERROR_FILE_NOT_FOUND ∧
    (GetPlaceholderInfoCallback os0 HRESULT.S_OK (providerOf [] ContentCache.empty)
      (requestFor "foo")).written = none ∧
    ∃ bridge',
      (GetPlaceholderInfoCallback os0 HRESULT.S_OK (providerOf [] ContentCache.empty)
        (requestFor "foo")).provider.asyncBridge = some bridge' ∧
      bridge'.received = [] ++ [BridgeRequest.FetchFileInfo "/foo".toList] ∧
      bridge'.cache = ContentCache.empty ∧
      (true = true → bridge'.posted = [] ++ [JsCall.getFileInfo "/foo".toList]) :=
  C3_miss_fetches_once os0 HRESULT.S_OK (providerOf [] ContentCache.empty)
    (bridgeOf ContentCache.empty) (requestFor "foo") rfl rfl (by decide)

/-- C4: for each of the paths "/objects", "/chats", "/invites", "/debug" and "/types",
whatever the cache and the object store hold, `GetPlaceholderInfoCallback` resolves the
path to exists = true, isDirectory = true, size = 0, and the basic info it hands to
`PrjWritePlaceholderInfo` has IsDirectory set and the directory attribute. -/
theorem C4_root_directories (os : Win32) (writeResult : HRESULT) (provider : ProjFSProvider)
    (callbackData : PRJ_CALLBACK_DATA)
    (hP : virtualPathOf callbackData.FilePathName ∈
      ["/objects".toList, "/chats".toList, "/invites".toList, "/debug".toList,
        "/types".toList]) :
    ∃ m info,
      (GetPlaceholderInfoCallback os writeResult provider callbackData).written =
        some (m, info) ∧
      m.exists_ = true ∧ m.isDirectory = true ∧ m.size = 0 ∧
      info.IsDirectory = true ∧ info.FileAttributes = FILE_ATTRIBUTE_DIRECTORY ∧
      (GetPlaceholderInfoCallback os writeResult provider callbackData).hr = writeResult := by
  have hroot : virtualPathOf callbackData.FilePathName = "/".toList ∨
      virtualPathOf callbackData.FilePathName = "/objects".toList ∨
      virtualPathOf callbackData.FilePathName = "/chats".toList ∨
      virtualPathOf callbackData.FilePathName = "/debug".toList ∨
      virtualPathOf callbackData.FilePathName = "/invites".toList ∨
      virtualPathOf callbackData.FilePathName = "/types".toList := by
    simp only [List.mem_cons, List.mem_singleton, List.not_mem_nil, or_false] at hP
    tauto
  have hm : provider.storage.GetVirtualPathMetadata (virtualPathOf callbackData.FilePathName) =
      ({ exists_ := true, isDirectory := true, size := 0, type := "DIRECTORY".toList },
        provider.storage) := by
    unfold SyncStorage.GetVirtualPathMetadata
    rw [if_pos hroot]
  refine ⟨{ exists_ := true, isDirectory := true, size := 0, type := "DIRECTORY".toList },
    CreateFileBasicInfo
      { exists_ := true, isDirectory := true, size := 0, type := "DIRECTORY".toList }
      os.systemTime, ?_, rfl, rfl, rfl, rfl, rfl, ?_⟩
  · simp [GetPlaceholderInfoCallback, hm]
  · simp [GetPlaceholderInfoCallback, hm]

theorem C4_root_directories_witness :
    ∃ m info,
      (GetPlaceholderInfoCallback os0 HRESULT.S_OK
        (providerOf [] (ContentCache.empty.SetFileInfo "/objects".toList
          { FileInfo.init with isDirectory := false, size := 7 }))
        (requestFor "objects")).written = some (m, info) ∧
      m.exists_ = true ∧ m.isDirectory = true ∧ m.size = 0 ∧
      info.IsDirectory = true ∧ info.FileAttributes = FILE_ATTRIBUTE_DIRECTORY ∧
      (GetPlaceholderInfoCallback os0 HRESULT.S_OK
        (providerOf [] (ContentCache.empty.SetFileInfo "/objects".toList
          { FileInfo.init with isDirectory := false, size := 7 }))
        (requestFor "objects")).hr = HRESULT.S_OK :=
  C4_root_directories os0 HRESULT.S_OK
    (providerOf [] (ContentCache.empty.SetFileInfo "/objects".toList
      { FileInfo.init with isDirectory := false, size := 7 }))
    (requestFor "objects") (by decide)

/-! ## Directory enumeration: the session state decides -/

theorem loadEntries_sameData (js : JsProvider) (p q : ProjFSProvider)
    (virtualPath : CppString) (entries : List CppString) (h : sameData p q) :
    (loadEntries js p virtualPath entries).entries =
      (loadEntries js q virtualPath entries).entries ∧
    sameData (loadEntries js p virtualPath entries).provider
      (loadEntries js q virtualPath entries).provider := by
  obtain ⟨hs, hb⟩ := h
  obtain ⟨st, br, stats, tbl, rc⟩ := p
  obtain ⟨st', br', stats', tbl', rc'⟩ := q
  simp only at hs hb
  subst hs hb
  unfold loadEntries sameData
  cases br with
  | none =>
    simp only [loadFromCache, loadFromStorage, loadFromBridge]
    split <;> simp
  | some bridge =>
    cases hl : bridge.GetCache.GetDirectoryListing virtualPath with
    | some listing =>
      simp [loadFromCache, loadFromStorage, loadFromBridge, hl]
    | none =>
      simp only [loadFromCache, loadFromStorage, loadFromBridge, hl]
      split
      · simp
      · simp only [↓reduceIte]
        split <;> simp

theorem processEntries_agree (os : Win32) (p q : ProjFSProvider) (virtualPath : CppString)
    (T : GUID) (se : Option CppString) (es : EnumerationState) (buf : DirEntryBuffer)
    (h : sameData p q) :
    EnumResult.agree T (processEntries os p virtualPath T se es buf)
      (processEntries os q virtualPath T se es buf) := by
  obtain ⟨hs, hb⟩ := h
  obtain ⟨st, br, stats, tbl, rc⟩ := p
  obtain ⟨st', br', stats', tbl', rc'⟩ := q
  simp only at hs hb
  subst hs hb
  unfold processEntries EnumResult.agree sameData ProjFSProvider.setEnumState
  split <;> simp

theorem setEnumState_session (p : ProjFSProvider) (T : GUID) (es : EnumerationState) :
    (p.setEnumState T es).enumerationStates T = some es := by
  simp [ProjFSProvider.setEnumState]

theorem sameData_setEnumState (p q : ProjFSProvider) (T : GUID) (es es' : EnumerationState)
    (h : sameData p q) : sameData (p.setEnumState T es) (q.setEnumState T es') := h

theorem enterSession_eq (p : ProjFSProvider) (restartScan : Bool) (T : GUID) :
    enterSession p restartScan T =
      { (if restartScan then ({} : EnumerationState) else sessionOf T p) with
        callCount := incInt (if restartScan then ({} : EnumerationState)
          else sessionOf T p).callCount } := by
  cases restartScan <;> rfl

theorem sessionOf_countEnumerationCall (p : ProjFSProvider) (T : GUID) :
    sessionOf T (countEnumerationCall p) = sessionOf T p := rfl

theorem enumerateFrom_agree (os : Win32) (js : JsProvider) (p q : ProjFSProvider)
    (virtualPath : CppString) (T : GUID) (se : Option CppString) (es : EnumerationState)
    (buf : DirEntryBuffer) (h : sameData p q) :
    EnumResult.agree T (enumerateFrom os js p virtualPath T se es buf)
      (enumerateFrom os js q virtualPath T se es buf) := by
  unfold enumerateFrom
  split
  · exact ⟨rfl, rfl, h, by rw [setEnumState_session, setEnumState_session]⟩
  · split
    · split
      · exact ⟨rfl, rfl, h, by rw [setEnumState_session, setEnumState_session]⟩
      · have hl := loadEntries_sameData js p q virtualPath es.entries h
        simp only [hl.1]
        exact processEntries_agree os _ _ _ T se _ buf hl.2
    · exact processEntries_agree os _ _ _ T se _ buf h

theorem GetDirectoryEnumerationCallback_agree (os : Win32) (js : JsProvider)
    (p q : ProjFSProvider) (cd cd' : PRJ_CALLBACK_DATA) (T : GUID) (se : Option CppString)
    (buf : DirEntryBuffer) (hpath : cd.FilePathName = cd'.FilePathName) (h : sameData p q)
    (hs : (if cd.restartScan then ({} : EnumerationState) else sessionOf T p) =
      (if cd'.restartScan then ({} : EnumerationState) else sessionOf T q)) :
    EnumResult.agree T (GetDirectoryEnumerationCallback os js p cd T se buf)
      (GetDirectoryEnumerationCallback os js q cd' T se buf) := by
  unfold GetDirectoryEnumerationCallback
  rw [enterSession_eq, enterSession_eq, sessionOf_countEnumerationCall,
    sessionOf_countEnumerationCall, hs, hpath]
  exact enumerateFrom_agree os js _ _ _ T se _ buf h

theorem processEntries_session (os : Win32) (p : ProjFSProvider) (virtualPath : CppString)
    (T : GUID) (se : Option CppString) (es : EnumerationState) (buf : DirEntryBuffer) :
    (processEntries os p virtualPath T se es buf).provider.enumerationStates T ≠ none := by
  unfold processEntries
  split
  · rw [setEnumState_session]; exact Option.some_ne_none _
  · rw [setEnumState_session]; exact Option.some_ne_none _

theorem GetDirectoryEnumerationCallback_session (os : Win32) (js : JsProvider)
    (p : ProjFSProvider) (cd : PRJ_CALLBACK_DATA) (T : GUID) (se : Option CppString)
    (buf : DirEntryBuffer) :
    (GetDirectoryEnumerationCallback os js p cd T se buf).provider.enumerationStates T ≠
      none := by
  unfold GetDirectoryEnumerationCallback enumerateFrom
  split
  · rw [setEnumState_session]; exact Option.some_ne_none _
  · split
    · split
      · rw [setEnumState_session]; exact Option.some_ne_none _
      · exact processEntries_session os _ _ T se _ buf
    · exact processEntries_session os _ _ T se _ buf

theorem sessionOf_eq_of_table_eq (T : GUID) (p q : ProjFSProvider)
    (h : p.enumerationStates T = q.enumerationStates T) : sessionOf T p = sessionOf T q := by
  unfold sessionOf
  rw [h]

theorem drainSession_agree (os : Win32) (js : JsProvider) (filePathName : CppString) (T : GUID)
    (se : Option CppString) (restart restart' : Nat → Bool) (caps : Nat → Nat) :
    ∀ (fuel first : Nat) (p q : ProjFSProvider),
      (∀ k, first ≤ k → restart k = restart' k) → sameData p q →
      sessionOf T p = sessionOf T q →
      drainSession os js filePathName T se restart caps fuel first p =
        drainSession os js filePathName T se restart' caps fuel first q := by
  intro fuel
  induction fuel with
  | zero => intro first p q _ _ _; rfl
  | succ n ih =>
    intro first p q hr hd hs
    have ha := GetDirectoryEnumerationCallback_agree os js p q
      { FilePathName := filePathName, restartScan := restart first }
      { FilePathName := filePathName, restartScan := restart' first } T se
      { capacity := caps first, written := [] } rfl hd (by simp only [hr first (le_refl _), hs])
    obtain ⟨_, hbuf, hd', ht⟩ := ha
    unfold drainSession getBatch
    simp only [hbuf]
    split
    · rfl
    · rw [ih (first + 1) _ _ (fun k hk => hr k (by omega)) hd' (sessionOf_eq_of_table_eq T _ _ ht)]

/-- C9: for every provider state (whatever the session of `T` has loaded and returned so
far, and whatever listing the cache and the stores hold now), a get-batch call with the
restart-scan flag followed by get-batch calls until one returns no entry returns the same
entries, in the same order, as the same calls without any flag on a session newly started
by `StartDirectoryEnumerationCallback`; this holds for every number of calls allowed and
every sequence of buffer capacities. -/
theorem C9_restart_equals_fresh (os : Win32) (js : JsProvider) (provider : ProjFSProvider)
    (filePathName : CppString) (startData : PRJ_CALLBACK_DATA) (T : GUID)
    (se : Option CppString) (caps : Nat → Nat) (fuel : Nat) :
    drainSession os js filePathName T se (fun k => decide (k = 0)) caps fuel 0 provider =
      drainSession os js filePathName T se (fun _ => false) caps fuel 0
        (StartDirectoryEnumerationCallback provider startData T).2 := by
  cases fuel with
  | zero => rfl
  | succ n =>
    have hd : sameData provider (StartDirectoryEnumerationCallback provider startData T).2 := by
      unfold StartDirectoryEnumerationCallback sameData
      dsimp only
      split <;> exact ⟨rfl, rfl⟩
    have hfresh : sessionOf T (StartDirectoryEnumerationCallback provider startData T).2 = {} := by
      simp [sessionOf, StartDirectoryEnumerationCallback]
    have ha := GetDirectoryEnumerationCallback_agree os js provider
      (StartDirectoryEnumerationCallback provider startData T).2
      { FilePathName := filePathName, restartScan := true }
      { FilePathName := filePathName, restartScan := false } T se
      { capacity := caps 0, written := [] } rfl hd (by simp [hfresh])
    obtain ⟨_, hbuf, hd', ht⟩ := ha
    unfold drainSession getBatch
    simp only [decide_True, hbuf]
    split
    · rfl
    · rw [drainSession_agree os js filePathName T se (fun k => decide (k = 0)) (fun _ => false)
        caps n (0 + 1) _ _ (fun k hk => by simp; omega) hd'
        (sessionOf_eq_of_table_eq T _ _ ht)]

/-- C10 (as amended): after `EndDirectoryEnumerationCallback(T)` the session table has
no entry for `T`; a later get-batch call for `T` is not refused: it creates a session
state for `T` and proceeds exactly as on a newly started session, with the same status,
the same entries written and the same resulting session state. -/
theorem C10_get_batch_after_end (os : Win32) (js : JsProvider) (provider : ProjFSProvider)
    (endData startData callbackData : PRJ_CALLBACK_DATA) (T : GUID) (se : Option CppString)
    (buf : DirEntryBuffer) :
    (EndDirectoryEnumerationCallback provider endData T).2.enumerationStates T = none ∧
    (GetDirectoryEnumerationCallback os js (EndDirectoryEnumerationCallback provider endData T).2
      callbackData T se buf).provider.enumerationStates T ≠ none ∧
    EnumResult.agree T
      (GetDirectoryEnumerationCallback os js (EndDirectoryEnumerationCallback provider endData T).2
        callbackData T se buf)
      (GetDirectoryEnumerationCallback os js
        (StartDirectoryEnumerationCallback provider startData T).2 callbackData T se buf) := by
  refine ⟨by simp [EndDirectoryEnumerationCallback], ?_, ?_⟩
  · exact GetDirectoryEnumerationCallback_session os js _ callbackData T se buf
  · apply GetDirectoryEnumerationCallback_agree os js _ _ callbackData callbackData T se buf rfl
    · unfold StartDirectoryEnumerationCallback EndDirectoryEnumerationCallback sameData
      dsimp only
      split <;> exact ⟨rfl, rfl⟩
    · have h1 : sessionOf T (EndDirectoryEnumerationCallback provider endData T).2 = {} := by
        simp [sessionOf, EndDirectoryEnumerationCallback]
      have h2 : sessionOf T (StartDirectoryEnumerationCallback provider startData T).2 = {} := by
        simp [sessionOf, StartDirectoryEnumerationCallback]
      rw [h1, h2]

/-- C10 fails as stated: after the session 7 on `/d` has been ended, a get-batch call for
7 is served: it creates a state for 7, loads the listing and writes the entry `a`. -/
theorem C10_counterexample :
    (EndDirectoryEnumerationCallback startedD (requestFor "d") 7).2.enumerationStates 7 = none ∧
    (getBatch os0 js0 (EndDirectoryEnumerationCallback startedD (requestFor "d") 7).2
      (requestFor "d") 7 none 10).1 = ["a".toList] ∧
    (getBatch os0 js0 (EndDirectoryEnumerationCallback startedD (requestFor "d") 7).2
      (requestFor "d") 7 none 10).2.enumerationStates 7 =
      some { entries := ["a".toList], nextIndex := 1, isLoading := false, isComplete := true,
             callCount := 1 } := by
  refine ⟨by rfl, by rfl, by rfl⟩

/-! ## The call cap -/

theorem capped_call (os : Win32) (js : JsProvider) (p : ProjFSProvider) (cd : PRJ_CALLBACK_DATA)
    (T : GUID) (se : Option CppString) (buf : DirEntryBuffer) (st : EnumerationState)
    (hst : p.enumerationStates T = some st) (hno : cd.restartScan = false)
    (hcap : MAX_CALLS_PER_ENUM ≤ st.callCount) (hlt : st.callCount < INT_MAX) :
    GetDirectoryEnumerationCallback os js p cd T se buf =
      { hr := HRESULT.S_OK,
        provider := (countEnumerationCall p).setEnumState T
          { st with callCount := st.callCount + 1 },
        buffer := buf } := by
  have hs : sessionOf T p = st := by simp [sessionOf, hst]
  have hinc : incInt st.callCount = st.callCount + 1 := by
    unfold incInt
    rw [if_neg (by omega)]
  unfold GetDirectoryEnumerationCallback
  rw [enterSession_eq, sessionOf_countEnumerationCall, hno, hs]
  simp only [Bool.false_eq_true, ↓reduceIte, hinc]
  unfold enumerateFrom
  rw [if_pos (by show MAX_CALLS_PER_ENUM < st.callCount + 1; omega)]

theorem runCalls_capped (os : Win32) (js : JsProvider) (T : GUID) :
    ∀ (calls : List EnumCall) (p : ProjFSProvider) (st : EnumerationState),
      p.enumerationStates T = some st → MAX_CALLS_PER_ENUM ≤ st.callCount →
      st.callCount + calls.length ≤ INT_MAX →
      (∀ c ∈ calls, c.callbackData.restartScan = false) →
      (runCalls os js T p calls).enumerationStates T =
        some { st with callCount := st.callCount + calls.length } := by
  intro calls
  induction calls with
  | nil => intro p st hst _ _ _; simpa [runCalls] using hst
  | cons c cs ih =>
    intro p st hst hcap hlen hno
    simp only [List.length_cons, Nat.cast_add, Nat.cast_one] at hlen
    have hc := capped_call os js p c.callbackData T c.searchExpression c.dirEntryBufferHandle st
      hst (hno c (List.mem_cons_self _ _)) hcap (by have := Int.ofNat_nonneg cs.length; omega)
    unfold runCalls
    rw [hc]
    have := ih ((countEnumerationCall p).setEnumState T { st with callCount := st.callCount + 1 })
      { st with callCount := st.callCount + 1 } (setEnumState_session _ _ _)
      (by show MAX_CALLS_PER_ENUM ≤ st.callCount + 1; omega)
      (by show st.callCount + 1 + (cs.length : Int) ≤ INT_MAX; omega)
      (fun x hx => hno x (List.mem_cons_of_mem _ hx))
    rw [this]
    simp only [List.length_cons, Nat.cast_add, Nat.cast_one]
    congr 2
    omega

/-- C8 (as amended): once the call counter of a session has reached the cap
(callCount >= MAX_CALLS_PER_ENUM = 100), every later get-batch call that does not carry
the restart-scan flag returns success, leaves the output buffer as it was and does not
change nextIndex or the entries, as long as the 32-bit counter does not overflow. A call
with the restart-scan flag resets the counter and is served again. -/
theorem C8_capped_calls_are_empty (os : Win32) (js : JsProvider) (T : GUID)
    (provider : ProjFSProvider) (st : EnumerationState) (calls : List EnumCall) (c : EnumCall)
    (hst : provider.enumerationStates T = some st)
    (hcap : MAX_CALLS_PER_ENUM ≤ st.callCount)
    (hlen : st.callCount + calls.length < INT_MAX)
    (hno : ∀ x ∈ calls, x.callbackData.restartScan = false)
    (hc : c.callbackData.restartScan = false) :
    (GetDirectoryEnumerationCallback os js (runCalls os js T provider calls) c.callbackData T
      c.searchExpression c.dirEntryBufferHandle).hr = HRESULT.S_OK ∧
    (GetDirectoryEnumerationCallback os js (runCalls os js T provider calls) c.callbackData T
      c.searchExpression c.dirEntryBufferHandle).buffer = c.dirEntryBufferHandle ∧
    ∃ st',
      (GetDirectoryEnumerationCallback os js (runCalls os js T provider calls) c.callbackData T
        c.searchExpression c.dirEntryBufferHandle).provider.enumerationStates T = some st' ∧
      st'.nextIndex = st.nextIndex ∧ st'.entries = st.entries ∧
      st'.callCount = st.callCount + calls.length + 1 := by
  have hrun := runCalls_capped os js T calls provider st hst hcap (by omega) hno
  have hcall := capped_call os js (runCalls os js T provider calls) c.callbackData T
    c.searchExpression c.dirEntryBufferHandle _ hrun hc
    (by show MAX_CALLS_PER_ENUM ≤ st.callCount + calls.length
        have := Int.ofNat_nonneg calls.length; omega)
    (by show st.callCount + calls.length < INT_MAX; exact hlen)
  rw [hcall]
  exact ⟨rfl, rfl, _, setEnumState_session _ _ _, rfl, rfl, rfl⟩

set_option maxRecDepth 100000 in
theorem C8_capped_calls_are_empty_witness :
    (GetDirectoryEnumerationCallback os0 js0
      (runCalls os0 js0 7 (runCalls os0 js0 7 startedD (List.replicate 100 callD)) [callD, callD])
      callD.callbackData 7 callD.searchExpression callD.dirEntryBufferHandle).hr = HRESULT.S_OK ∧
    (GetDirectoryEnumerationCallback os0 js0
      (runCalls os0 js0 7 (runCalls os0 js0 7 startedD (List.replicate 100 callD)) [callD, callD])
      callD.callbackData 7 callD.searchExpression callD.dirEntryBufferHandle).buffer =
        callD.dirEntryBufferHandle ∧
    ∃ st',
      (GetDirectoryEnumerationCallback os0 js0
        (runCalls os0 js0 7 (runCalls os0 js0 7 startedD (List.replicate 100 callD))
          [callD, callD])
        callD.callbackData 7 callD.searchExpression
        callD.dirEntryBufferHandle).provider.enumerationStates 7 = some st' ∧
      st'.nextIndex = 1 ∧ st'.entries = ["a".toList] ∧ st'.callCount = 100 + 2 + 1 :=
  C8_capped_calls_are_empty os0 js0 7 (runCalls os0 js0 7 startedD (List.replicate 100 callD))
    { entries := ["a".toList], nextIndex := 1, isComplete := true, callCount := 100 }
    [callD, callD] callD (by rfl) (by decide) (by decide) (by decide) (by decide)

set_option maxRecDepth 100000 in
/-- C8 fails as stated: on a session that has received 101 get-batch calls, so that the
call cap has been exceeded, a further get-batch call with the restart-scan flag writes
the entry `a` to the output buffer and leaves nextIndex, reset to 0, at 1. -/
theorem C8_counterexample :
    (sessionOf 7 (runCalls os0 js0 7 startedD (List.replicate 101 callD))).callCount = 101 ∧
    (getBatch os0 js0 (runCalls os0 js0 7 startedD (List.replicate 101 callD))
      (requestFor "d") 7 none 1).1 = [] ∧
    (getBatch os0 js0 (runCalls os0 js0 7 startedD (List.replicate 101 callD))
      { FilePathName := "d".toList, restartScan := true } 7 none 1).1 = ["a".toList] ∧
    (sessionOf 7 (getBatch os0 js0 (runCalls os0 js0 7 startedD (List.replicate 101 callD))
      { FilePathName := "d".toList, restartScan := true } 7 none 1).2).nextIndex = 1 := by
  refine ⟨by rfl, by rfl, by rfl, by rfl⟩

/-! ## The memo maps do not change the answers of the storage -/

theorem sameAnswers_refl (s : SyncStorage) : sameAnswers s s := ⟨rfl, fun _ => rfl, fun _ => rfl⟩

theorem sameAnswers_trans {s t u : SyncStorage} (h1 : sameAnswers s t) (h2 : sameAnswers t u) :
    sameAnswers s u :=
  ⟨h1.1.trans h2.1, fun h => (h1.2.1 h).trans (h2.2.1 h), fun h => (h1.2.2 h).trans (h2.2.2 h)⟩

theorem sameAnswers_symm {s t : SyncStorage} (h : sameAnswers s t) : sameAnswers t s :=
  ⟨h.1.symm, fun x => (h.2.1 x).symm, fun x => (h.2.2 x).symm⟩

theorem GetObjectType_fst (s : SyncStorage) (h : CppString) :
    (s.GetObjectType h).1 =
      match s.typeCache h with
      | some t => t
      | none => ExtractTypeFromMicrodata (s.ReadFirst100Bytes h) := by
  unfold SyncStorage.GetObjectType
  cases s.typeCache h <;> rfl

theorem GetObjectType_snd_objects (s : SyncStorage) (h : CppString) :
    (s.GetObjectType h).2.objects = s.objects := by
  unfold SyncStorage.GetObjectType
  cases s.typeCache h <;> rfl

theorem GetObjectType_snd_metadataCache (s : SyncStorage) (h : CppString) :
    (s.GetObjectType h).2.metadataCache = s.metadataCache := by
  unfold SyncStorage.GetObjectType
  cases s.typeCache h <;> rfl

theorem GetObjectType_snd_answer (s : SyncStorage) (h h' : CppString) :
    ((s.GetObjectType h).2.GetObjectType h').1 = (s.GetObjectType h').1 := by
  rw [GetObjectType_fst, GetObjectType_fst]
  unfold SyncStorage.GetObjectType
  cases hc : s.typeCache h with
  | some t => rfl
  | none =>
    simp only
    by_cases hh : h' = h
    · subst hh
      simp [hc, SyncStorage.ReadFirst100Bytes]
    · simp [hh, SyncStorage.ReadFirst100Bytes]

theorem GetObjectMetadata_fst (s : SyncStorage) (h : CppString) :
    (s.GetObjectMetadata h).1 =
      match s.metadataCache h with
      | some m => m
      | none =>
        match s.objects.lookup h with
        | some content =>
          { exists_ := true, size := content.length, isDirectory := false,
            type := (s.GetObjectType h).1 }
        | none =>
          { exists_ := false, size := 0, isDirectory := false, type := "UNKNOWN".toList } := by
  unfold SyncStorage.GetObjectMetadata
  cases s.metadataCache h with
  | some m => rfl
  | none => cases s.objects.lookup h <;> rfl

theorem GetObjectMetadata_snd_objects (s : SyncStorage) (h : CppString) :
    (s.GetObjectMetadata h).2.objects = s.objects := by
  unfold SyncStorage.GetObjectMetadata
  cases s.metadataCache h with
  | some m => rfl
  | none =>
    cases s.objects.lookup h with
    | none => rfl
    | some c => exact GetObjectType_snd_objects s h

theorem GetObjectType_fst_congr (s t : SyncStorage) (h : CppString)
    (h1 : s.objects = t.objects) (h2 : s.typeCache = t.typeCache) :
    (s.GetObjectType h).1 = (t.GetObjectType h).1 := by
  rw [GetObjectType_fst, GetObjectType_fst, h2]
  simp only [SyncStorage.ReadFirst100Bytes, h1]

theorem GetObjectMetadata_snd_type (s : SyncStorage) (h h' : CppString) :
    ((s.GetObjectMetadata h).2.GetObjectType h').1 = (s.GetObjectType h').1 := by
  unfold SyncStorage.GetObjectMetadata
  cases s.metadataCache h with
  | some m => rfl
  | none =>
    cases s.objects.lookup h with
    | none => exact GetObjectType_fst_congr _ _ h' rfl rfl
    | some c =>
      refine Eq.trans ?_ (GetObjectType_snd_answer s h h')
      exact GetObjectType_fst_congr _ _ h' rfl rfl

theorem GetObjectMetadata_sameAnswers (s : SyncStorage) (h : CppString) :
    sameAnswers s (s.GetObjectMetadata h).2 := by
  refine ⟨(GetObjectMetadata_snd_objects s h).symm,
    fun h' => (GetObjectMetadata_snd_type s h h').symm, fun h' => ?_⟩
  rw [GetObjectMetadata_fst (s.GetObjectMetadata h).2, GetObjectMetadata_snd_type,
    GetObjectMetadata_snd_objects]
  rw [GetObjectMetadata_fst s h']
  have hcache : (s.GetObjectMetadata h).2.metadataCache h' =
      match s.metadataCache h with
      | some _ => s.metadataCache h'
      | none => if h' = h then some (s.GetObjectMetadata h).1 else s.metadataCache h' := by
    unfold SyncStorage.GetObjectMetadata
    cases s.metadataCache h with
    | some m => rfl
    | none =>
      cases s.objects.lookup h with
      | none => rfl
      | some c => simp only [GetObjectType_snd_metadataCache]
  rw [hcache]
  cases hm : s.metadataCache h with
  | some m => rfl
  | none =>
    simp only
    by_cases hh : h' = h
    · subst hh
      simp only [↓reduceIte, hm]
      rw [GetObjectMetadata_fst, hm]
    · simp only [hh, ↓reduceIte]

theorem GetVirtualPathMetadata_fst_congr {s t : SyncStorage} (h : sameAnswers s t)
    (virtualPath : CppString) :
    (s.GetVirtualPathMetadata virtualPath).1 = (t.GetVirtualPathMetadata virtualPath).1 := by
  unfold SyncStorage.GetVirtualPathMetadata
  split
  · rfl
  · split
    · simp only [h.2.2]
      split <;> rfl
    · rfl

theorem GetVirtualPathMetadata_sameAnswers (s : SyncStorage) (virtualPath : CppString) :
    sameAnswers s (s.GetVirtualPathMetadata virtualPath).2 := by
  unfold SyncStorage.GetVirtualPathMetadata
  split
  · exact sameAnswers_refl s
  · split
    · simp only
      split <;> exact GetObjectMetadata_sameAnswers s _
    · exact sameAnswers_refl s

theorem entryMetadata_fst_congr {s t : SyncStorage} (h : sameAnswers s t)
    (cache : Option ContentCache) (virtualPath entry : CppString) :
    (entryMetadata cache s virtualPath entry).1 = (entryMetadata cache t virtualPath entry).1 := by
  unfold entryMetadata
  simp only
  split
  · rfl
  · cases cache with
    | none => exact GetVirtualPathMetadata_fst_congr h _
    | some c =>
      simp only
      cases c.GetFileInfo (virtualPath ++ "/".toList ++ entry) with
      | none => exact GetVirtualPathMetadata_fst_congr h _
      | some fi => rfl

theorem entryMetadata_sameAnswers (s : SyncStorage) (cache : Option ContentCache)
    (virtualPath entry : CppString) :
    sameAnswers s (entryMetadata cache s virtualPath entry).2 := by
  unfold entryMetadata
  simp only
  split
  · exact sameAnswers_refl s
  · cases cache with
    | none => exact GetVirtualPathMetadata_sameAnswers s _
    | some c =>
      simp only
      cases c.GetFileInfo (virtualPath ++ "/".toList ++ entry) with
      | none => exact GetVirtualPathMetadata_sameAnswers s _
      | some fi => exact sameAnswers_refl s

theorem entryShown_congr {s t : SyncStorage} (h : sameAnswers s t) (os : Win32)
    (cache : Option ContentCache) (virtualPath searchPattern entry : CppString) :
    entryShown os cache s virtualPath searchPattern entry =
      entryShown os cache t virtualPath searchPattern entry := by
  unfold entryShown
  rw [entryMetadata_fst_congr h]

/-! ## The pagination loop -/

theorem paginate_done (os : Win32) (cache : Option ContentCache)
    (virtualPath searchPattern : CppString) (entries : List CppString) (fuel : Nat)
    (st : SyncStorage) (i : Nat) (buf : DirEntryBuffer) (h : ¬ i < entries.length) :
    paginate os cache virtualPath searchPattern entries fuel st i buf = (st, i, buf) := by
  cases fuel with
  | zero => rfl
  | succ n => simp [paginate, h]

theorem paginate_skip_match (os : Win32) (cache : Option ContentCache)
    (virtualPath searchPattern : CppString) (entries : List CppString) (n : Nat)
    (st : SyncStorage) (i : Nat) (buf : DirEntryBuffer) (h : i < entries.length)
    (hm : os.PrjFileNameMatch entries[i] searchPattern = false) :
    paginate os cache virtualPath searchPattern entries (n + 1) st i buf =
      paginate os cache virtualPath searchPattern entries n st (i + 1) buf := by
  simp [paginate, h, hm]

theorem paginate_skip_missing (os : Win32) (cache : Option ContentCache)
    (virtualPath searchPattern : CppString) (entries : List CppString) (n : Nat)
    (st : SyncStorage) (i : Nat) (buf : DirEntryBuffer) (h : i < entries.length)
    (hm : os.PrjFileNameMatch entries[i] searchPattern = true)
    (he : (entryMetadata cache st virtualPath entries[i]).1.exists_ = false) :
    paginate os cache virtualPath searchPattern entries (n + 1) st i buf =
      paginate os cache virtualPath searchPattern entries n
        (entryMetadata cache st virtualPath entries[i]).2 (i + 1) buf := by
  simp [paginate, h, hm, he]

theorem paginate_reject (os : Win32) (cache : Option ContentCache)
    (virtualPath searchPattern : CppString) (entries : List CppString) (n : Nat)
    (st : SyncStorage) (i : Nat) (buf : DirEntryBuffer) (h : i < entries.length)
    (hm : os.PrjFileNameMatch entries[i] searchPattern = true)
    (he : (entryMetadata cache st virtualPath entries[i]).1.exists_ = true)
    (hr : os.fillRejects entries[i] = true) :
    paginate os cache virtualPath searchPattern entries (n + 1) st i buf =
      paginate os cache virtualPath searchPattern entries n
        (entryMetadata cache st virtualPath entries[i]).2 (i + 1) buf := by
  simp [paginate, h, hm, he, PrjFillDirEntryBuffer, hr, FAILED]

theorem paginate_full (os : Win32) (cache : Option ContentCache)
    (virtualPath searchPattern : CppString) (entries : List CppString) (n : Nat)
    (st : SyncStorage) (i : Nat) (buf : DirEntryBuffer) (h : i < entries.length)
    (hm : os.PrjFileNameMatch entries[i] searchPattern = true)
    (he : (entryMetadata cache st virtualPath entries[i]).1.exists_ = true)
    (hr : os.fillRejects entries[i] = false) (hf : ¬ buf.written.length < buf.capacity) :
    paginate os cache virtualPath searchPattern entries (n + 1) st i buf =
      ((entryMetadata cache st virtualPath entries[i]).2, i, buf) := by
  simp [paginate, h, hm, he, PrjFillDirEntryBuffer, hr, hf, FAILED]

theorem paginate_add (os : Win32) (cache : Option ContentCache)
    (virtualPath searchPattern : CppString) (entries : List CppString) (n : Nat)
    (st : SyncStorage) (i : Nat) (buf : DirEntryBuffer) (h : i < entries.length)
    (hm : os.PrjFileNameMatch entries[i] searchPattern = true)
    (he : (entryMetadata cache st virtualPath entries[i]).1.exists_ = true)
    (hr : os.fillRejects entries[i] = false) (hf : buf.written.length < buf.capacity) :
    paginate os cache virtualPath searchPattern entries (n + 1) st i buf =
      paginate os cache virtualPath searchPattern entries n
        (entryMetadata cache st virtualPath entries[i]).2 (i + 1)
        { buf with written := buf.written ++
            [(entries[i], CreateFileBasicInfo (entryMetadata cache st virtualPath entries[i]).1
              os.systemTime)] } := by
  simp [paginate, h, hm, he, PrjFillDirEntryBuffer, hr, hf, FAILED]

theorem paginate_outcome (os : Win32) (cache : Option ContentCache)
    (virtualPath searchPattern : CppString) (entries : List CppString) (s0 : SyncStorage) :
    ∀ (fuel : Nat) (st : SyncStorage) (i : Nat) (buf : DirEntryBuffer),
      sameAnswers s0 st → entries.length - i ≤ fuel →
      PaginateOutcome (entryShown os cache s0 virtualPath searchPattern) entries s0 i buf
        (paginate os cache virtualPath searchPattern entries fuel st i buf) := by
  intro fuel
  induction fuel with
  | zero =>
    intro st i buf hs hlen
    have hi : entries.length ≤ i := by omega
    rw [paginate_done _ _ _ _ _ _ _ _ _ (by omega)]
    refine ⟨hs, rfl, ?_, ?_, le_refl _, fun h => h⟩
    · simp [List.drop_of_length_le hi]
    · simp [List.drop_of_length_le hi]
  | succ n ih =>
    intro st i buf hs hlen
    by_cases h : i < entries.length
    · have hdrop : entries.drop i = entries[i] :: entries.drop (i + 1) :=
        List.drop_eq_getElem_cons h
      have hshown : entryShown os cache s0 virtualPath searchPattern entries[i] =
          (os.PrjFileNameMatch entries[i] searchPattern &&
            (entryMetadata cache st virtualPath entries[i]).1.exists_ &&
            !os.fillRejects entries[i]) := by
        rw [entryShown_congr hs]
        rfl
      have hs' : sameAnswers s0 (entryMetadata cache st virtualPath entries[i]).2 :=
        sameAnswers_trans hs (entryMetadata_sameAnswers st cache virtualPath entries[i])
      cases hm : os.PrjFileNameMatch entries[i] searchPattern with
      | false =>
        rw [paginate_skip_match _ _ _ _ _ _ _ _ _ h hm]
        obtain ⟨a1, a2, a3, a4, a5, a6⟩ := ih st (i + 1) buf hs (by omega)
        have hf : entryShown os cache s0 virtualPath searchPattern entries[i] = false := by
          rw [hshown, hm]; rfl
        refine ⟨a1, a2, ?_, ?_, by omega, fun _ => a6 (by omega)⟩
        · rw [a3, hdrop, List.filter_cons_of_neg (by simp [hf])]
        · rw [a4, hdrop, List.filter_cons_of_neg (by simp [hf])]
      | true =>
        cases he : (entryMetadata cache st virtualPath entries[i]).1.exists_ with
        | false =>
          rw [paginate_skip_missing _ _ _ _ _ _ _ _ _ h hm he]
          obtain ⟨a1, a2, a3, a4, a5, a6⟩ := ih _ (i + 1) buf hs' (by omega)
          have hf : entryShown os cache s0 virtualPath searchPattern entries[i] = false := by
            rw [hshown, hm, he]; rfl
          refine ⟨a1, a2, ?_, ?_, by omega, fun _ => a6 (by omega)⟩
          · rw [a3, hdrop, List.filter_cons_of_neg (by simp [hf])]
          · rw [a4, hdrop, List.filter_cons_of_neg (by simp [hf])]
        | true =>
          cases hr : os.fillRejects entries[i] with
          | true =>
            rw [paginate_reject _ _ _ _ _ _ _ _ _ h hm he hr]
            obtain ⟨a1, a2, a3, a4, a5, a6⟩ := ih _ (i + 1) buf hs' (by omega)
            have hf : entryShown os cache s0 virtualPath searchPattern entries[i] = false := by
              rw [hshown, hm, he, hr]; rfl
            refine ⟨a1, a2, ?_, ?_, by omega, fun _ => a6 (by omega)⟩
            · rw [a3, hdrop, List.filter_cons_of_neg (by simp [hf])]
            · rw [a4, hdrop, List.filter_cons_of_neg (by simp [hf])]
          | false =>
            have hf : entryShown os cache s0 virtualPath searchPattern entries[i] = true := by
              rw [hshown, hm, he, hr]; rfl
            by_cases hroom : buf.written.length < buf.capacity
            · rw [paginate_add _ _ _ _ _ _ _ _ _ h hm he hr hroom]
              obtain ⟨a1, a2, a3, a4, a5, a6⟩ := ih _ (i + 1)
                { buf with written := buf.written ++
                    [(entries[i], CreateFileBasicInfo
                      (entryMetadata cache st virtualPath entries[i]).1 os.systemTime)] }
                hs' (by omega)
              obtain ⟨k, hk⟩ : ∃ k, buf.capacity - buf.written.length = k + 1 :=
                ⟨buf.capacity - buf.written.length - 1, by omega⟩
              have hk' : buf.capacity - (buf.written.length + 1) = k := by omega
              simp only [List.length_append, List.length_singleton, List.map_append,
                List.map_cons, List.map_nil, hk'] at a3 a4
              refine ⟨a1, a2, ?_, ?_, by omega, fun _ => a6 (by omega)⟩
              · rw [a3, hdrop, List.filter_cons_of_pos (by simp [hf]), hk]
                simp
              · rw [a4, hdrop, List.filter_cons_of_pos (by simp [hf]), hk]
                simp
            · rw [paginate_full _ _ _ _ _ _ _ _ _ h hm he hr hroom]
              have hz : buf.capacity - buf.written.length = 0 := by omega
              refine ⟨hs', rfl, ?_, ?_, le_refl _, fun h => h⟩
              · simp [hz]
              · simp [hz]
    · rw [paginate_done _ _ _ _ _ _ _ _ _ h]
      have hi : entries.length ≤ i := by omega
      refine ⟨hs, rfl, ?_, ?_, le_refl _, fun h => h⟩
      · simp [List.drop_of_length_le hi]
      · simp [List.drop_of_length_le hi]

/-! ## One get-batch call on a loaded session -/

theorem processEntries_outcome (os : Win32) (p : ProjFSProvider) (virtualPath : CppString)
    (T : GUID) (se : Option CppString) (s0 : SyncStorage) (entries : List CppString)
    (i c k : Nat) (hs : sameAnswers s0 p.storage) :
    ∃ i',
      (processEntries os p virtualPath T se
        { entries := entries, nextIndex := i, isLoading := false, isComplete := true,
          callCount := c }
        { capacity := k, written := [] }).buffer.written.map Prod.fst =
        ((entries.drop i).filter (entryShown os (p.asyncBridge.map AsyncBridge.GetCache) s0
          virtualPath (se.getD "*".toList))).take k ∧
      Paginating p.asyncBridge s0 T entries i' c
        (processEntries os p virtualPath T se
          { entries := entries, nextIndex := i, isLoading := false, isComplete := true,
            callCount := c }
          { capacity := k, written := [] }).provider ∧
      (entries.drop i').filter (entryShown os (p.asyncBridge.map AsyncBridge.GetCache) s0
          virtualPath (se.getD "*".toList)) =
        ((entries.drop i).filter (entryShown os (p.asyncBridge.map AsyncBridge.GetCache) s0
          virtualPath (se.getD "*".toList))).drop k := by
  unfold processEntries
  by_cases h : entries.length ≤ i
  · rw [if_pos (by simpa using h)]
    refine ⟨i, ?_, ⟨rfl, hs, setEnumState_session _ _ _⟩, ?_⟩
    · simp [List.drop_of_length_le h]
    · simp [List.drop_of_length_le h]
  · rw [if_neg (by simpa using h)]
    obtain ⟨a1, _, a3, a4, _, _⟩ := paginate_outcome os (p.asyncBridge.map AsyncBridge.GetCache)
      virtualPath (se.getD "*".toList) entries s0 (entries.length - i) p.storage i
      { capacity := k, written := [] } hs (le_refl _)
    refine ⟨_, ?_, ⟨rfl, a1, setEnumState_session _ _ _⟩, ?_⟩
    · simpa using a3
    · simpa using a4

theorem incInt_natCast (c : Nat) (h : c < 200) : incInt (c : Int) = ((c + 1 : Nat) : Int) := by
  unfold incInt INT_MAX
  rw [if_neg (by omega)]
  push_cast
  rfl

theorem getBatch_paginating (os : Win32) (js : JsProvider) (p : ProjFSProvider)
    (cd : PRJ_CALLBACK_DATA) (T : GUID) (se : Option CppString) (k : Nat)
    (bridge : Option AsyncBridge) (s0 : SyncStorage) (entries : List CppString) (i c : Nat)
    (hP : Paginating bridge s0 T entries i c p) (hno : cd.restartScan = false) (hc : c < 100) :
    ∃ i',
      (getBatch os js p cd T se k).1 =
        ((entries.drop i).filter (entryShown os (bridge.map AsyncBridge.GetCache) s0
          (virtualPathOf cd.FilePathName) (se.getD "*".toList))).take k ∧
      Paginating bridge s0 T entries i' (c + 1) (getBatch os js p cd T se k).2 ∧
      (entries.drop i').filter (entryShown os (bridge.map AsyncBridge.GetCache) s0
          (virtualPathOf cd.FilePathName) (se.getD "*".toList)) =
        ((entries.drop i).filter (entryShown os (bridge.map AsyncBridge.GetCache) s0
          (virtualPathOf cd.FilePathName) (se.getD "*".toList))).drop k := by
  obtain ⟨hb, hs, ht⟩ := hP
  have hsess : sessionOf T p =
      { entries := entries, nextIndex := i, isLoading := false, isComplete := true,
        callCount := c } := by
    simp [sessionOf, ht]
  have hcall : GetDirectoryEnumerationCallback os js p cd T se { capacity := k, written := [] } =
      processEntries os (countEnumerationCall p) (virtualPathOf cd.FilePathName) T se
        { entries := entries, nextIndex := i, isLoading := false, isComplete := true,
          callCount := ((c + 1 : Nat) : Int) }
        { capacity := k, written := [] } := by
    unfold GetDirectoryEnumerationCallback
    rw [enterSession_eq, sessionOf_countEnumerationCall, hno, hsess]
    simp only [Bool.false_eq_true, ↓reduceIte, incInt_natCast c (by omega)]
    unfold enumerateFrom
    rw [if_neg (by show ¬ MAX_CALLS_PER_ENUM < ((c + 1 : Nat) : Int)
                   unfold MAX_CALLS_PER_ENUM; omega)]
    rw [if_neg (by simp)]
  have hb' : (countEnumerationCall p).asyncBridge = bridge := hb
  have := processEntries_outcome os (countEnumerationCall p) (virtualPathOf cd.FilePathName) T se
    s0 entries i (c + 1) k hs
  rw [hb'] at this
  unfold getBatch
  rw [hcall]
  exact this

theorem getBatch_capped (os : Win32) (js : JsProvider) (p : ProjFSProvider)
    (cd : PRJ_CALLBACK_DATA) (T : GUID) (se : Option CppString) (k : Nat)
    (bridge : Option AsyncBridge) (s0 : SyncStorage) (entries : List CppString) (i : Nat)
    (hP : Paginating bridge s0 T entries i 100 p) (hno : cd.restartScan = false) :
    (getBatch os js p cd T se k).1 = [] := by
  obtain ⟨_, _, ht⟩ := hP
  unfold getBatch
  rw [capped_call os js p cd T se _ _ ht hno
    (by show MAX_CALLS_PER_ENUM ≤ ((100 : Nat) : Int); decide)
    (by show ((100 : Nat) : Int) < INT_MAX; decide)]
  rfl

theorem getBatch_first (os : Win32) (js : JsProvider) (p : ProjFSProvider)
    (cd : PRJ_CALLBACK_DATA) (T : GUID) (se : Option CppString) (k : Nat)
    (hnew : (if cd.restartScan then ({} : EnumerationState) else sessionOf T p) = {}) :
    ∃ i',
      (getBatch os js p cd T se k).1 =
        ((loadEntries js (countEnumerationCall p) (virtualPathOf cd.FilePathName) []).entries.filter
          (entryShown os
            ((loadEntries js (countEnumerationCall p)
              (virtualPathOf cd.FilePathName) []).provider.asyncBridge.map AsyncBridge.GetCache)
            (loadEntries js (countEnumerationCall p)
              (virtualPathOf cd.FilePathName) []).provider.storage
            (virtualPathOf cd.FilePathName) (se.getD "*".toList))).take k ∧
      Paginating
        (loadEntries js (countEnumerationCall p) (virtualPathOf cd.FilePathName) []).provider.asyncBridge
        (loadEntries js (countEnumerationCall p) (virtualPathOf cd.FilePathName) []).provider.storage
        T (loadEntries js (countEnumerationCall p) (virtualPathOf cd.FilePathName) []).entries
        i' 1 (getBatch os js p cd T se k).2 ∧
      ((loadEntries js (countEnumerationCall p) (virtualPathOf cd.FilePathName) []).entries.drop
          i').filter
          (entryShown os
            ((loadEntries js (countEnumerationCall p)
              (virtualPathOf cd.FilePathName) []).provider.asyncBridge.map AsyncBridge.GetCache)
            (loadEntries js (countEnumerationCall p)
              (virtualPathOf cd.FilePathName) []).provider.storage
            (virtualPathOf cd.FilePathName) (se.getD "*".toList)) =
        ((loadEntries js (countEnumerationCall p)
          (virtualPathOf cd.FilePathName) []).entries.filter
          (entryShown os
            ((loadEntries js (countEnumerationCall p)
              (virtualPathOf cd.FilePathName) []).provider.asyncBridge.map AsyncBridge.GetCache)
            (loadEntries js (countEnumerationCall p)
              (virtualPathOf cd.FilePathName) []).provider.storage
            (virtualPathOf cd.FilePathName) (se.getD "*".toList))).drop k := by
  have hcall : GetDirectoryEnumerationCallback os js p cd T se { capacity := k, written := [] } =
      processEntries os
        (loadEntries js (countEnumerationCall p) (virtualPathOf cd.FilePathName) []).provider
        (virtualPathOf cd.FilePathName) T se
        { entries := (loadEntries js (countEnumerationCall p)
            (virtualPathOf cd.FilePathName) []).entries,
          nextIndex := 0, isLoading := false, isComplete := true, callCount := ((1 : Nat) : Int) }
        { capacity := k, written := [] } := by
    unfold GetDirectoryEnumerationCallback
    rw [enterSession_eq, sessionOf_countEnumerationCall, hnew]
    unfold enumerateFrom
    rfl
  have := processEntries_outcome os
    (loadEntries js (countEnumerationCall p) (virtualPathOf cd.FilePathName) []).provider
    (virtualPathOf cd.FilePathName) T se
    (loadEntries js (countEnumerationCall p) (virtualPathOf cd.FilePathName) []).provider.storage
    (loadEntries js (countEnumerationCall p) (virtualPathOf cd.FilePathName) []).entries
    0 1 k (sameAnswers_refl _)
  unfold getBatch
  rw [hcall]
  simpa using this

/-! ## Sessions drained to completion -/

theorem take_eq_nil_of_pos {α : Type} (k : Nat) (l : List α) (hk : 1 ≤ k)
    (h : l.take k = []) : l = [] := by
  cases l with
  | nil => rfl
  | cons a t =>
    cases k with
    | zero => omega
    | succ m => simp at h

theorem drainSession_paginating (os : Win32) (js : JsProvider) (filePathName : CppString)
    (T : GUID) (se : Option CppString) (restart : Nat → Bool) (caps : Nat → Nat)
    (bridge : Option AsyncBridge) (s0 : SyncStorage) (entries : List CppString)
    (hcaps : ∀ k, 1 ≤ caps k) :
    ∀ (fuel first : Nat) (p : ProjFSProvider) (i c : Nat),
      (∀ k, first ≤ k → restart k = false) →
      Paginating bridge s0 T entries i c p → c ≤ 100 →
      ((entries.drop i).filter (entryShown os (bridge.map AsyncBridge.GetCache) s0
        (virtualPathOf filePathName) (se.getD "*".toList))).length < fuel →
      drainSession os js filePathName T se restart caps fuel first p =
        some (((entries.drop i).filter (entryShown os (bridge.map AsyncBridge.GetCache) s0
          (virtualPathOf filePathName) (se.getD "*".toList))).take
            (totalRoom caps first (100 - c))) := by
  intro fuel
  induction fuel with
  | zero => intro first p i c _ _ _ h; omega
  | succ n ih =>
    intro first p i c hr hP hc hlen
    unfold drainSession
    by_cases hcap : c = 100
    · subst hcap
      have h0 := getBatch_capped os js p
        { FilePathName := filePathName, restartScan := restart first } T se (caps first)
        bridge s0 entries i hP (hr first (le_refl _))
      simp only [h0, ↓reduceIte]
      simp [totalRoom]
    · obtain ⟨i', h1, h2, h3⟩ := getBatch_paginating os js p
        { FilePathName := filePathName, restartScan := restart first } T se (caps first)
        bridge s0 entries i c hP (hr first (le_refl _)) (by omega)
      simp only at h1 h3
      have htr : totalRoom caps first (100 - c) =
          caps first + totalRoom caps (first + 1) (100 - (c + 1)) := by
        have : 100 - c = (100 - (c + 1)) + 1 := by omega
        rw [this, totalRoom]
      by_cases hnil : (getBatch os js p
          { FilePathName := filePathName, restartScan := restart first } T se (caps first)).1 = []
      · rw [if_pos hnil]
        rw [h1] at hnil
        rw [take_eq_nil_of_pos _ _ (hcaps first) hnil]
        simp
      · rw [if_neg hnil]
        have hne : (entries.drop i).filter (entryShown os (bridge.map AsyncBridge.GetCache) s0
            (virtualPathOf filePathName) (se.getD "*".toList)) ≠ [] := by
          intro h
          apply hnil
          rw [h1, h]
          simp
        have hpos := List.length_pos.mpr hne
        have hk := hcaps first
        rw [ih (first + 1) _ i' (c + 1) (fun k hk => hr k (by omega)) h2 (by omega)
          (by rw [h3, List.length_drop]; omega)]
        rw [h1, h3, htr, Option.map_some', List.take_add]

theorem drainSession_new (os : Win32) (js : JsProvider) (filePathName : CppString)
    (T : GUID) (se : Option CppString) (restart : Nat → Bool) (caps : Nat → Nat)
    (p : ProjFSProvider) (l : LoadState) (fuel : Nat) (hcaps : ∀ k, 1 ≤ caps k)
    (hr : ∀ k, 1 ≤ k → restart k = false)
    (hnew : (if restart 0 then ({} : EnumerationState) else sessionOf T p) = {})
    (hl : loadEntries js (countEnumerationCall p) (virtualPathOf filePathName) [] = l)
    (hlen : (l.entries.filter (entryShown os (l.provider.asyncBridge.map AsyncBridge.GetCache)
      l.provider.storage (virtualPathOf filePathName) (se.getD "*".toList))).length < fuel) :
    drainSession os js filePathName T se restart caps fuel 0 p =
      some ((l.entries.filter (entryShown os (l.provider.asyncBridge.map AsyncBridge.GetCache)
        l.provider.storage (virtualPathOf filePathName) (se.getD "*".toList))).take
          (totalRoom caps 0 100)) := by
  cases fuel with
  | zero => omega
  | succ n =>
    obtain ⟨i', h1, h2, h3⟩ := getBatch_first os js p
      { FilePathName := filePathName, restartScan := restart 0 } T se (caps 0) hnew
    simp only [hl] at h1 h2 h3
    unfold drainSession
    by_cases hnil : (getBatch os js p
        { FilePathName := filePathName, restartScan := restart 0 } T se (caps 0)).1 = []
    · rw [if_pos hnil]
      rw [h1] at hnil
      rw [take_eq_nil_of_pos _ _ (hcaps 0) hnil]
      simp
    · rw [if_neg hnil]
      have hne : l.entries.filter (entryShown os (l.provider.asyncBridge.map AsyncBridge.GetCache)
          l.provider.storage (virtualPathOf filePathName) (se.getD "*".toList)) ≠ [] := by
        intro h
        apply hnil
        rw [h1, h]
        simp
      have hpos := List.length_pos.mpr hne
      have hk := hcaps 0
      rw [drainSession_paginating os js filePathName T se restart caps _ _ _ hcaps n (0 + 1) _
        i' 1 (fun k hk => hr k (by omega)) h2 (by omega)
        (by rw [h3, List.length_drop]; omega)]
      have htr : totalRoom caps 0 100 = caps 0 + totalRoom caps (0 + 1) (100 - 1) := rfl
      rw [h1, h3, Option.map_some', htr, List.take_add]

/-! ## Enumeration to completion -/

/-- C2 (as amended): on a newly started session, get-batch calls repeated until a call
returns no entry, each with a buffer that accepts at least one entry, return in call
order the shown entries of the loaded listing (those that match the search expression,
resolve to existing metadata and are accepted by the buffer), in listing order, cut off
at the total room of the first 100 calls (the call cap). When the chunks need no more
than 100 calls the result is exactly the list of shown entries, which is what one call
with room for the whole listing returns; it is the whole listing when every entry is
shown. -/
theorem C2_enumeration_in_chunks (os : Win32) (js : JsProvider) (provider : ProjFSProvider)
    (filePathName : CppString) (T : GUID) (se : Option CppString) (caps : Nat → Nat)
    (l : LoadState) (fuel : Nat)
    (hstart : provider.enumerationStates T = some {})
    (hcaps : ∀ k, 1 ≤ caps k)
    (hl : loadEntries js (countEnumerationCall provider) (virtualPathOf filePathName) [] = l)
    (hfuel : (l.entries.filter (entryShown os (l.provider.asyncBridge.map AsyncBridge.GetCache)
      l.provider.storage (virtualPathOf filePathName) (se.getD "*".toList))).length < fuel) :
    drainSession os js filePathName T se (fun _ => false) caps fuel 0 provider =
      some ((l.entries.filter (entryShown os (l.provider.asyncBridge.map AsyncBridge.GetCache)
        l.provider.storage (virtualPathOf filePathName) (se.getD "*".toList))).take
          (totalRoom caps 0 100)) ∧
    ((l.entries.filter (entryShown os (l.provider.asyncBridge.map AsyncBridge.GetCache)
        l.provider.storage (virtualPathOf filePathName) (se.getD "*".toList))).length ≤
        totalRoom caps 0 100 →
      drainSession os js filePathName T se (fun _ => false) caps fuel 0 provider =
        some (getBatch os js provider { FilePathName := filePathName, restartScan := false } T se
          l.entries.length).1 ∧
      (getBatch os js provider { FilePathName := filePathName, restartScan := false } T se
          l.entries.length).1 =
        l.entries.filter (entryShown os (l.provider.asyncBridge.map AsyncBridge.GetCache)
          l.provider.storage (virtualPathOf filePathName) (se.getD "*".toList)) ∧
      ((∀ e ∈ l.entries, entryShown os (l.provider.asyncBridge.map AsyncBridge.GetCache)
          l.provider.storage (virtualPathOf filePathName) (se.getD "*".toList) e = true) →
        drainSession os js filePathName T se (fun _ => false) caps fuel 0 provider =
          some l.entries)) := by
  have hnew : (if (fun _ : Nat => false) 0 then ({} : EnumerationState)
      else sessionOf T provider) = {} := by
    simp [sessionOf, hstart]
  have hdrain := drainSession_new os js filePathName T se (fun _ => false) caps provider l fuel
    hcaps (fun _ _ => rfl) hnew hl hfuel
  refine ⟨hdrain, fun hroom => ?_⟩
  obtain ⟨i', h1, _, _⟩ := getBatch_first os js provider
    { FilePathName := filePathName, restartScan := false } T se l.entries.length
    (by simp [sessionOf, hstart])
  simp only [hl] at h1
  have hone : (getBatch os js provider { FilePathName := filePathName, restartScan := false } T se
      l.entries.length).1 =
      l.entries.filter (entryShown os (l.provider.asyncBridge.map AsyncBridge.GetCache)
        l.provider.storage (virtualPathOf filePathName) (se.getD "*".toList)) := by
    rw [h1]
    exact List.take_of_length_le (List.length_filter_le _ _)
  have hall : drainSession os js filePathName T se (fun _ => false) caps fuel 0 provider =
      some (l.entries.filter (entryShown os (l.provider.asyncBridge.map AsyncBridge.GetCache)
        l.provider.storage (virtualPathOf filePathName) (se.getD "*".toList))) := by
    rw [hdrain, List.take_of_length_le hroom]
  refine ⟨by rw [hall, hone], hone, fun hshown => ?_⟩
  rw [hall, List.filter_eq_self.mpr hshown]

theorem C2_enumeration_in_chunks_witness :
    drainSession os0 js0 "t".toList 3 none (fun _ => false) (fun _ => 2) 4 0 startedT =
      some ["a".toList, "b".toList, "c".toList] :=
  ((C2_enumeration_in_chunks os0 js0 startedT "t".toList 3 none (fun _ => 2)
    (loadEntries js0 (countEnumerationCall startedT) (virtualPathOf "t".toList) []) 4
    rfl (fun _ => Nat.le_succ 1) rfl (by decide)).2 (by decide)).2.2 (by decide)

set_option maxRecDepth 100000 in
/-- C2 fails as stated: a listing `[x]` whose entry has no metadata is enumerated as the
empty list, and of a listing of 101 names, all with metadata, one-entry buffers return
only the first 100, because the call cap ends the enumeration. -/
theorem C2_counterexample :
    (loadEntries js0 (countEnumerationCall startedE) "/e".toList []).entries = ["x".toList] ∧
    drainSession os0 js0 "e".toList 5 none (fun _ => false) (fun _ => 1) 200 0 startedE =
      some [] ∧
    (loadEntries js0 (countEnumerationCall startedBig) "/big".toList []).entries =
      decimalNames 101 ∧
    drainSession os0 js0 "big".toList 9 none (fun _ => false) (fun _ => 1) 200 0 startedBig =
      some ((decimalNames 101).take 100) ∧
    (decimalNames 101).take 100 ≠ decimalNames 101 := by
  refine ⟨by rfl, by rfl, by rfl, by rfl, by decide⟩

/-! ## A listing fetched through the bridge, one entry per call -/

theorem entryMetadata_cache_congr (c c' : ContentCache) (st : SyncStorage)
    (virtualPath entry : CppString) (h : c.fileInfo = c'.fileInfo) :
    entryMetadata (some c) st virtualPath entry = entryMetadata (some c') st virtualPath entry := by
  simp only [entryMetadata, ContentCache.GetFileInfo, h]

theorem loadEntries_fetched (js : JsProvider) (p : ProjFSProvider) (bridge : AsyncBridge)
    (D : CppString) (items : List JsItem) (hb : p.asyncBridge = some bridge)
    (hreg : bridge.readDirectoryCallback = true) (hposted : bridge.posted = [])
    (hmiss : bridge.cache.GetDirectoryListing D = none)
    (hnotobj : ¬ (D = "/objects".toList ∨ IsObjectPath D = true))
    (hjs : js.readDirectory D = JsReturn.promiseResolved (some (JsValue.array items))) :
    (loadEntries js p D []).entries =
      (ParseDirectoryListing items).entries.map (fun fileInfo => fileInfo.name) ∧
    (loadEntries js p D []).provider.storage = p.storage ∧
    ∃ b', (loadEntries js p D []).provider.asyncBridge = some b' ∧
      b'.cache.fileInfo = bridge.cache.fileInfo := by
  have hserve : ((bridge.FetchDirectoryListing D).servePosted js).cache =
      bridge.cache.SetDirectoryListing D (ParseDirectoryListing items) := by
    simp [AsyncBridge.FetchDirectoryListing, AsyncBridge.servePosted, hreg, hposted,
      AsyncBridge.serve, hjs]
  have hget : ((bridge.FetchDirectoryListing D).servePosted js).GetCache.GetDirectoryListing D =
      some (ParseDirectoryListing items) := by
    unfold AsyncBridge.GetCache
    rw [hserve]
    simp [ContentCache.GetDirectoryListing, ContentCache.SetDirectoryListing]
  have hmiss' : bridge.GetCache.GetDirectoryListing D = none := hmiss
  have h1 : loadFromCache p D [] =
      { entries := [], gotEntries := false,
        provider := { p with
          stats := { p.stats with cacheMisses := add64 p.stats.cacheMisses 1 } } } := by
    unfold loadFromCache
    rw [hb]
    simp only [hmiss']
  have h2 : ∀ l : LoadState, loadFromStorage D l = l := by
    intro l
    unfold loadFromStorage
    rw [if_neg (fun h => hnotobj h.2)]
  have hload : loadEntries js p D [] =
      { entries := (ParseDirectoryListing items).entries.map (fun fileInfo => fileInfo.name),
        gotEntries := true,
        provider := { p with
          asyncBridge := some ((bridge.FetchDirectoryListing D).servePosted js),
          stats := { p.stats with
            cacheMisses := add64 p.stats.cacheMisses 1,
            cacheHits := add64 p.stats.cacheHits 1 } } } := by
    unfold loadEntries
    rw [h1, h2]
    unfold loadFromBridge
    simp only [↓reduceIte, hb, hget]
  rw [hload]
  refine ⟨rfl, rfl, _, rfl, ?_⟩
  rw [hserve]
  rfl

theorem getBatch_capped_session (os : Win32) (js : JsProvider) (p : ProjFSProvider)
    (cd : PRJ_CALLBACK_DATA) (T : GUID) (se : Option CppString) (k : Nat)
    (bridge : Option AsyncBridge) (s0 : SyncStorage) (entries : List CppString) (i : Nat)
    (hP : Paginating bridge s0 T entries i 100 p) (hno : cd.restartScan = false) :
    (sessionOf T (getBatch os js p cd T se k).2).isComplete = true := by
  obtain ⟨_, _, ht⟩ := hP
  unfold getBatch
  rw [capped_call os js p cd T se _ _ ht hno
    (by show MAX_CALLS_PER_ENUM ≤ ((100 : Nat) : Int); decide)
    (by show ((100 : Nat) : Int) < INT_MAX; decide)]
  simp [sessionOf, setEnumState_session]

theorem Paginating_isComplete (bridge : Option AsyncBridge) (s0 : SyncStorage) (T : GUID)
    (entries : List CppString) (i c : Nat) (p : ProjFSProvider)
    (hP : Paginating bridge s0 T entries i c p) : (sessionOf T p).isComplete = true := by
  obtain ⟨_, _, ht⟩ := hP
  simp [sessionOf, ht]

theorem batches_one_per_call (os : Win32) (js : JsProvider) (filePathName : CppString)
    (T : GUID) (se : Option CppString) (bridge : Option AsyncBridge) (s0 : SyncStorage)
    (entries : List CppString) :
    ∀ (m first : Nat) (p : ProjFSProvider) (i c : Nat),
      Paginating bridge s0 T entries i c p →
      ((entries.drop i).filter (entryShown os (bridge.map AsyncBridge.GetCache) s0
        (virtualPathOf filePathName) (se.getD "*".toList))).length = m →
      c + m ≤ 100 →
      (batches os js filePathName T se (fun _ => 1) (m + 1) first p).1 =
        ((entries.drop i).filter (entryShown os (bridge.map AsyncBridge.GetCache) s0
          (virtualPathOf filePathName) (se.getD "*".toList))).map (fun x => [x]) ++ [[]] ∧
      (sessionOf T (batches os js filePathName T se (fun _ => 1) (m + 1) first p).2).isComplete =
        true := by
  intro m
  induction m with
  | zero =>
    intro first p i c hP hlen hc
    have hrem := List.length_eq_zero.mp hlen
    rw [hrem]
    simp only [batches, List.map_nil, List.nil_append]
    by_cases hcap : c = 100
    · subst hcap
      exact ⟨by rw [getBatch_capped os js p _ T se 1 bridge s0 entries i hP rfl],
        getBatch_capped_session os js p _ T se 1 bridge s0 entries i hP rfl⟩
    · obtain ⟨i', h1, h2, _⟩ := getBatch_paginating os js p
        { FilePathName := filePathName, restartScan := false } T se 1 bridge s0 entries i c hP
        rfl (by omega)
      simp only [hrem, List.take_nil] at h1
      exact ⟨by rw [h1], Paginating_isComplete _ _ _ _ _ _ _ h2⟩
  | succ n ih =>
    intro first p i c hP hlen hc
    obtain ⟨i', h1, h2, h3⟩ := getBatch_paginating os js p
      { FilePathName := filePathName, restartScan := false } T se 1 bridge s0 entries i c hP
      rfl (by omega)
    simp only at h1 h3
    cases hrem : (entries.drop i).filter (entryShown os (bridge.map AsyncBridge.GetCache) s0
        (virtualPathOf filePathName) (se.getD "*".toList)) with
    | nil => rw [hrem] at hlen; simp at hlen
    | cons x rest =>
      rw [hrem] at h1 h3 hlen
      simp only [List.take_succ_cons, List.take_zero, List.drop_succ_cons, List.drop_zero,
        List.length_cons] at h1 h3 hlen
      have hih := ih (first + 1) _ i' (c + 1) h2 (by rw [h3]; omega) (by omega)
      rw [h3] at hih
      rw [batches]
      simp only [h1, hih.1, hih.2, List.map_cons, List.cons_append, and_self]

/-- C7 (as amended): when the directory-listing fetch for a path `D` outside `/objects`
goes through the async bridge and its promise resolves within the wait with a listing of
`n <= 100` entries, each of which is shown (it matches the search expression, resolves to
existing metadata, for instance through a cached FileInfo under `D/name`, and is accepted
by the buffer), then a new session on `D` with a one-entry buffer returns the `n` names
in order over `n` get-batch calls and nothing on call `n + 1`, after which isComplete is
true. For the listing `[a.txt, b]` the calls return `a.txt`, `b`, and no entry. -/
theorem C7_fetched_listing_one_per_call (os : Win32) (js : JsProvider)
    (provider : ProjFSProvider) (bridge : AsyncBridge) (filePathName : CppString) (T : GUID)
    (se : Option CppString) (items : List JsItem)
    (hstart : provider.enumerationStates T = some {})
    (hb : provider.asyncBridge = some bridge)
    (hreg : bridge.readDirectoryCallback = true) (hposted : bridge.posted = [])
    (hmiss : bridge.cache.GetDirectoryListing (virtualPathOf filePathName) = none)
    (hnotobj : ¬ (virtualPathOf filePathName = "/objects".toList ∨
      IsObjectPath (virtualPathOf filePathName) = true))
    (hjs : js.readDirectory (virtualPathOf filePathName) =
      JsReturn.promiseResolved (some (JsValue.array items)))
    (hshown : ∀ e ∈ (ParseDirectoryListing items).entries.map (fun fileInfo => fileInfo.name),
      entryShown os (some bridge.cache) provider.storage (virtualPathOf filePathName)
        (se.getD "*".toList) e = true)
    (hn : ((ParseDirectoryListing items).entries.map (fun fileInfo => fileInfo.name)).length ≤
      100) :
    (batches os js filePathName T se (fun _ => 1)
      (((ParseDirectoryListing items).entries.map (fun fileInfo => fileInfo.name)).length + 1)
      0 provider).1 =
      ((ParseDirectoryListing items).entries.map (fun fileInfo => fileInfo.name)).map
        (fun x => [x]) ++ [[]] ∧
    (sessionOf T (batches os js filePathName T se (fun _ => 1)
      (((ParseDirectoryListing items).entries.map (fun fileInfo => fileInfo.name)).length + 1)
      0 provider).2).isComplete = true := by
  obtain ⟨hentries, hstorage, b', hb', hcache⟩ := loadEntries_fetched js
    (countEnumerationCall provider) bridge (virtualPathOf filePathName) items hb hreg hposted
    hmiss hnotobj hjs
  generalize hnames :
    (ParseDirectoryListing items).entries.map (fun fileInfo => fileInfo.name) = names
    at hentries hshown hn ⊢
  obtain ⟨i', h1, h2, h3⟩ := getBatch_first os js provider
    { FilePathName := filePathName, restartScan := false } T se 1
    (by simp [sessionOf, hstart])
  simp only [hentries, hstorage, hb', Option.map_some'] at h1 h2 h3
  have hsame : ∀ e, entryShown os (some b'.GetCache) (countEnumerationCall provider).storage
      (virtualPathOf filePathName) (se.getD "*".toList) e =
      entryShown os (some bridge.cache) provider.storage (virtualPathOf filePathName)
        (se.getD "*".toList) e := by
    intro e
    unfold entryShown
    rw [entryMetadata_cache_congr b'.GetCache bridge.cache _ _ _ hcache]
    rfl
  have hfilter : names.filter (entryShown os (some b'.GetCache)
      (countEnumerationCall provider).storage (virtualPathOf filePathName)
      (se.getD "*".toList)) = names :=
    List.filter_eq_self.mpr (fun e he => by rw [hsame e]; exact hshown e he)
  rw [hfilter] at h1 h3
  cases names with
  | nil =>
    simp only [List.take_nil] at h1
    simp only [List.length_nil, Nat.zero_add, batches, List.map_nil, List.nil_append]
    exact ⟨by rw [h1], Paginating_isComplete _ _ _ _ _ _ _ h2⟩
  | cons x rest =>
    simp only [List.take_succ_cons, List.take_zero, List.drop_succ_cons, List.drop_zero,
      List.length_cons] at h1 h3 hn
    have hrest := batches_one_per_call os js filePathName T se (some b')
      (countEnumerationCall provider).storage (x :: rest) rest.length (0 + 1) _ i' 1 h2
      (by simp only [Option.map_some']; rw [h3]) (by omega)
    simp only [Option.map_some'] at hrest
    rw [h3] at hrest
    rw [List.length_cons, batches]
    simp only [h1, hrest.1, hrest.2, List.map_cons, List.cons_append, and_self]

theorem C7_fetched_listing_one_per_call_witness :
    (batches os0 jsFoo "foo".toList 1 none (fun _ => 1) 3 0 startedFooInfos).1 =
      [["a.txt".toList], ["b".toList], []] ∧
    (sessionOf 1 (batches os0 jsFoo "foo".toList 1 none (fun _ => 1) 3 0
      startedFooInfos).2).isComplete = true :=
  C7_fetched_listing_one_per_call os0 jsFoo startedFooInfos
    (bridgeOf (withFileInfos ContentCache.empty "/foo".toList ["a.txt".toList, "b".toList]))
    "foo".toList 1 none
    [JsItem.object { jsNamed "a.txt".toList with size := some 3 },
     JsItem.object { jsNamed "b".toList with isDirectory := some true }]
    rfl rfl rfl rfl rfl (by decide) rfl (by decide) (by decide)

set_option maxRecDepth 100000 in
/-- C7 fails as stated: when the fetch for `/foo` resolves with
`[{name: a.txt, size: 3}, {name: b, isDirectory: true}]` and the cache holds nothing
else, the session loads both names but every get-batch call returns no entry, since
neither name resolves to existing metadata; and of a fetched listing of 101 entries, all
with a cached FileInfo, call 101 returns no entry instead of the last name. -/
theorem C7_counterexample :
    (sessionOf 1 (batches os0 jsFoo "foo".toList 1 none (fun _ => 1) 1 0 startedFoo).2).entries =
      ["a.txt".toList, "b".toList] ∧
    (batches os0 jsFoo "foo".toList 1 none (fun _ => 1) 3 0 startedFoo).1 = [[], [], []] ∧
    (batches os0 jsBig "big".toList 9 none (fun _ => 1) 101 0 startedBigInfos).1 =
      ((decimalNames 101).take 100).map (fun x => [x]) ++ [[]] ∧
    (decimalNames 101).length = 101 := by
  refine ⟨by rfl, by rfl, by rfl, by rfl⟩

/-! ## Notifications -/

/-- C12: `NotificationCallback` returns success for the file-opened notification and
access-denied for every other notification kind, whatever the path, the isDirectory flag
and the destination name are. -/
theorem C12_notifications (callbackData callbackData' : PRJ_CALLBACK_DATA)
    (isDirectory isDirectory' : Bool) (k : PRJ_NOTIFICATION)
    (dest dest' : Option CppString) :
    NotificationCallback callbackData isDirectory PRJ_NOTIFICATION_FILE_OPENED dest =
      HRESULT.S_OK ∧
    (k ≠ PRJ_NOTIFICATION_FILE_OPENED →
      NotificationCallback callbackData isDirectory k dest = HRESULT.ERROR_ACCESS_DENIED) ∧
    NotificationCallback callbackData isDirectory k dest =
      NotificationCallback callbackData' isDirectory' k dest' := by
  refine ⟨by simp [NotificationCallback], fun hk => by simp [NotificationCallback, hk], rfl⟩

theorem C12_notifications_witness :
    NotificationCallback (requestFor "a") true 16 none = HRESULT.ERROR_ACCESS_DENIED :=
  (C12_notifications (requestFor "a") (requestFor "b") true false 16 none none).2.1 (by decide)

/-! ## Type classification -/

theorem matchTypeAt_backslash (s t : CppString) (h : matchTypeAt s = some t) :
    backslash ∈ s := by
  unfold matchTypeAt at h
  split at h
  · rename_i hp
    have hpre : typePatternHead <+: s := List.isPrefixOf_iff_prefix.mp hp
    obtain ⟨r, hr⟩ := hpre
    rw [← hr]
    simp [typePatternHead]
  · cases h

theorem searchType_of_no_backslash (header : CppString) (h : backslash ∉ header) :
    searchType header = none := by
  induction header with
  | nil => rfl
  | cons c cs ih =>
    unfold searchType
    cases hm : matchTypeAt (c :: cs) with
    | some t => exact absurd (matchTypeAt_backslash _ _ hm) h
    | none =>
      simp only
      exact ih (fun hc => h (List.mem_cons_of_mem _ hc))

theorem ExtractTypeFromMicrodata_unmatched (header : CppString)
    (h : searchType header = none) :
    ExtractTypeFromMicrodata header =
      if containsSubstr "<div".toList header || containsSubstr "itemscope".toList header then
        "CLOB".toList
      else "BLOB".toList := by
  unfold ExtractTypeFromMicrodata
  rw [h]

/-- C13, the code at the failing input: for the header
`<div itemscope itemtype="//refin.io/Person">` the function returns "CLOB" and not the
declared type "Person", and for the declaration alone it returns "BLOB"; `GetObjectType`
of an object with that header is "CLOB" as well. The pattern of the code only matches
when a backslash follows `refin`. -/
theorem C13_declared_type_not_extracted :
    ExtractTypeFromMicrodata headerPerson = "CLOB".toList ∧
    ExtractTypeFromMicrodata headerPerson ≠ "Person".toList ∧
    containsSubstr (declarationHead ++ "Person".toList ++ [dquote]) headerPerson = true ∧
    ExtractTypeFromMicrodata headerBareDeclaration = "BLOB".toList ∧
    ((SyncStorage.fresh [(hashA, headerPerson)]).GetObjectType hashA).1 = "CLOB".toList := by
  decide

/-- C14, the code at the failing input: the header `itemtype="//refin\.io/T"` contains no
typed-item declaration `itemtype="//refin.io/..."`, no `<div` and no `itemscope`, and the
function returns "T", neither "CLOB" nor "BLOB". -/
theorem C14_backslash_header_is_typed :
    containsSubstr declarationHead headerBackslash = false ∧
    containsSubstr "<div".toList headerBackslash = false ∧
    containsSubstr "itemscope".toList headerBackslash = false ∧
    ExtractTypeFromMicrodata headerBackslash = "T".toList ∧
    ExtractTypeFromMicrodata [] = "BLOB".toList := by
  decide

/-! ## The write queue -/

theorem enqueue_fields (b : AsyncBridge) (i : WriteIntent) :
    (b.enqueue i).createFileCallback = b.createFileCallback ∧
    (b.enqueue i).createFilePosted = b.createFilePosted ∧
    (b.enqueue i).cache = b.cache ∧
    ∃ op, (b.enqueue i).writeQueue = b.writeQueue ++ [op] ∧ op.createCall = i.createCall := by
  cases i <;> exact ⟨rfl, rfl, rfl, _, rfl, rfl⟩

theorem enqueue_all (intents : List WriteIntent) :
    ∀ b : AsyncBridge,
      (intents.foldl AsyncBridge.enqueue b).createFileCallback = b.createFileCallback ∧
      (intents.foldl AsyncBridge.enqueue b).createFilePosted = b.createFilePosted ∧
      (intents.foldl AsyncBridge.enqueue b).cache = b.cache ∧
      ∃ ops, (intents.foldl AsyncBridge.enqueue b).writeQueue = b.writeQueue ++ ops ∧
        ops.filterMap WriteOperation.createCall = intents.filterMap WriteIntent.createCall ∧
        ops.length = intents.length := by
  induction intents with
  | nil => intro b; exact ⟨rfl, rfl, rfl, [], by simp, rfl, rfl⟩
  | cons i rest ih =>
    intro b
    obtain ⟨h1, h2, h3, op, h4, h5⟩ := enqueue_fields b i
    obtain ⟨g1, g2, g3, ops, g4, g5, g6⟩ := ih (b.enqueue i)
    refine ⟨g1.trans h1, g2.trans h2, g3.trans h3, op :: ops, ?_, ?_, ?_⟩
    · rw [List.foldl_cons, g4, h4, List.append_assoc, List.singleton_append]
    · rw [List.filterMap_cons, List.filterMap_cons, h5, g5]
    · simp [g6]

theorem processOperation_all (ops : List WriteOperation) :
    ∀ b : AsyncBridge, b.createFileCallback = true →
      (ops.foldl AsyncBridge.processOperation b).writeQueue = b.writeQueue ∧
      (ops.foldl AsyncBridge.processOperation b).cache = b.cache ∧
      (ops.foldl AsyncBridge.processOperation b).posted = b.posted ∧
      (ops.foldl AsyncBridge.processOperation b).createFilePosted =
        b.createFilePosted ++ ops.filterMap WriteOperation.createCall := by
  induction ops with
  | nil => intro b _; simp
  | cons op rest ih =>
    intro b hreg
    have hstep : (b.processOperation op).createFileCallback = true ∧
        (b.processOperation op).writeQueue = b.writeQueue ∧
        (b.processOperation op).cache = b.cache ∧
        (b.processOperation op).posted = b.posted ∧
        (b.processOperation op).createFilePosted =
          b.createFilePosted ++ (op.createCall).toList := by
      unfold AsyncBridge.processOperation WriteOperation.createCall
      cases op.type <;> simp [hreg]
    obtain ⟨k0, k1, k2, k3, k4⟩ := hstep
    obtain ⟨g1, g2, g3, g4⟩ := ih (b.processOperation op) k0
    refine ⟨g1.trans k1, g2.trans k2, g3.trans k3, ?_⟩
    rw [List.foldl_cons, g4, k4, List.filterMap_cons]
    cases op.createCall <;> simp

theorem processOperation_unregistered (ops : List WriteOperation) :
    ∀ b : AsyncBridge, b.createFileCallback = false →
      (ops.foldl AsyncBridge.processOperation b).writeQueue = b.writeQueue ∧
      (ops.foldl AsyncBridge.processOperation b).cache = b.cache ∧
      (ops.foldl AsyncBridge.processOperation b).createFilePosted = b.createFilePosted := by
  induction ops with
  | nil => intro b _; exact ⟨rfl, rfl, rfl⟩
  | cons op rest ih =>
    intro b hreg
    have hstep : b.processOperation op = b := by
      unfold AsyncBridge.processOperation
      cases op.type <;> simp [hreg]
    rw [List.foldl_cons, hstep]
    exact ih b hreg

/-- C16 (as amended): after any sequence of write intents has been enqueued with
`QueueCreateFile`, `QueueUpdateFile` and `QueueDeleteFile`, one run of `ProcessWriteQueue`
leaves the queue empty and the cache untouched. When the `createFile` callback is
registered, the run posts to `createFile` exactly the CREATE operations of the queue (those
that were queued before, then those of the sequence), once each, in enqueue order, with
their path and content, and UPDATE and DELETE intents lead to no call. When `createFile`
is not registered, the run makes no call at all: the CREATE intents are removed from the
queue like the others. -/
theorem C16_process_write_queue (b : AsyncBridge) (intents : List WriteIntent) :
    ((intents.foldl AsyncBridge.enqueue b).ProcessWriteQueue).writeQueue = [] ∧
    ((intents.foldl AsyncBridge.enqueue b).ProcessWriteQueue).cache = b.cache ∧
    (b.createFileCallback = true →
      ((intents.foldl AsyncBridge.enqueue b).ProcessWriteQueue).createFilePosted =
        b.createFilePosted ++ b.writeQueue.filterMap WriteOperation.createCall ++
          intents.filterMap WriteIntent.createCall) ∧
    (b.createFileCallback = false →
      ((intents.foldl AsyncBridge.enqueue b).ProcessWriteQueue).createFilePosted =
        b.createFilePosted) := by
  obtain ⟨h1, h2, h3, ops, h4, h5, _⟩ := enqueue_all intents b
  unfold AsyncBridge.ProcessWriteQueue
  cases hreg : b.createFileCallback with
  | true =>
    obtain ⟨g1, g2, _, g4⟩ :=
      processOperation_all (intents.foldl AsyncBridge.enqueue b).writeQueue
        { intents.foldl AsyncBridge.enqueue b with writeQueue := [] } (h1.trans hreg)
    refine ⟨g1, g2.trans h3, fun _ => ?_, fun h => Bool.noConfusion h⟩
    rw [g4, h4, List.filterMap_append, h5]
    show (intents.foldl AsyncBridge.enqueue b).createFilePosted ++ _ = _
    rw [h2, List.append_assoc]
  | false =>
    obtain ⟨g1, g2, g3⟩ :=
      processOperation_unregistered (intents.foldl AsyncBridge.enqueue b).writeQueue
        { intents.foldl AsyncBridge.enqueue b with writeQueue := [] } (h1.trans hreg)
    refine ⟨g1, g2.trans h3, fun h => Bool.noConfusion h, fun _ => ?_⟩
    rw [g3]
    exact h2

theorem C16_process_write_queue_witness :
    (([WriteIntent.create "/a".toList [1], WriteIntent.update "/a".toList [2],
        WriteIntent.delete "/b".toList, WriteIntent.create "/c".toList [3]].foldl
        AsyncBridge.enqueue
        { bridgeOf ContentCache.empty with createFileCallback := true }).ProcessWriteQueue).writeQueue
      = [] ∧
    (([WriteIntent.create "/a".toList [1], WriteIntent.update "/a".toList [2],
        WriteIntent.delete "/b".toList, WriteIntent.create "/c".toList [3]].foldl
        AsyncBridge.enqueue
        { bridgeOf ContentCache.empty with
          createFileCallback := true }).ProcessWriteQueue).createFilePosted =
      [("/a".toList, [1]), ("/c".toList, [3])] :=
  ⟨(C16_process_write_queue { bridgeOf ContentCache.empty with createFileCallback := true }
      [WriteIntent.create "/a".toList [1], WriteIntent.update "/a".toList [2],
        WriteIntent.delete "/b".toList, WriteIntent.create "/c".toList [3]]).1,
   (C16_process_write_queue { bridgeOf ContentCache.empty with createFileCallback := true }
      [WriteIntent.create "/a".toList [1], WriteIntent.update "/a".toList [2],
        WriteIntent.delete "/b".toList, WriteIntent.create "/c".toList [3]]).2.2.1 rfl⟩

/-- C16 fails as stated: on a bridge for which no `createFile` callback was registered, a
CREATE intent for `/a` is queued, and one run of `ProcessWriteQueue` empties the queue
without any call to `createFile`. -/
theorem C16_counterexample :
    (bridgeOf ContentCache.empty).createFileCallback = false ∧
    ((bridgeOf ContentCache.empty).QueueCreateFile "/a".toList [1]).writeQueue =
      [{ type := WriteOperationType.CREATE, path := "/a".toList, content := [1] }] ∧
    (((bridgeOf ContentCache.empty).QueueCreateFile "/a".toList
      [1]).ProcessWriteQueue).writeQueue = [] ∧
    (((bridgeOf ContentCache.empty).QueueCreateFile "/a".toList
      [1]).ProcessWriteQueue).createFilePosted = [] := by
  decide

/-! ## Memoized answers -/

theorem GetObjectMetadata_snd_cache (s : SyncStorage) (h : CppString) :
    (s.GetObjectMetadata h).2.metadataCache h = some (s.GetObjectMetadata h).1 := by
  unfold SyncStorage.GetObjectMetadata
  cases hm : s.metadataCache h with
  | some m => exact hm
  | none => simp

theorem GetObjectType_snd_cache (s : SyncStorage) (h : CppString) :
    (s.GetObjectType h).2.typeCache h = some (s.GetObjectType h).1 := by
  unfold SyncStorage.GetObjectType
  cases hm : s.typeCache h with
  | some m => exact hm
  | none => simp

theorem GetObjectType_keeps_type (s : SyncStorage) (k h : CppString) (t : CppString)
    (ht : s.typeCache h = some t) : (s.GetObjectType k).2.typeCache h = some t := by
  unfold SyncStorage.GetObjectType
  cases hk : s.typeCache k with
  | some m => exact ht
  | none =>
    simp only
    by_cases hh : h = k
    · subst hh; rw [ht] at hk; cases hk
    · simp [hh, ht]

theorem GetObjectMetadata_keeps_type (s : SyncStorage) (k h : CppString) (t : CppString)
    (ht : s.typeCache h = some t) : (s.GetObjectMetadata k).2.typeCache h = some t := by
  unfold SyncStorage.GetObjectMetadata
  cases s.metadataCache k with
  | some m => exact ht
  | none =>
    cases s.objects.lookup k with
    | none => exact ht
    | some c => exact GetObjectType_keeps_type s k h t ht

theorem GetObjectMetadata_keeps_metadata (s : SyncStorage) (k h : CppString)
    (m : ObjectMetadata) (hm : s.metadataCache h = some m) :
    (s.GetObjectMetadata k).2.metadataCache h = some m := by
  unfold SyncStorage.GetObjectMetadata
  cases hk : s.metadataCache k with
  | some m' => exact hm
  | none =>
    have hne : h ≠ k := by intro hh; subst hh; rw [hm] at hk; cases hk
    cases s.objects.lookup k with
    | none => simp [hne, hm]
    | some c => simp [hne, GetObjectType_snd_metadataCache, hm]

theorem GetVirtualPathMetadata_keeps (s : SyncStorage) (p h : CppString) :
    (∀ m, s.metadataCache h = some m →
      (s.GetVirtualPathMetadata p).2.metadataCache h = some m) ∧
    (∀ t, s.typeCache h = some t → (s.GetVirtualPathMetadata p).2.typeCache h = some t) := by
  unfold SyncStorage.GetVirtualPathMetadata
  split
  · exact ⟨fun _ hm => hm, fun _ ht => ht⟩
  · split
    · simp only
      split <;>
        exact ⟨fun m hm => GetObjectMetadata_keeps_metadata s _ h m hm,
          fun t ht => GetObjectMetadata_keeps_type s _ h t ht⟩
    · exact ⟨fun _ hm => hm, fun _ ht => ht⟩

theorem event_keeps (s : SyncStorage) (e : StorageEvent) (h : CppString) :
    (∀ m, s.metadataCache h = some m → (StorageEvent.apply s e).metadataCache h = some m) ∧
    (∀ t, s.typeCache h = some t → (StorageEvent.apply s e).typeCache h = some t) := by
  cases e with
  | getObjectMetadata k =>
    exact ⟨fun m hm => GetObjectMetadata_keeps_metadata s k h m hm,
      fun t ht => GetObjectMetadata_keeps_type s k h t ht⟩
  | getObjectType k =>
    refine ⟨fun m hm => ?_, fun t ht => GetObjectType_keeps_type s k h t ht⟩
    show (s.GetObjectType k).2.metadataCache h = some m
    rw [GetObjectType_snd_metadataCache]; exact hm
  | getVirtualPathMetadata p => exact GetVirtualPathMetadata_keeps s p h
  | diskChanged objects => exact ⟨fun _ hm => hm, fun _ ht => ht⟩

theorem events_keep (events : List StorageEvent) (h : CppString) :
    ∀ s : SyncStorage,
      (∀ m, s.metadataCache h = some m → (applyEvents s events).metadataCache h = some m) ∧
      (∀ t, s.typeCache h = some t → (applyEvents s events).typeCache h = some t) := by
  induction events with
  | nil => intro s; exact ⟨fun _ hm => hm, fun _ ht => ht⟩
  | cons e rest ih =>
    intro s
    have he := event_keeps s e h
    have hr := ih (StorageEvent.apply s e)
    exact ⟨fun m hm => hr.1 m (he.1 m hm), fun t ht => hr.2 t (he.2 t ht)⟩

/-- C17: once `GetObjectMetadata(h)` has been computed, every later
`GetObjectMetadata(h)` returns that first result, whatever calls of the memoizing
functions and whatever changes of the object directory (objects added or removed, under
`h` or elsewhere) happen in between; the same holds for `GetObjectType(h)`. -/
theorem C17_memoized_results (s : SyncStorage) (h : CppString) (events : List StorageEvent) :
    ((applyEvents (s.GetObjectMetadata h).2 events).GetObjectMetadata h).1 =
      (s.GetObjectMetadata h).1 ∧
    ((applyEvents (s.GetObjectType h).2 events).GetObjectType h).1 = (s.GetObjectType h).1 := by
  constructor
  · have hk := (events_keep events h (s.GetObjectMetadata h).2).1 _
      (GetObjectMetadata_snd_cache s h)
    rw [GetObjectMetadata_fst, hk]
  · have hk := (events_keep events h (s.GetObjectType h).2).2 _ (GetObjectType_snd_cache s h)
    rw [GetObjectType_fst, hk]

/-! ## The virtual path -/

/-- C19: the virtual path computed from a relative path `r` is "/" when `r` is empty and
otherwise "/" followed by `r` with every backslash replaced by a slash; it begins with
"/" and contains no backslash; and the three callbacks use this same path: requests whose
relative paths give the same virtual path are answered alike. -/
theorem C19_virtual_path (r : CppString) :
    virtualPathOf [] = "/".toList ∧
    (r ≠ [] → virtualPathOf r = '/' :: r.map (fun c => if c = backslash then '/' else c)) ∧
    (virtualPathOf r).head? = some '/' ∧ backslash ∉ virtualPathOf r ∧
    (∀ (os : Win32) (js : JsProvider) (hr : HRESULT) (allocOk : Bool) (p : ProjFSProvider)
        (cd cd' : PRJ_CALLBACK_DATA) (offset length : Nat) (T : GUID) (se : Option CppString)
        (buf : DirEntryBuffer),
      virtualPathOf cd.FilePathName = virtualPathOf cd'.FilePathName →
      cd.restartScan = cd'.restartScan →
      GetPlaceholderInfoCallback os hr p cd = GetPlaceholderInfoCallback os hr p cd' ∧
      GetFileDataCallback allocOk hr p cd offset length =
        GetFileDataCallback allocOk hr p cd' offset length ∧
      GetDirectoryEnumerationCallback os js p cd T se buf =
        GetDirectoryEnumerationCallback os js p cd' T se buf) := by
  refine ⟨rfl, ?_, ?_, ?_, ?_⟩
  · intro hne
    have : replaceBackslashes r ≠ [] := by
      unfold replaceBackslashes
      simpa using hne
    unfold virtualPathOf
    simp only [this, ↓reduceIte]
    rfl
  · unfold virtualPathOf
    simp only
    split <;> rfl
  · unfold virtualPathOf
    simp only
    split
    · decide
    · intro hmem
      have hmem' : backslash ∈ replaceBackslashes r := by
        rcases List.mem_append.mp hmem with h | h
        · exact absurd h (by decide)
        · exact h
      unfold replaceBackslashes at hmem'
      obtain ⟨c, _, hc⟩ := List.mem_map.mp hmem'
      by_cases hb : c = backslash
      · rw [if_pos hb] at hc
        exact absurd hc (by decide)
      · rw [if_neg hb] at hc
        exact hb hc
  · intro os js hr allocOk p cd cd' offset length T se buf hv hrs
    refine ⟨?_, ?_, ?_⟩
    · unfold GetPlaceholderInfoCallback
      rw [hv]
    · unfold GetFileDataCallback
      rw [hv]
    · unfold GetDirectoryEnumerationCallback
      rw [hv, hrs]

theorem C19_virtual_path_witness :
    virtualPathOf ("dir".toList ++ [backslash] ++ "file.txt".toList) =
      '/' :: ("dir".toList ++ [backslash] ++ "file.txt".toList).map
        (fun c => if c = backslash then '/' else c) ∧
    GetPlaceholderInfoCallback os0 HRESULT.S_OK (providerOf [] ContentCache.empty)
        { FilePathName := "dir".toList ++ [backslash] ++ "file.txt".toList,
          restartScan := false } =
      GetPlaceholderInfoCallback os0 HRESULT.S_OK (providerOf [] ContentCache.empty)
        (requestFor "dir/file.txt") :=
  ⟨(C19_virtual_path ("dir".toList ++ [backslash] ++ "file.txt".toList)).2.1 (by decide),
   ((C19_virtual_path []).2.2.2.2 os0 js0 HRESULT.S_OK true (providerOf [] ContentCache.empty)
      { FilePathName := "dir".toList ++ [backslash] ++ "file.txt".toList, restartScan := false }
      (requestFor "dir/file.txt") 0 0 0 none { capacity := 0, written := [] }
      (by decide) rfl).1⟩

/-! ## Fetch results and the cache -/

theorem serve_getFileInfo (js : JsProvider) (b : AsyncBridge) (P : CppString) (o : JsObject)
    (hjs : js.getFileInfo P = JsReturn.promiseResolved (some (JsValue.object o)) ∨
      js.getFileInfo P = JsReturn.direct (JsValue.object o)) :
    (AsyncBridge.serve js b (JsCall.getFileInfo P)).cache.GetFileInfo P =
      some (ParseFileInfo o) := by
  rcases hjs with h | h <;>
    simp [AsyncBridge.serve, h, JsValue.asObject, ContentCache.GetFileInfo,
      ContentCache.SetFileInfo]

theorem serve_readDirectory (js : JsProvider) (b : AsyncBridge) (P : CppString)
    (items : List JsItem)
    (hjs : js.readDirectory P = JsReturn.promiseResolved (some (JsValue.array items))) :
    (AsyncBridge.serve js b (JsCall.readDirectory P)).cache.GetDirectoryListing P =
      some (ParseDirectoryListing items) := by
  simp [AsyncBridge.serve, hjs, ContentCache.GetDirectoryListing,
    ContentCache.SetDirectoryListing]

theorem serve_readFile (js : JsProvider) (b : AsyncBridge) (P : CppString) (data : Bytes)
    (hjs : js.readFile P = JsReturn.promiseResolved (some (JsValue.buffer data))) :
    (AsyncBridge.serve js b (JsCall.readFile P)).cache.GetFileContent P =
      some { data := data } := by
  simp [AsyncBridge.serve, hjs, ContentCache.GetFileContent, ContentCache.SetFileContent]

theorem servePosted_snoc (js : JsProvider) (b : AsyncBridge) (calls : List JsCall)
    (c : JsCall) (received : List BridgeRequest) :
    AsyncBridge.servePosted js { b with received := received, posted := calls ++ [c] } =
      AsyncBridge.serve js
        (AsyncBridge.servePosted js { b with received := received, posted := calls }) c := by
  simp [AsyncBridge.servePosted, List.foldl_append]

/-- C15 (as amended): with the callback of the operation registered, after a fetch
request for a path `P` has been served the Content Cache holds the parsed result under
`P` in these cases: `FetchFileInfo` when the provider returns a promise resolved with an
object or returns an object directly; `FetchDirectoryListing` when the provider returns a
promise resolved with an array; `FetchFileContent` when the provider returns a promise
resolved with a buffer. -/
theorem C15_fetch_results_cached (js : JsProvider) (b : AsyncBridge) (P : CppString) :
    (∀ o, b.getFileInfoCallback = true →
      (js.getFileInfo P = JsReturn.promiseResolved (some (JsValue.object o)) ∨
        js.getFileInfo P = JsReturn.direct (JsValue.object o)) →
      ((b.FetchFileInfo P).servePosted js).cache.GetFileInfo P = some (ParseFileInfo o)) ∧
    (∀ items, b.readDirectoryCallback = true →
      js.readDirectory P = JsReturn.promiseResolved (some (JsValue.array items)) →
      ((b.FetchDirectoryListing P).servePosted js).cache.GetDirectoryListing P =
        some (ParseDirectoryListing items)) ∧
    (∀ data, b.readFileCallback = true →
      js.readFile P = JsReturn.promiseResolved (some (JsValue.buffer data)) →
      ((b.FetchFileContent P).servePosted js).cache.GetFileContent P =
        some { data := data }) := by
  refine ⟨fun o hreg hjs => ?_, fun items hreg hjs => ?_, fun data hreg hjs => ?_⟩
  · have : b.FetchFileInfo P =
        { b with received := b.received ++ [BridgeRequest.FetchFileInfo P],
                 posted := b.posted ++ [JsCall.getFileInfo P] } := by
      simp [AsyncBridge.FetchFileInfo, hreg]
    rw [this, servePosted_snoc]
    exact serve_getFileInfo js _ P o hjs
  · have : b.FetchDirectoryListing P =
        { b with received := b.received ++ [BridgeRequest.FetchDirectoryListing P],
                 posted := b.posted ++ [JsCall.readDirectory P] } := by
      simp [AsyncBridge.FetchDirectoryListing, hreg]
    rw [this, servePosted_snoc]
    exact serve_readDirectory js _ P items hjs
  · have : b.FetchFileContent P =
        { b with received := b.received ++ [BridgeRequest.FetchFileContent P],
                 posted := b.posted ++ [JsCall.readFile P] } := by
      simp [AsyncBridge.FetchFileContent, hreg]
    rw [this, servePosted_snoc]
    exact serve_readFile js _ P data hjs

theorem C15_fetch_results_cached_witness :
    (((bridgeOf ContentCache.empty).FetchDirectoryListing "/foo".toList).servePosted
      jsFoo).cache.GetDirectoryListing "/foo".toList =
      some (ParseDirectoryListing
        [JsItem.object { jsNamed "a.txt".toList with size := some 3 },
         JsItem.object { jsNamed "b".toList with isDirectory := some true }]) :=
  (C15_fetch_results_cached jsFoo (bridgeOf ContentCache.empty) "/foo".toList).2.1 _ rfl rfl

/-- C15 fails as stated: when `readDirectory("/foo")` returns the array
`[{name: "a.txt"}]` directly, the request is posted and served, and afterwards the cache
holds no listing for `/foo`. -/
theorem C15_counterexample :
    ((bridgeOf ContentCache.empty).FetchDirectoryListing "/foo".toList).posted =
      [JsCall.readDirectory "/foo".toList] ∧
    jsDirect.readDirectory "/foo".toList =
      JsReturn.direct (JsValue.array [JsItem.object (jsNamed "a.txt".toList)]) ∧
    (((bridgeOf ContentCache.empty).FetchDirectoryListing "/foo".toList).servePosted
      jsDirect).posted = [] ∧
    (((bridgeOf ContentCache.empty).FetchDirectoryListing "/foo".toList).servePosted
      jsDirect).cache.GetDirectoryListing "/foo".toList = none := by
  decide

/-! ## The order of the sources -/

theorem serveRange_asyncBridge (allocOk : Bool) (writeResult : HRESULT) (p : ProjFSProvider)
    (data : Bytes) (byteOffset length : Nat) (cacheHit : Bool) :
    (serveRange allocOk writeResult p data byteOffset length cacheHit).provider.asyncBridge =
      p.asyncBridge := by
  unfold serveRange
  simp only
  split
  · rfl
  · split <;> rfl

theorem ReadVirtualPath_not_object (s : SyncStorage) (P : CppString)
    (h : IsObjectPath P = false) : s.ReadVirtualPath P = none := by
  simp [SyncStorage.ReadVirtualPath, h]

/-- C11 (as amended): with a bridge present, metadata is resolved from the object store
first, then from the cache, and the bridge is asked only when neither answers; file
content is resolved from the cache first (a non-empty cached buffer wins even over an
object of the store), then from the object store, and the bridge is asked only when
neither answers; a directory listing is loaded from the cache first, then for `/objects`
paths from the object store, and the bridge is asked only otherwise. -/
theorem C11_resolution_order (os : Win32) (js : JsProvider) (allocOk : Bool)
    (writeResult : HRESULT) (provider : ProjFSProvider) (bridge : AsyncBridge)
    (cd : PRJ_CALLBACK_DATA) (byteOffset length : Nat)
    (hb : provider.asyncBridge = some bridge) :
    ((provider.storage.GetVirtualPathMetadata (virtualPathOf cd.FilePathName)).1.exists_ = true →
      (GetPlaceholderInfoCallback os writeResult provider cd).written =
        some ((provider.storage.GetVirtualPathMetadata (virtualPathOf cd.FilePathName)).1,
          CreateFileBasicInfo
            (provider.storage.GetVirtualPathMetadata (virtualPathOf cd.FilePathName)).1
            os.systemTime) ∧
      (GetPlaceholderInfoCallback os writeResult provider cd).provider.asyncBridge =
        some bridge) ∧
    ((provider.storage.GetVirtualPathMetadata (virtualPathOf cd.FilePathName)).1.exists_ = false →
      ∀ fileInfo, bridge.GetCache.GetFileInfo (virtualPathOf cd.FilePathName) = some fileInfo →
      (GetPlaceholderInfoCallback os writeResult provider cd).written =
        some ({ exists_ := true, isDirectory := fileInfo.isDirectory, size := fileInfo.size,
                type := if fileInfo.isDirectory then "DIRECTORY".toList else "FILE".toList },
          CreateFileBasicInfo
            { exists_ := true, isDirectory := fileInfo.isDirectory, size := fileInfo.size,
              type := if fileInfo.isDirectory then "DIRECTORY".toList else "FILE".toList }
            os.systemTime) ∧
      (GetPlaceholderInfoCallback os writeResult provider cd).provider.asyncBridge =
        some bridge) ∧
    ((provider.storage.GetVirtualPathMetadata (virtualPathOf cd.FilePathName)).1.exists_ = false →
      bridge.GetCache.GetFileInfo (virtualPathOf cd.FilePathName) = none →
      (GetPlaceholderInfoCallback os writeResult provider cd).written = none ∧
      (GetPlaceholderInfoCallback os writeResult provider cd).provider.asyncBridge =
        some (bridge.FetchFileInfo (virtualPathOf cd.FilePathName))) ∧
    (∀ content, bridge.GetCache.GetFileContent (virtualPathOf cd.FilePathName) = some content →
      content.data ≠ [] →
      ∃ p1, p1.asyncBridge = some bridge ∧
        GetFileDataCallback allocOk writeResult provider cd byteOffset length =
          serveRange allocOk writeResult p1 content.data byteOffset length true) ∧
    ((∀ content, bridge.GetCache.GetFileContent (virtualPathOf cd.FilePathName) = some content →
        content.data = []) →
      ∀ stored, provider.storage.ReadVirtualPath (virtualPathOf cd.FilePathName) = some stored →
      ∃ p1, p1.asyncBridge = some bridge ∧
        GetFileDataCallback allocOk writeResult provider cd byteOffset length =
          serveRange allocOk writeResult p1 (toBytes stored) byteOffset length false) ∧
    ((∀ content, bridge.GetCache.GetFileContent (virtualPathOf cd.FilePathName) = some content →
        content.data = []) →
      provider.storage.ReadVirtualPath (virtualPathOf cd.FilePathName) = none →
      (GetFileDataCallback allocOk writeResult provider cd byteOffset length).hr =
        HRESULT.ERROR_FILE_NOT_FOUND ∧
      (GetFileDataCallback allocOk writeResult provider cd byteOffset length).provider.asyncBridge =
        some (bridge.FetchFileContent (virtualPathOf cd.FilePathName))) ∧
    (∀ listing,
      bridge.GetCache.GetDirectoryListing (virtualPathOf cd.FilePathName) = some listing →
      (loadEntries js provider (virtualPathOf cd.FilePathName) []).entries =
        listing.entries.map (fun fileInfo => fileInfo.name) ∧
      (loadEntries js provider (virtualPathOf cd.FilePathName) []).provider.asyncBridge =
        some bridge) ∧
    (bridge.GetCache.GetDirectoryListing (virtualPathOf cd.FilePathName) = none →
      (virtualPathOf cd.FilePathName = "/objects".toList ∨
        IsObjectPath (virtualPathOf cd.FilePathName) = true) →
      (loadEntries js provider (virtualPathOf cd.FilePathName) []).entries =
        provider.storage.ListDirectory (virtualPathOf cd.FilePathName) ∧
      (loadEntries js provider (virtualPathOf cd.FilePathName) []).provider.asyncBridge =
        some bridge) ∧
    (bridge.GetCache.GetDirectoryListing (virtualPathOf cd.FilePathName) = none →
      ¬ (virtualPathOf cd.FilePathName = "/objects".toList ∨
        IsObjectPath (virtualPathOf cd.FilePathName) = true) →
      (loadEntries js provider (virtualPathOf cd.FilePathName) []).provider.asyncBridge =
        some ((bridge.FetchDirectoryListing (virtualPathOf cd.FilePathName)).servePosted js)) := by
  refine ⟨?_, ?_, ?_, ?_, ?_, ?_, ?_, ?_, ?_⟩
  · intro hs
    simp [GetPlaceholderInfoCallback, hs, hb]
  · intro hs fileInfo hc
    constructor <;> simp [GetPlaceholderInfoCallback, hs, hb, hc]
  · intro hs hc
    have hk := not_known_of_storage_miss _ _ hs
    simp [GetPlaceholderInfoCallback, hs, hb, hc, hk]
  · intro content hc hne
    exact ⟨{ provider with
        stats := { provider.stats with
          fileDataRequests := add64 provider.stats.fileDataRequests 1 } }, hb,
      by simp [GetFileDataCallback, hb, hc, hne]⟩
  · intro hempty stored hst
    have hobj : IsObjectPath (virtualPathOf cd.FilePathName) = true := by
      cases ho : IsObjectPath (virtualPathOf cd.FilePathName) with
      | true => rfl
      | false => rw [ReadVirtualPath_not_object _ _ ho] at hst; cases hst
    cases hc : bridge.GetCache.GetFileContent (virtualPathOf cd.FilePathName) with
    | none =>
      exact ⟨{ provider with
          stats := { provider.stats with
            fileDataRequests := add64 provider.stats.fileDataRequests 1,
            cacheMisses := add64 provider.stats.cacheMisses 1 } }, hb,
        by simp [GetFileDataCallback, hb, hc, hobj, hst]⟩
    | some content =>
      have he := hempty content hc
      exact ⟨{ provider with
          stats := { provider.stats with
            fileDataRequests := add64 provider.stats.fileDataRequests 1,
            cacheMisses := add64 provider.stats.cacheMisses 1 } }, hb,
        by simp [GetFileDataCallback, hb, hc, he, hobj, hst]⟩
  · intro hempty hst
    cases hc : bridge.GetCache.GetFileContent (virtualPathOf cd.FilePathName) with
    | none =>
      constructor <;> simp [GetFileDataCallback, hb, hc, hst]
    | some content =>
      have he := hempty content hc
      constructor <;> simp [GetFileDataCallback, hb, hc, he, hst]
  · intro listing hl
    constructor <;> simp [loadEntries, loadFromCache, loadFromStorage, loadFromBridge, hb, hl]
  · intro hl hobj
    have h1 : loadFromCache provider (virtualPathOf cd.FilePathName) [] =
        { entries := [], gotEntries := false,
          provider := { provider with
            stats := { provider.stats with
              cacheMisses := add64 provider.stats.cacheMisses 1 } } } := by
      unfold loadFromCache
      rw [hb]
      simp only [hl]
    unfold loadEntries
    rw [h1]
    unfold loadFromStorage
    rw [if_pos ⟨rfl, hobj⟩]
    unfold loadFromBridge
    exact ⟨rfl, hb⟩
  · intro hl hobj
    have h1 : loadFromCache provider (virtualPathOf cd.FilePathName) [] =
        { entries := [], gotEntries := false,
          provider := { provider with
            stats := { provider.stats with
              cacheMisses := add64 provider.stats.cacheMisses 1 } } } := by
      unfold loadFromCache
      rw [hb]
      simp only [hl]
    unfold loadEntries
    rw [h1]
    unfold loadFromStorage
    rw [if_neg (fun h => hobj h.2)]
    unfold loadFromBridge
    simp only [↓reduceIte, hb]
    split <;> rfl

theorem C11_resolution_order_witness :
    (GetPlaceholderInfoCallback os0 HRESULT.S_OK providerBoth requestObjectA).written =
      some ((providerBoth.storage.GetVirtualPathMetadata
          (virtualPathOf requestObjectA.FilePathName)).1,
        CreateFileBasicInfo
          (providerBoth.storage.GetVirtualPathMetadata
            (virtualPathOf requestObjectA.FilePathName)).1 os0.systemTime) ∧
    (GetPlaceholderInfoCallback os0 HRESULT.S_OK providerBoth
      requestObjectA).provider.asyncBridge = some (bridgeOf cacheBoth) :=
  (C11_resolution_order os0 js0 true HRESULT.S_OK providerBoth (bridgeOf cacheBoth)
    requestObjectA 0 10 rfl).1 (by decide)

/-- C11 fails as stated: for the path `/objects/` + `hashA`, under which the object store
holds "hello" while the cache holds the bytes 1, 2, 3, the file-data callback writes the
cached bytes; and for `/objects`, where the object store lists `hashA` while the cache
holds the listing `[x]`, the session loads `[x]`. -/
theorem C11_counterexample :
    virtualPathOf requestObjectA.FilePathName = "/objects/".toList ++ hashA ∧
    providerBoth.storage.ReadVirtualPath ("/objects/".toList ++ hashA) = some "hello".toList ∧
    (GetFileDataCallback true HRESULT.S_OK providerBoth requestObjectA 0 10).written =
      some (0, [1, 2, 3]) ∧
    providerBoth.storage.ListDirectory "/objects".toList = [hashA] ∧
    (loadEntries js0 providerBoth "/objects".toList []).entries = ["x".toList] := by
  decide

/-! ## The counters -/

theorem le_add64 (x n : Nat) (hx : x < 2 ^ 63) (hn : n < 2 ^ 63) : x ≤ add64 x n := by
  unfold add64
  rw [Nat.mod_eq_of_lt (by omega)]
  omega

theorem loadEntries_stats (js : JsProvider) (p : ProjFSProvider) (P : CppString)
    (entries : List CppString) :
    ∃ hits misses,
      (hits = p.stats.cacheHits ∨ hits = add64 p.stats.cacheHits 1) ∧
      (misses = p.stats.cacheMisses ∨ misses = add64 p.stats.cacheMisses 1) ∧
      (loadEntries js p P entries).provider.stats =
        { p.stats with cacheHits := hits, cacheMisses := misses } := by
  unfold loadEntries loadFromCache
  cases hb : p.asyncBridge with
  | none =>
    refine ⟨_, _, Or.inl rfl, Or.inl rfl, ?_⟩
    simp only [loadFromStorage, loadFromBridge]
    split <;> simp [hb]
  | some bridge =>
    simp only
    cases hl : bridge.GetCache.GetDirectoryListing P with
    | some listing =>
      refine ⟨_, _, Or.inr rfl, Or.inl rfl, ?_⟩
      simp [loadFromStorage, loadFromBridge]
    | none =>
      simp only [loadFromStorage]
      split
      · refine ⟨_, _, Or.inl rfl, Or.inr rfl, ?_⟩
        simp [loadFromBridge]
      · simp only [loadFromBridge, ↓reduceIte, hb]
        split
        · exact ⟨_, _, Or.inr rfl, Or.inr rfl, rfl⟩
        · exact ⟨_, _, Or.inl rfl, Or.inr rfl, rfl⟩

theorem processEntries_stats (os : Win32) (p : ProjFSProvider) (P : CppString) (T : GUID)
    (se : Option CppString) (es : EnumerationState) (buf : DirEntryBuffer) :
    (processEntries os p P T se es buf).provider.stats = p.stats := by
  unfold processEntries
  split <;> rfl

theorem GetDirectoryEnumerationCallback_stats (os : Win32) (js : JsProvider)
    (p : ProjFSProvider) (cd : PRJ_CALLBACK_DATA) (T : GUID) (se : Option CppString)
    (buf : DirEntryBuffer) :
    ∃ hits misses,
      (hits = p.stats.cacheHits ∨ hits = add64 p.stats.cacheHits 1) ∧
      (misses = p.stats.cacheMisses ∨ misses = add64 p.stats.cacheMisses 1) ∧
      (GetDirectoryEnumerationCallback os js p cd T se buf).provider.stats =
        { p.stats with
          directoryEnumerations := add64 p.stats.directoryEnumerations 1,
          enumerationCallbacks := add64 p.stats.enumerationCallbacks 1,
          cacheHits := hits, cacheMisses := misses } := by
  unfold GetDirectoryEnumerationCallback enumerateFrom
  split
  · exact ⟨_, _, Or.inl rfl, Or.inl rfl, rfl⟩
  · split
    · split
      · exact ⟨_, _, Or.inl rfl, Or.inl rfl, rfl⟩
      · obtain ⟨hits, misses, h1, h2, h3⟩ := loadEntries_stats js (countEnumerationCall p)
          (virtualPathOf cd.FilePathName)
          (enterSession (countEnumerationCall p) cd.restartScan T).entries
        refine ⟨hits, misses, h1, h2, ?_⟩
        simp only [processEntries_stats, h3]
        rfl
    · exact ⟨_, _, Or.inl rfl, Or.inl rfl, by rw [processEntries_stats]; rfl⟩

theorem GetPlaceholderInfoCallback_stats (os : Win32) (writeResult : HRESULT)
    (p : ProjFSProvider) (cd : PRJ_CALLBACK_DATA) :
    ∃ hits misses,
      (hits = p.stats.cacheHits ∨ hits = add64 p.stats.cacheHits 1) ∧
      (misses = p.stats.cacheMisses ∨ misses = add64 p.stats.cacheMisses 1) ∧
      (GetPlaceholderInfoCallback os writeResult p cd).provider.stats =
        { p.stats with
          placeholderRequests := add64 p.stats.placeholderRequests 1,
          cacheHits := hits, cacheMisses := misses } := by
  unfold GetPlaceholderInfoCallback
  simp only
  split
  · exact ⟨_, _, Or.inl rfl, Or.inl rfl, rfl⟩
  · cases p.asyncBridge with
    | none =>
      simp only
      split <;> exact ⟨_, _, Or.inl rfl, Or.inl rfl, rfl⟩
    | some bridge =>
      simp only
      cases bridge.GetCache.GetFileInfo (virtualPathOf cd.FilePathName) with
      | some fi => exact ⟨_, _, Or.inr rfl, Or.inl rfl, rfl⟩
      | none =>
        simp only
        split <;> exact ⟨_, _, Or.inl rfl, Or.inr rfl, rfl⟩

theorem serveRange_stats (allocOk : Bool) (writeResult : HRESULT) (p : ProjFSProvider)
    (data : Bytes) (byteOffset length : Nat) (cacheHit : Bool) :
    ∃ n hits,
      n ≤ length ∧ (hits = p.stats.cacheHits ∨ hits = add64 p.stats.cacheHits 1) ∧
      (serveRange allocOk writeResult p data byteOffset length cacheHit).provider.stats =
        { p.stats with bytesRead := add64 p.stats.bytesRead n, cacheHits := hits } ∨
      (serveRange allocOk writeResult p data byteOffset length cacheHit).provider.stats =
        p.stats := by
  unfold serveRange
  simp only
  split
  · exact ⟨0, p.stats.cacheHits, Or.inr rfl⟩
  · cases cacheHit with
    | true =>
      refine ⟨min length (data.length - byteOffset), add64 p.stats.cacheHits 1,
        Or.inl ⟨Nat.min_le_left _ _, Or.inr rfl, ?_⟩⟩
      split <;> rfl
    | false =>
      refine ⟨min length (data.length - byteOffset), p.stats.cacheHits,
        Or.inl ⟨Nat.min_le_left _ _, Or.inl rfl, ?_⟩⟩
      split <;> rfl

theorem bumped_refl (x : Nat) : bumped x x := Or.inl rfl

theorem bumped_one (x : Nat) : bumped x (add64 x 1) := Or.inr ⟨1, by norm_num, rfl⟩

theorem bumped_of_or (x y : Nat) (h : y = x ∨ y = add64 x 1) : bumped x y := by
  rcases h with h | h
  · exact Or.inl h
  · exact Or.inr ⟨1, by norm_num, h⟩

theorem le_of_bumped (x y : Nat) (hx : x < 2 ^ 63) (h : bumped x y) : x ≤ y := by
  rcases h with h | ⟨n, hn, h⟩
  · rw [h]
  · rw [h]; exact le_add64 x n hx hn

theorem countersLe_of_bumpedFrom (a b : ProviderStats) (ha : a.below (2 ^ 63))
    (h : a.bumpedFrom b) : a.countersLe b := by
  obtain ⟨b1, b2, b3, b4, _, b6, b7, b8⟩ := ha
  obtain ⟨h1, h2, h3, h4, h5, h6, h7, _⟩ := h
  exact ⟨le_of_bumped _ _ b1 h1, le_of_bumped _ _ b2 h2, le_of_bumped _ _ b3 h3,
    le_of_bumped _ _ b4 h4, le_of_bumped _ _ b6 h5, le_of_bumped _ _ b7 h6,
    le_of_bumped _ _ b8 h7⟩

theorem GetPlaceholderInfoCallback_bumped (os : Win32) (writeResult : HRESULT)
    (p : ProjFSProvider) (cd : PRJ_CALLBACK_DATA) :
    p.stats.bumpedFrom (GetPlaceholderInfoCallback os writeResult p cd).provider.stats := by
  obtain ⟨hits, misses, h1, h2, h3⟩ := GetPlaceholderInfoCallback_stats os writeResult p cd
  rw [h3]
  exact ⟨bumped_one _, bumped_refl _, bumped_refl _, bumped_refl _, bumped_refl _,
    bumped_of_or _ _ h1, bumped_of_or _ _ h2, rfl⟩

theorem GetDirectoryEnumerationCallback_bumped (os : Win32) (js : JsProvider)
    (p : ProjFSProvider) (cd : PRJ_CALLBACK_DATA) (T : GUID) (se : Option CppString)
    (buf : DirEntryBuffer) :
    p.stats.bumpedFrom (GetDirectoryEnumerationCallback os js p cd T se buf).provider.stats := by
  obtain ⟨hits, misses, h1, h2, h3⟩ := GetDirectoryEnumerationCallback_stats os js p cd T se buf
  rw [h3]
  exact ⟨bumped_refl _, bumped_refl _, bumped_one _, bumped_one _, bumped_refl _,
    bumped_of_or _ _ h1, bumped_of_or _ _ h2, rfl⟩

theorem serveRange_bumped (allocOk : Bool) (writeResult : HRESULT) (p : ProjFSProvider)
    (data : Bytes) (byteOffset length : Nat) (cacheHit : Bool) (hlen : length < 2 ^ 32) :
    bumped p.stats.bytesRead
      (serveRange allocOk writeResult p data byteOffset length cacheHit).provider.stats.bytesRead ∧
    bumped p.stats.cacheHits
      (serveRange allocOk writeResult p data byteOffset length cacheHit).provider.stats.cacheHits ∧
    (serveRange allocOk writeResult p data byteOffset length cacheHit).provider.stats =
      { p.stats with
        bytesRead := (serveRange allocOk writeResult p data byteOffset length
          cacheHit).provider.stats.bytesRead,
        cacheHits := (serveRange allocOk writeResult p data byteOffset length
          cacheHit).provider.stats.cacheHits } := by
  obtain ⟨n, hits, ⟨hn, hh, hs⟩ | hs⟩ :=
    serveRange_stats allocOk writeResult p data byteOffset length cacheHit
  · rw [hs]
    exact ⟨Or.inr ⟨n, by omega, rfl⟩, bumped_of_or _ _ hh, rfl⟩
  · rw [hs]
    exact ⟨bumped_refl _, bumped_refl _, rfl⟩

theorem GetFileDataCallback_bumped (allocOk : Bool) (writeResult : HRESULT)
    (p : ProjFSProvider) (cd : PRJ_CALLBACK_DATA) (byteOffset length : Nat)
    (hlen : length < 2 ^ 32) :
    p.stats.bumpedFrom
      (GetFileDataCallback allocOk writeResult p cd byteOffset length).provider.stats := by
  unfold GetFileDataCallback
  simp only
  split
  · rename_i content _
    obtain ⟨h1, h2, h3⟩ := serveRange_bumped allocOk writeResult
      { p with stats := { p.stats with
          fileDataRequests := add64 p.stats.fileDataRequests 1 } }
      content.data byteOffset length true hlen
    rw [h3]
    exact ⟨bumped_refl _, bumped_one _, bumped_refl _, bumped_refl _, h1, h2, bumped_refl _,
      rfl⟩
  · split
    · rename_i stored _
      cases hbr : p.asyncBridge with
      | none =>
        obtain ⟨h1, h2, h3⟩ := serveRange_bumped allocOk writeResult
          { p with stats := { p.stats with
              fileDataRequests := add64 p.stats.fileDataRequests 1 } }
          (toBytes stored) byteOffset length false hlen
        simp only [hbr] at h1 h2 h3 ⊢
        rw [h3]
        exact ⟨bumped_refl _, bumped_one _, bumped_refl _, bumped_refl _, h1, h2,
          bumped_refl _, rfl⟩
      | some bridge =>
        obtain ⟨h1, h2, h3⟩ := serveRange_bumped allocOk writeResult
          { p with
            asyncBridge := some bridge,
            stats := { p.stats with
              fileDataRequests := add64 p.stats.fileDataRequests 1,
              cacheMisses := add64 p.stats.cacheMisses 1 } }
          (toBytes stored) byteOffset length false hlen
        simp only [hbr] at h1 h2 h3 ⊢
        rw [h3]
        exact ⟨bumped_refl _, bumped_one _, bumped_refl _, bumped_refl _, h1, h2,
          bumped_one _, rfl⟩
    · cases hbr : p.asyncBridge with
      | none =>
        exact ⟨bumped_refl _, bumped_one _, bumped_refl _, bumped_refl _, bumped_refl _,
          bumped_refl _, bumped_refl _, rfl⟩
      | some bridge =>
        exact ⟨bumped_refl _, bumped_one _, bumped_refl _, bumped_refl _, bumped_refl _,
          bumped_refl _, bumped_one _, rfl⟩

/-- C18 (as amended): while every counter is below `2 ^ 63` and the requested length is a
32-bit value, each of the five callbacks leaves every counter other than
`activeEnumerations` (`placeholderRequests`, `fileDataRequests`, `directoryEnumerations`,
`enumerationCallbacks`, `bytesRead`, `cacheHits`, `cacheMisses`) at least as large as it was;
`activeEnumerations` is unchanged by the placeholder, file-data and get-batch callbacks,
incremented by the start callback and decremented by the end callback. -/
theorem C18_counters_non_decreasing (os : Win32) (js : JsProvider) (allocOk : Bool)
    (writeResult : HRESULT) (provider : ProjFSProvider) (callbackData : PRJ_CALLBACK_DATA)
    (byteOffset length : Nat) (enumerationId : GUID) (searchExpression : Option CppString)
    (buf : DirEntryBuffer) (hbelow : provider.stats.below (2 ^ 63))
    (hlen : length < 2 ^ 32) :
    (provider.stats.countersLe
        (GetPlaceholderInfoCallback os writeResult provider callbackData).provider.stats ∧
      (GetPlaceholderInfoCallback os writeResult provider
        callbackData).provider.stats.activeEnumerations = provider.stats.activeEnumerations) ∧
    (provider.stats.countersLe
        (GetFileDataCallback allocOk writeResult provider callbackData byteOffset
          length).provider.stats ∧
      (GetFileDataCallback allocOk writeResult provider callbackData byteOffset
        length).provider.stats.activeEnumerations = provider.stats.activeEnumerations) ∧
    (provider.stats.countersLe
        (GetDirectoryEnumerationCallback os js provider callbackData enumerationId
          searchExpression buf).provider.stats ∧
      (GetDirectoryEnumerationCallback os js provider callbackData enumerationId
        searchExpression buf).provider.stats.activeEnumerations =
        provider.stats.activeEnumerations) ∧
    (provider.stats.countersLe
        (StartDirectoryEnumerationCallback provider callbackData enumerationId).2.stats ∧
      (StartDirectoryEnumerationCallback provider callbackData
        enumerationId).2.stats.activeEnumerations =
        add64 provider.stats.activeEnumerations 1 ∧
      provider.stats.activeEnumerations ≤
        (StartDirectoryEnumerationCallback provider callbackData
          enumerationId).2.stats.activeEnumerations) ∧
    (provider.stats.countersLe
        (EndDirectoryEnumerationCallback provider callbackData enumerationId).2.stats ∧
      (EndDirectoryEnumerationCallback provider callbackData
        enumerationId).2.stats.activeEnumerations =
        dec64 provider.stats.activeEnumerations) := by
  have hP := GetPlaceholderInfoCallback_bumped os writeResult provider callbackData
  have hF := GetFileDataCallback_bumped allocOk writeResult provider callbackData byteOffset
    length hlen
  have hG := GetDirectoryEnumerationCallback_bumped os js provider callbackData enumerationId
    searchExpression buf
  refine ⟨⟨countersLe_of_bumpedFrom _ _ hbelow hP, hP.2.2.2.2.2.2.2⟩,
    ⟨countersLe_of_bumpedFrom _ _ hbelow hF, hF.2.2.2.2.2.2.2⟩,
    ⟨countersLe_of_bumpedFrom _ _ hbelow hG, hG.2.2.2.2.2.2.2⟩, ⟨?_, ?_, ?_⟩, ?_, ?_⟩
  · unfold StartDirectoryEnumerationCallback
    simp only
    split <;>
      exact ⟨le_refl _, le_refl _, le_refl _, le_refl _, le_refl _, le_refl _, le_refl _⟩
  · unfold StartDirectoryEnumerationCallback
    simp only
    split <;> rfl
  · have h : (StartDirectoryEnumerationCallback provider callbackData
        enumerationId).2.stats.activeEnumerations =
        add64 provider.stats.activeEnumerations 1 := by
      unfold StartDirectoryEnumerationCallback
      simp only
      split <;> rfl
    rw [h]
    exact le_add64 _ _ hbelow.2.2.2.2.1 (by norm_num)
  · exact ⟨le_refl _, le_refl _, le_refl _, le_refl _, le_refl _, le_refl _, le_refl _⟩
  · rfl

theorem C18_counters_non_decreasing_witness :
    providerBoth.stats.countersLe
      (GetFileDataCallback true HRESULT.S_OK providerBoth requestObjectA 0 10).provider.stats ∧
    (GetFileDataCallback true HRESULT.S_OK providerBoth requestObjectA 0
      10).provider.stats.bytesRead = 3 ∧
    (StartDirectoryEnumerationCallback providerBoth requestObjectA
      7).2.stats.activeEnumerations = 1 :=
  ⟨(C18_counters_non_decreasing os0 js0 true HRESULT.S_OK providerBoth requestObjectA 0 10 7
      none ⟨10, []⟩ (by decide) (by decide)).2.1.1,
    by decide, by decide⟩

/-- C18 fails as stated: the end callback takes `activeEnumerations` from 1 to 0, and the
placeholder callback takes `placeholderRequests` from `2 ^ 64 - 1` to 0. -/
theorem C18_counterexample :
    providerFull.stats.activeEnumerations = 1 ∧
    (EndDirectoryEnumerationCallback providerFull requestObjectA
      7).2.stats.activeEnumerations = 0 ∧
    providerFull.stats.placeholderRequests = 2 ^ 64 - 1 ∧
    (GetPlaceholderInfoCallback os0 HRESULT.S_OK providerFull
      requestObjectA).provider.stats.placeholderRequests = 0 := by
  decide

/-! ## Concurrent get-batch callbacks -/

theorem enterSession_eq_enterState (p : ProjFSProvider) (restartScan : Bool) (T : GUID) :
    enterSession p restartScan T = enterState restartScan (sessionOf T p) := rfl

theorem processState_isLoading (n : Nat) (s : EnumerationState) :
    (processState n s).isLoading = s.isLoading := by
  unfold processState
  split <;> rfl

theorem enterState_isLoading (r : Bool) (s : EnumerationState) :
    (enterState r s).isLoading = if r then false else s.isLoading := by
  cases r <;> rfl

theorem move_pos (c : SharedSession) (thread : Nat) (p : ThreadPos) (st : EnumerationState)
    (t : Nat) : (c.move thread p st).pos t = if t = thread then p else c.pos t := rfl

theorem move_state (c : SharedSession) (thread : Nat) (p : ThreadPos)
    (st : EnumerationState) : (c.move thread p st).state = st := rfl

theorem move_oneLoader (c : SharedSession) (thread : Nat) (p : ThreadPos)
    (st : EnumerationState) (hp : p ≠ ThreadPos.loading) (hI : c.oneLoader)
    (hst : st.isLoading = false → ∀ t, t ≠ thread → c.pos t ≠ ThreadPos.loading) :
    (c.move thread p st).oneLoader := by
  constructor
  · intro t u ht hu
    rw [move_pos] at ht hu
    by_cases h1 : t = thread
    · rw [if_pos h1] at ht; exact absurd ht hp
    · by_cases h2 : u = thread
      · rw [if_pos h2] at hu; exact absurd hu hp
      · rw [if_neg h1] at ht; rw [if_neg h2] at hu
        exact hI.1 t u ht hu
  · intro hs t
    rw [move_state] at hs
    rw [move_pos]
    by_cases h1 : t = thread
    · rw [if_pos h1]; exact hp
    · rw [if_neg h1]; exact hst hs t h1

theorem move_loading_oneLoader (c : SharedSession) (thread : Nat) (st : EnumerationState)
    (hnone : ∀ t, t ≠ thread → c.pos t ≠ ThreadPos.loading) (hst : st.isLoading = true) :
    (c.move thread ThreadPos.loading st).oneLoader := by
  constructor
  · intro t u ht hu
    rw [move_pos] at ht hu
    by_cases h1 : t = thread
    · by_cases h2 : u = thread
      · rw [h1, h2]
      · rw [if_neg h2] at hu; exact absurd hu (hnone u h2)
    · rw [if_neg h1] at ht; exact absurd ht (hnone t h1)
  · intro hs
    rw [move_state, hst] at hs
    exact absurd hs (by decide)

theorem others_not_loading (c : SharedSession) (thread : Nat) (hI : c.oneLoader)
    (h : c.pos thread = ThreadPos.loading) : ∀ t, t ≠ thread → c.pos t ≠ ThreadPos.loading :=
  fun t ht hl => ht (hI.1 t thread hl h)

theorem isLoading_of_loading (c : SharedSession) (thread : Nat) (hI : c.oneLoader)
    (h : c.pos thread = ThreadPos.loading) : c.state.isLoading = true := by
  cases hs : c.state.isLoading with
  | true => rfl
  | false => exact absurd h (hI.2 hs thread)

theorem step_oneLoader (c : SharedSession) (a : SessionAction) (hI : c.oneLoader)
    (hr : a.isRestart = true → c.state.isLoading = false) : (c.step a).oneLoader := by
  cases a with
  | enter thread restartScan nextIndex =>
    have he : (enterState restartScan c.state).isLoading = false →
        ∀ t, c.pos t ≠ ThreadPos.loading := by
      intro h
      cases restartScan with
      | true => exact hI.2 (hr rfl)
      | false => exact hI.2 h
    unfold SharedSession.step
    simp only
    split
    · split
      · exact move_oneLoader _ _ _ _ (by decide) hI (fun h t _ => he h t)
      · split
        · split
          · exact move_oneLoader _ _ _ _ (by decide) hI (fun h t _ => he h t)
          · rename_i hl
            have hl2 : (enterState restartScan c.state).isLoading = false := by
              cases h : (enterState restartScan c.state).isLoading with
              | true => exact absurd h hl
              | false => rfl
            exact move_loading_oneLoader _ _ _ (fun t _ => he hl2 t) rfl
        · exact move_oneLoader _ _ _ _ (by decide) hI
            (fun h t _ => he (by rw [processState_isLoading] at h; exact h) t)
    · exact hI
  | loadProgress thread entries =>
    unfold SharedSession.step
    simp only
    split
    · rename_i hp
      exact move_loading_oneLoader _ _ _ (others_not_loading c thread hI hp)
        (isLoading_of_loading c thread hI hp)
    · exact hI
  | finishLoading thread nextIndex =>
    unfold SharedSession.step
    simp only
    split
    · rename_i hp
      exact move_oneLoader _ _ _ _ (by decide) hI
        (fun _ => others_not_loading c thread hI hp)
    · exact hI
  | wake thread nextIndex =>
    unfold SharedSession.step
    simp only
    split
    · rename_i hp
      split
      · exact move_oneLoader _ _ _ _ (by decide) hI (fun _ t _ => hI.2 hp.2 t)
      · exact move_oneLoader _ _ _ _ (by decide) hI (fun _ t _ => hI.2 hp.2 t)
    · exact hI
  | timeout thread =>
    unfold SharedSession.step
    simp only
    split
    · exact move_oneLoader _ _ _ _ (by decide) hI (fun h t _ => hI.2 h t)
    · exact hI

theorem run_oneLoader (actions : List SessionAction) (c : SharedSession) (hI : c.oneLoader)
    (h : c.restartsOutsideLoading actions = true) : (c.run actions).oneLoader := by
  induction actions generalizing c with
  | nil => exact hI
  | cons a rest ih =>
    unfold SharedSession.restartsOutsideLoading at h
    rw [Bool.and_eq_true] at h
    have hr : a.isRestart = true → c.state.isLoading = false := by
      intro ha
      have h1 := h.1
      rw [ha] at h1
      simpa using h1
    exact ih (c.step a) (step_oneLoader c a hI hr) h.2

theorem idle_oneLoader (enumState : EnumerationState) :
    (SharedSession.idle enumState).oneLoader :=
  ⟨fun _ _ ht _ =>
      absurd (show ThreadPos.outside = ThreadPos.loading from ht) (by decide),
    fun _ _ ht => absurd (show ThreadPos.outside = ThreadPos.loading from ht) (by decide)⟩

/-- C20 (as amended): for every session state and every interleaving of the locked sections
of concurrent get-batch callbacks in which no call with the restart-scan flag begins while
`isLoading` is true, at most one callback is in the loading step; whenever one is,
`isLoading` is true; and a further call without the flag that enters the loading step
finds `isLoading` false and no callback in the loading step. -/
theorem C20_one_fetch_in_flight (enumState : EnumerationState)
    (actions : List SessionAction)
    (h : (SharedSession.idle enumState).restartsOutsideLoading actions = true) :
    (∀ t u, ((SharedSession.idle enumState).run actions).pos t = ThreadPos.loading →
      ((SharedSession.idle enumState).run actions).pos u = ThreadPos.loading → t = u) ∧
    (∀ t, ((SharedSession.idle enumState).run actions).pos t = ThreadPos.loading →
      ((SharedSession.idle enumState).run actions).state.isLoading = true) ∧
    (∀ thread nextIndex,
      ((SharedSession.idle enumState).run actions).pos thread = ThreadPos.outside →
      ((((SharedSession.idle enumState).run actions).step
        (SessionAction.enter thread false nextIndex)).pos thread = ThreadPos.loading) →
      ((SharedSession.idle enumState).run actions).state.isLoading = false ∧
        ∀ u, ((SharedSession.idle enumState).run actions).pos u ≠ ThreadPos.loading) := by
  have hI := run_oneLoader actions (SharedSession.idle enumState) (idle_oneLoader enumState) h
  generalize (SharedSession.idle enumState).run actions = c at hI
  refine ⟨hI.1, fun t ht => isLoading_of_loading c t hI ht, ?_⟩
  intro thread nextIndex hout hin
  have hs : c.state.isLoading = false := by
    unfold SharedSession.step at hin
    simp only [hout, if_true] at hin
    split at hin
    · rw [move_pos, if_pos rfl] at hin; exact absurd hin (by decide)
    · split at hin
      · split at hin
        · rw [move_pos, if_pos rfl] at hin; exact absurd hin (by decide)
        · rename_i hl
          cases h2 : c.state.isLoading with
          | false => rfl
          | true => exact absurd (by rw [enterState_isLoading]; exact h2) hl
      · rw [move_pos, if_pos rfl] at hin; exact absurd hin (by decide)
  exact ⟨hs, hI.2 hs⟩

theorem C20_one_fetch_in_flight_witness :
    ((SharedSession.idle {}).run interleavingA).pos 2 = ThreadPos.loading ∧
    ((SharedSession.idle {}).run interleavingA).state.isLoading = true :=
  ⟨by decide, (C20_one_fetch_in_flight {} interleavingA (by decide)).2.1 2 (by decide)⟩

/-- C20 fails as stated: a call enters the loading step of a fresh session, and a second
call with the restart-scan flag, arriving before the first has finished, resets `isLoading`
and enters the loading step as well. -/
theorem C20_counterexample :
    ((SharedSession.idle {}).run
      [SessionAction.enter 0 false 0, SessionAction.enter 1 true 0]).pos 0 =
      ThreadPos.loading ∧
    ((SharedSession.idle {}).run
      [SessionAction.enter 0 false 0, SessionAction.enter 1 true 0]).pos 1 =
      ThreadPos.loading ∧
    ((SharedSession.idle {}).run [SessionAction.enter 0 false 0]).state.isLoading = true := by
  decide

/-! ## The iterations of the pagination loop -/

theorem paginate_succ (os : Win32) (cache : Option ContentCache)
    (virtualPath searchPattern : CppString) (entries : List CppString) (fuel : Nat)
    (st : SyncStorage) (i : Nat) (buf : DirEntryBuffer) (h : i < entries.length) :
    paginate os cache virtualPath searchPattern entries (fuel + 1) st i buf =
      if (loopBody os cache virtualPath searchPattern entries[i] st buf).1 =
          IterationKind.bufferFull then
        ((loopBody os cache virtualPath searchPattern entries[i] st buf).2.1, i,
          (loopBody os cache virtualPath searchPattern entries[i] st buf).2.2)
      else
        paginate os cache virtualPath searchPattern entries fuel
          (loopBody os cache virtualPath searchPattern entries[i] st buf).2.1 (i + 1)
          (loopBody os cache virtualPath searchPattern entries[i] st buf).2.2 := by
  rw [paginate]
  simp only [h, dite_true]
  unfold loopBody
  simp only
  split
  · simp
  · split
    · simp
    · split
      · simp
      · split
        · simp
        · simp

theorem paginateLog_succ (os : Win32) (cache : Option ContentCache)
    (virtualPath searchPattern : CppString) (entries : List CppString) (fuel : Nat)
    (st : SyncStorage) (i : Nat) (buf : DirEntryBuffer) (h : i < entries.length) :
    paginateLog os cache virtualPath searchPattern entries (fuel + 1) st i buf =
      if (loopBody os cache virtualPath searchPattern entries[i] st buf).1 =
          IterationKind.bufferFull then [(i, IterationKind.bufferFull)]
      else
        (i, (loopBody os cache virtualPath searchPattern entries[i] st buf).1) ::
          paginateLog os cache virtualPath searchPattern entries fuel
            (loopBody os cache virtualPath searchPattern entries[i] st buf).2.1 (i + 1)
            (loopBody os cache virtualPath searchPattern entries[i] st buf).2.2 := by
  rw [paginateLog]
  simp only [h, dite_true]

theorem paginateLog_done (os : Win32) (cache : Option ContentCache)
    (virtualPath searchPattern : CppString) (entries : List CppString) (fuel : Nat)
    (st : SyncStorage) (i : Nat) (buf : DirEntryBuffer) (h : ¬ i < entries.length) :
    paginateLog os cache virtualPath searchPattern entries fuel st i buf = [] := by
  cases fuel with
  | zero => rfl
  | succ n => simp [paginateLog, h]

theorem loopBody_sameAnswers (os : Win32) (cache : Option ContentCache)
    (virtualPath searchPattern entry : CppString) (st : SyncStorage) (buf : DirEntryBuffer) :
    sameAnswers st (loopBody os cache virtualPath searchPattern entry st buf).2.1 := by
  unfold loopBody
  simp only
  split
  · exact sameAnswers_refl st
  · split
    · exact entryMetadata_sameAnswers st cache virtualPath entry
    · split
      · exact entryMetadata_sameAnswers st cache virtualPath entry
      · split <;> exact entryMetadata_sameAnswers st cache virtualPath entry

theorem loopBody_kind (os : Win32) (cache : Option ContentCache)
    (virtualPath searchPattern entry : CppString) (st : SyncStorage) (buf : DirEntryBuffer) :
    ((loopBody os cache virtualPath searchPattern entry st buf).1 = IterationKind.noMatch ↔
      os.PrjFileNameMatch entry searchPattern = false) ∧
    ((loopBody os cache virtualPath searchPattern entry st buf).1 = IterationKind.missing ↔
      os.PrjFileNameMatch entry searchPattern = true ∧
        (entryMetadata cache st virtualPath entry).1.exists_ = false) ∧
    ((loopBody os cache virtualPath searchPattern entry st buf).1 = IterationKind.bufferFull ↔
      os.PrjFileNameMatch entry searchPattern = true ∧
        (entryMetadata cache st virtualPath entry).1.exists_ = true ∧
        (PrjFillDirEntryBuffer os entry
          (CreateFileBasicInfo (entryMetadata cache st virtualPath entry).1 os.systemTime)
          buf).1 = HRESULT.ERROR_INSUFFICIENT_BUFFER) ∧
    ((loopBody os cache virtualPath searchPattern entry st buf).1 = IterationKind.added ↔
      os.PrjFileNameMatch entry searchPattern = true ∧
        (entryMetadata cache st virtualPath entry).1.exists_ = true ∧
        (PrjFillDirEntryBuffer os entry
          (CreateFileBasicInfo (entryMetadata cache st virtualPath entry).1 os.systemTime)
          buf).1 = HRESULT.S_OK) := by
  unfold loopBody
  simp only
  cases hm : os.PrjFileNameMatch entry searchPattern with
  | false => simp
  | true =>
    cases he : (entryMetadata cache st virtualPath entry).1.exists_ with
    | false => simp
    | true =>
      cases hr : (PrjFillDirEntryBuffer os entry
          (CreateFileBasicInfo (entryMetadata cache st virtualPath entry).1 os.systemTime)
          buf).1 <;> simp [FAILED]

theorem loopBody_buffer (os : Win32) (cache : Option ContentCache)
    (virtualPath searchPattern entry : CppString) (st : SyncStorage) (buf : DirEntryBuffer) :
    (loopBody os cache virtualPath searchPattern entry st buf).2.2.capacity = buf.capacity ∧
    ((loopBody os cache virtualPath searchPattern entry st buf).1 ≠ IterationKind.added →
      (loopBody os cache virtualPath searchPattern entry st buf).2.2 = buf) ∧
    ((loopBody os cache virtualPath searchPattern entry st buf).1 = IterationKind.added →
      (loopBody os cache virtualPath searchPattern entry st buf).2.2.written.map Prod.fst =
        buf.written.map Prod.fst ++ [entry]) := by
  unfold loopBody PrjFillDirEntryBuffer
  simp only
  cases hm : os.PrjFileNameMatch entry searchPattern with
  | false => simp
  | true =>
    cases he : (entryMetadata cache st virtualPath entry).1.exists_ with
    | false => simp
    | true =>
      cases hr : os.fillRejects entry with
      | true => simp [FAILED]
      | false =>
        by_cases hroom : buf.written.length < buf.capacity
        · simp [FAILED, hroom]
        · simp [FAILED, hroom]

theorem addedEntries_cons (entries : List CppString) (e : Nat × IterationKind)
    (log : List (Nat × IterationKind)) :
    addedEntries entries (e :: log) =
      (if e.2 = IterationKind.added then [entries.getD e.1 []] else []) ++
        addedEntries entries log := by
  unfold addedEntries
  by_cases h : e.2 = IterationKind.added <;> simp [List.filter_cons, h]

theorem getLast?_cons_of_mem {α : Type} (a e : α) (l : List α) (h : e ∈ l) :
    (a :: l).getLast? = l.getLast? := by
  cases l with
  | nil => cases h
  | cons b t => exact List.getLast?_cons_cons

theorem paginate_log (os : Win32) (cache : Option ContentCache)
    (virtualPath searchPattern : CppString) (entries : List CppString) :
    ∀ (fuel : Nat) (st : SyncStorage) (i : Nat) (buf : DirEntryBuffer),
      i ≤ (paginate os cache virtualPath searchPattern entries fuel st i buf).2.1 ∧
      (∀ e ∈ paginateLog os cache virtualPath searchPattern entries fuel st i buf,
        i ≤ e.1 ∧ e.1 < entries.length ∧
        (e.2 = IterationKind.bufferFull →
          (paginate os cache virtualPath searchPattern entries fuel st i buf).2.1 = e.1 ∧
          (paginateLog os cache virtualPath searchPattern entries fuel st i buf).getLast? =
            some e) ∧
        (e.2 ≠ IterationKind.bufferFull →
          e.1 < (paginate os cache virtualPath searchPattern entries fuel st i buf).2.1)) ∧
      (paginateLog os cache virtualPath searchPattern entries fuel st i buf).map Prod.fst =
        List.range' i
          (paginateLog os cache virtualPath searchPattern entries fuel st i buf).length ∧
      (paginateLog os cache virtualPath searchPattern entries fuel st i buf).length ≤ fuel ∧
      (paginateLog os cache virtualPath searchPattern entries fuel st i buf).length ≤
        entries.length - i ∧
      (paginate os cache virtualPath searchPattern entries fuel st i buf).2.2.written.map
          Prod.fst =
        buf.written.map Prod.fst ++
          addedEntries entries
            (paginateLog os cache virtualPath searchPattern entries fuel st i buf) ∧
      (paginate os cache virtualPath searchPattern entries fuel st i buf).2.2.capacity =
        buf.capacity := by
  intro fuel
  induction fuel with
  | zero =>
    intro st i buf
    refine ⟨le_refl _, ?_, rfl, le_refl _, Nat.zero_le _, ?_, rfl⟩
    · intro e he; cases he
    · simp [paginate, paginateLog, addedEntries]
  | succ n ih =>
    intro st i buf
    by_cases h : i < entries.length
    · rw [paginate_succ _ _ _ _ _ _ _ _ _ h, paginateLog_succ _ _ _ _ _ _ _ _ _ h]
      obtain ⟨b1, b2, b3⟩ := loopBody_buffer os cache virtualPath searchPattern entries[i] st buf
      by_cases hk : (loopBody os cache virtualPath searchPattern entries[i] st buf).1 =
          IterationKind.bufferFull
      · rw [if_pos hk, if_pos hk]
        have hbuf := b2 (by rw [hk]; decide)
        refine ⟨le_refl _, ?_, rfl, by simp, by simp; omega, ?_, ?_⟩
        · intro e he
          rw [List.mem_singleton] at he
          subst he
          exact ⟨le_refl _, h, fun _ => ⟨rfl, rfl⟩, fun hne => absurd rfl hne⟩
        · simp [hbuf, addedEntries]
        · simp [hbuf]
      · rw [if_neg hk, if_neg hk]
        obtain ⟨a1, a2, a3, a4, a5, a6, a7⟩ :=
          ih (loopBody os cache virtualPath searchPattern entries[i] st buf).2.1 (i + 1)
            (loopBody os cache virtualPath searchPattern entries[i] st buf).2.2
        refine ⟨by omega, ?_, ?_, ?_, ?_, ?_, a7.trans b1⟩
        · intro e he
          rw [List.mem_cons] at he
          rcases he with he | he
          · subst he
            exact ⟨le_refl _, h, fun hf => absurd hf hk, fun _ => by simp only; omega⟩
          · obtain ⟨c1, c2, c3, c4⟩ := a2 e he
            refine ⟨by omega, c2, fun hf => ⟨(c3 hf).1, ?_⟩, c4⟩
            rw [getLast?_cons_of_mem _ e _ he]
            exact (c3 hf).2
        · simp only [List.map_cons, List.length_cons]
          rw [a3, List.range'_succ]
        · simp only [List.length_cons]; omega
        · simp only [List.length_cons]; omega
        · rw [a6, addedEntries_cons]
          by_cases hadd : (loopBody os cache virtualPath searchPattern entries[i] st buf).1 =
              IterationKind.added
          · rw [b3 hadd]
            simp [hadd, List.getD_eq_getElem?_getD, List.getElem?_eq_getElem h]
          · rw [b2 hadd]
            simp [hadd]
    · rw [paginate_done _ _ _ _ _ _ _ _ _ h, paginateLog_done _ _ _ _ _ _ _ _ _ h]
      refine ⟨le_refl _, ?_, rfl, Nat.zero_le _, Nat.zero_le _, ?_, rfl⟩
      · intro e he; cases he
      · simp [addedEntries]

theorem paginate_loopRun (os : Win32) (cache : Option ContentCache)
    (virtualPath searchPattern : CppString) (entries : List CppString) (fuel : Nat)
    (st : SyncStorage) (i : Nat) (buf : DirEntryBuffer) :
    LoopRun entries i buf (paginateLog os cache virtualPath searchPattern entries fuel st i buf)
      (paginate os cache virtualPath searchPattern entries fuel st i buf).2.1
      (paginate os cache virtualPath searchPattern entries fuel st i buf).2.2 := by
  obtain ⟨a1, a2, a3, _, a5, a6, a7⟩ :=
    paginate_log os cache virtualPath searchPattern entries fuel st i buf
  exact ⟨a1, a2, a3, a5, a6, a7⟩

theorem LoopRun_nil (entries : List CppString) (i : Nat) (buf : DirEntryBuffer) :
    LoopRun entries i buf [] i buf := by
  refine ⟨le_refl _, ?_, rfl, Nat.zero_le _, ?_, rfl⟩
  · intro e he; cases he
  · simp [addedEntries]

theorem LoopRun_unique {entries : List CppString} {i j : Nat} {buf out : DirEntryBuffer}
    {log : List (Nat × IterationKind)} (h : LoopRun entries i buf log j out) (k : Nat)
    (a b : IterationKind) (ha : (k, a) ∈ log) (hb : (k, b) ∈ log) : a = b := by
  have hnd : (log.map Prod.fst).Nodup := by
    rw [h.2.2.1]
    exact List.nodup_range' _ _
  have := List.inj_on_of_nodup_map hnd ha hb rfl
  exact (Prod.mk.inj this).2

theorem paginate_exit (os : Win32) (cache : Option ContentCache)
    (virtualPath searchPattern : CppString) (entries : List CppString) :
    ∀ (fuel : Nat) (st : SyncStorage) (i : Nat) (buf : DirEntryBuffer),
      entries.length - i ≤ fuel →
      entries.length ≤ (paginate os cache virtualPath searchPattern entries fuel st i buf).2.1 ∨
      (paginateLog os cache virtualPath searchPattern entries fuel st i buf).getLast? =
        some ((paginate os cache virtualPath searchPattern entries fuel st i buf).2.1,
          IterationKind.bufferFull) := by
  intro fuel
  induction fuel with
  | zero =>
    intro st i buf hf
    left
    rw [paginate_done _ _ _ _ _ _ _ _ _ (by omega)]
    show entries.length ≤ i
    omega
  | succ n ih =>
    intro st i buf hf
    by_cases h : i < entries.length
    · rw [paginate_succ _ _ _ _ _ _ _ _ _ h, paginateLog_succ _ _ _ _ _ _ _ _ _ h]
      by_cases hk : (loopBody os cache virtualPath searchPattern entries[i] st buf).1 =
          IterationKind.bufferFull
      · rw [if_pos hk, if_pos hk]
        right; rfl
      · rw [if_neg hk, if_neg hk]
        rcases ih (loopBody os cache virtualPath searchPattern entries[i] st buf).2.1 (i + 1)
          (loopBody os cache virtualPath searchPattern entries[i] st buf).2.2 (by omega) with
          h1 | h1
        · left; exact h1
        · right
          have hne : paginateLog os cache virtualPath searchPattern entries n
              (loopBody os cache virtualPath searchPattern entries[i] st buf).2.1 (i + 1)
              (loopBody os cache virtualPath searchPattern entries[i] st buf).2.2 ≠ [] := by
            intro h0
            rw [h0] at h1
            cases h1
          obtain ⟨e, he⟩ := List.exists_mem_of_ne_nil _ hne
          rw [getLast?_cons_of_mem _ e _ he]
          exact h1
    · left
      rw [paginate_done _ _ _ _ _ _ _ _ _ h]
      show entries.length ≤ i
      omega

theorem paginate_fuel (os : Win32) (cache : Option ContentCache)
    (virtualPath searchPattern : CppString) (entries : List CppString) :
    ∀ (fuel fuel' : Nat) (st : SyncStorage) (i : Nat) (buf : DirEntryBuffer),
      entries.length - i ≤ fuel → entries.length - i ≤ fuel' →
      paginate os cache virtualPath searchPattern entries fuel st i buf =
        paginate os cache virtualPath searchPattern entries fuel' st i buf ∧
      paginateLog os cache virtualPath searchPattern entries fuel st i buf =
        paginateLog os cache virtualPath searchPattern entries fuel' st i buf := by
  intro fuel
  induction fuel with
  | zero =>
    intro fuel' st i buf hf _
    rw [paginate_done _ _ _ _ _ 0 _ _ _ (by omega), paginate_done _ _ _ _ _ fuel' _ _ _ (by omega),
      paginateLog_done _ _ _ _ _ 0 _ _ _ (by omega),
      paginateLog_done _ _ _ _ _ fuel' _ _ _ (by omega)]
    exact ⟨rfl, rfl⟩
  | succ n ih =>
    intro fuel' st i buf hf hf'
    by_cases h : i < entries.length
    · obtain ⟨m, hm⟩ : ∃ m, fuel' = m + 1 := ⟨fuel' - 1, by omega⟩
      subst hm
      rw [paginate_succ _ _ _ _ _ n _ _ _ h, paginate_succ _ _ _ _ _ m _ _ _ h,
        paginateLog_succ _ _ _ _ _ n _ _ _ h, paginateLog_succ _ _ _ _ _ m _ _ _ h]
      obtain ⟨h1, h2⟩ := ih m
        (loopBody os cache virtualPath searchPattern entries[i] st buf).2.1 (i + 1)
        (loopBody os cache virtualPath searchPattern entries[i] st buf).2.2 (by omega) (by omega)
      rw [h1, h2]
      exact ⟨rfl, rfl⟩
    · rw [paginate_done _ _ _ _ _ _ _ _ _ h, paginate_done _ _ _ _ _ _ _ _ _ h,
        paginateLog_done _ _ _ _ _ _ _ _ _ h, paginateLog_done _ _ _ _ _ _ _ _ _ h]
      exact ⟨rfl, rfl⟩

theorem paginate_kinds (os : Win32) (cache : Option ContentCache)
    (virtualPath searchPattern : CppString) (entries : List CppString) (s0 : SyncStorage) :
    ∀ (fuel : Nat) (st : SyncStorage) (i : Nat) (buf : DirEntryBuffer), sameAnswers s0 st →
      ∀ e ∈ paginateLog os cache virtualPath searchPattern entries fuel st i buf,
      ∀ entry, entries[e.1]? = some entry →
        (e.2 = IterationKind.noMatch ↔ os.PrjFileNameMatch entry searchPattern = false) ∧
        (e.2 = IterationKind.missing ↔
          os.PrjFileNameMatch entry searchPattern = true ∧
            (entryMetadata cache s0 virtualPath entry).1.exists_ = false) ∧
        (e.2 = IterationKind.bufferFull ∨ e.2 = IterationKind.added ∨
            e.2 = IterationKind.fillFailed →
          os.PrjFileNameMatch entry searchPattern = true ∧
            (entryMetadata cache s0 virtualPath entry).1.exists_ = true) := by
  intro fuel
  induction fuel with
  | zero => intro st i buf _ e he; cases he
  | succ n ih =>
    intro st i buf hs e he entry hentry
    by_cases h : i < entries.length
    · rw [paginateLog_succ _ _ _ _ _ _ _ _ _ h] at he
      obtain ⟨k1, k2, k3, k4⟩ := loopBody_kind os cache virtualPath searchPattern entries[i] st buf
      rw [← entryMetadata_fst_congr hs] at k2 k3 k4
      have hhead : ∀ kind, (loopBody os cache virtualPath searchPattern entries[i] st buf).1 = kind →
          e = (i, kind) →
          (e.2 = IterationKind.noMatch ↔ os.PrjFileNameMatch entry searchPattern = false) ∧
          (e.2 = IterationKind.missing ↔
            os.PrjFileNameMatch entry searchPattern = true ∧
              (entryMetadata cache s0 virtualPath entry).1.exists_ = false) ∧
          (e.2 = IterationKind.bufferFull ∨ e.2 = IterationKind.added ∨
              e.2 = IterationKind.fillFailed →
            os.PrjFileNameMatch entry searchPattern = true ∧
              (entryMetadata cache s0 virtualPath entry).1.exists_ = true) := by
        intro kind hkind he'
        subst he'
        have hen : entries[i] = entry := by
          have := hentry
          simp only [List.getElem?_eq_getElem h] at this
          exact Option.some.inj this
        subst hen
        simp only
        rw [← hkind]
        refine ⟨k1, k2, ?_⟩
        intro h3
        rcases h3 with h3 | h3 | h3
        · exact ⟨(k3.mp h3).1, (k3.mp h3).2.1⟩
        · exact ⟨(k4.mp h3).1, (k4.mp h3).2.1⟩
        · cases hm : os.PrjFileNameMatch entries[i] searchPattern with
          | false => rw [k1.mpr hm] at h3; cases h3
          | true =>
            cases hx : (entryMetadata cache s0 virtualPath entries[i]).1.exists_ with
            | false => rw [k2.mpr ⟨hm, hx⟩] at h3; cases h3
            | true => exact ⟨rfl, rfl⟩
      by_cases hk : (loopBody os cache virtualPath searchPattern entries[i] st buf).1 =
          IterationKind.bufferFull
      · rw [if_pos hk, List.mem_singleton] at he
        exact hhead _ hk he
      · rw [if_neg hk, List.mem_cons] at he
        rcases he with he | he
        · exact hhead _ rfl he
        · exact ih _ (i + 1) _
            (sameAnswers_trans hs (loopBody_sameAnswers os cache virtualPath searchPattern
              entries[i] st buf)) e he entry hentry
    · rw [paginateLog_done _ _ _ _ _ _ _ _ _ h] at he
      cases he

/-! ## The iterations of one get-batch call -/

theorem sessionOf_setEnumState (p : ProjFSProvider) (T : GUID) (es : EnumerationState) :
    sessionOf T (p.setEnumState T es) = es := by
  simp [sessionOf, ProjFSProvider.setEnumState]

theorem loadFromStorage_provider (virtualPath : CppString) (l : LoadState) :
    (loadFromStorage virtualPath l).provider = l.provider := by
  unfold loadFromStorage
  split <;> rfl

theorem loadEntries_storage (js : JsProvider) (p : ProjFSProvider) (virtualPath : CppString)
    (entries : List CppString) :
    (loadEntries js p virtualPath entries).provider.storage = p.storage ∧
    (loadEntries js p virtualPath entries).provider.enumerationStates = p.enumerationStates := by
  have h1 : (loadFromCache p virtualPath entries).provider.storage = p.storage ∧
      (loadFromCache p virtualPath entries).provider.enumerationStates =
        p.enumerationStates := by
    unfold loadFromCache
    split
    · split <;> exact ⟨rfl, rfl⟩
    · exact ⟨rfl, rfl⟩
  have h2 : ∀ l : LoadState, (loadFromBridge js virtualPath l).provider.storage =
      l.provider.storage ∧
      (loadFromBridge js virtualPath l).provider.enumerationStates =
        l.provider.enumerationStates := by
    intro l
    unfold loadFromBridge
    split
    · split
      · simp only
        split <;> exact ⟨rfl, rfl⟩
      · exact ⟨rfl, rfl⟩
    · exact ⟨rfl, rfl⟩
  unfold loadEntries
  obtain ⟨a, b⟩ := h2 (loadFromStorage virtualPath (loadFromCache p virtualPath entries))
  rw [a, b, loadFromStorage_provider]
  exact h1

theorem processEntries_loopRun (os : Win32) (p : ProjFSProvider) (virtualPath : CppString)
    (T : GUID) (se : Option CppString) (es : EnumerationState) (buf : DirEntryBuffer) :
    (sessionOf T (processEntries os p virtualPath T se es buf).provider).entries = es.entries ∧
    (sessionOf T (processEntries os p virtualPath T se es buf).provider).isLoading =
      es.isLoading ∧
    (sessionOf T (processEntries os p virtualPath T se es buf).provider).callCount =
      es.callCount ∧
    (es.isComplete = true →
      (sessionOf T (processEntries os p virtualPath T se es buf).provider).isComplete = true) ∧
    (processEntries os p virtualPath T se es buf).provider.asyncBridge = p.asyncBridge ∧
    sameAnswers p.storage (processEntries os p virtualPath T se es buf).provider.storage ∧
    LoopRun es.entries es.nextIndex buf (processEntriesLog os p virtualPath se es buf)
      (sessionOf T (processEntries os p virtualPath T se es buf).provider).nextIndex
      (processEntries os p virtualPath T se es buf).buffer := by
  unfold processEntries processEntriesLog
  split
  · rw [sessionOf_setEnumState]
    exact ⟨rfl, rfl, rfl, fun _ => rfl, rfl, sameAnswers_refl _, LoopRun_nil _ _ _⟩
  · rw [sessionOf_setEnumState]
    refine ⟨rfl, rfl, rfl, fun h => h, rfl, ?_, paginate_loopRun _ _ _ _ _ _ _ _ _⟩
    exact (paginate_outcome os _ virtualPath _ es.entries p.storage _ p.storage es.nextIndex buf
      (sameAnswers_refl _) (le_refl _)).1

theorem processEntries_kinds (os : Win32) (p : ProjFSProvider) (virtualPath : CppString)
    (se : Option CppString) (es : EnumerationState) (buf : DirEntryBuffer) (s0 : SyncStorage)
    (hs : sameAnswers s0 p.storage) :
    ∀ e ∈ processEntriesLog os p virtualPath se es buf,
      ∀ entry, es.entries[e.1]? = some entry →
        (e.2 = IterationKind.noMatch ↔
          os.PrjFileNameMatch entry (se.getD "*".toList) = false) ∧
        (e.2 = IterationKind.missing ↔
          os.PrjFileNameMatch entry (se.getD "*".toList) = true ∧
            (entryMetadata (p.asyncBridge.map AsyncBridge.GetCache) s0 virtualPath
              entry).1.exists_ = false) ∧
        (e.2 = IterationKind.bufferFull ∨ e.2 = IterationKind.added ∨
            e.2 = IterationKind.fillFailed →
          os.PrjFileNameMatch entry (se.getD "*".toList) = true ∧
            (entryMetadata (p.asyncBridge.map AsyncBridge.GetCache) s0 virtualPath
              entry).1.exists_ = true) := by
  unfold processEntriesLog
  split
  · intro e he; cases he
  · exact paginate_kinds os _ virtualPath _ es.entries s0 _ p.storage es.nextIndex buf hs

theorem enumeration_loopRun (os : Win32) (js : JsProvider) (p : ProjFSProvider)
    (cd : PRJ_CALLBACK_DATA) (T : GUID) (se : Option CppString) (buf : DirEntryBuffer) :
    LoopRun (sessionOf T (GetDirectoryEnumerationCallback os js p cd T se buf).provider).entries
      (enterSession (countEnumerationCall p) cd.restartScan T).nextIndex buf
      (enumerationLog os js p cd T se buf)
      (sessionOf T (GetDirectoryEnumerationCallback os js p cd T se buf).provider).nextIndex
      (GetDirectoryEnumerationCallback os js p cd T se buf).buffer ∧
    ((enterSession (countEnumerationCall p) cd.restartScan T).entries ≠ [] →
      (sessionOf T (GetDirectoryEnumerationCallback os js p cd T se buf).provider).entries =
        (enterSession (countEnumerationCall p) cd.restartScan T).entries) ∧
    sameAnswers p.storage (GetDirectoryEnumerationCallback os js p cd T se buf).provider.storage ∧
    (∀ e ∈ enumerationLog os js p cd T se buf,
      ∀ entry,
        (sessionOf T (GetDirectoryEnumerationCallback os js p cd T se
          buf).provider).entries[e.1]? = some entry →
        (e.2 = IterationKind.noMatch ↔
          os.PrjFileNameMatch entry (se.getD "*".toList) = false) ∧
        (e.2 = IterationKind.missing ↔
          os.PrjFileNameMatch entry (se.getD "*".toList) = true ∧
            (entryMetadata
              ((GetDirectoryEnumerationCallback os js p cd T se buf).provider.asyncBridge.map
                AsyncBridge.GetCache)
              p.storage (virtualPathOf cd.FilePathName) entry).1.exists_ = false) ∧
        (e.2 = IterationKind.bufferFull ∨ e.2 = IterationKind.added ∨
            e.2 = IterationKind.fillFailed →
          os.PrjFileNameMatch entry (se.getD "*".toList) = true ∧
            (entryMetadata
              ((GetDirectoryEnumerationCallback os js p cd T se buf).provider.asyncBridge.map
                AsyncBridge.GetCache)
              p.storage (virtualPathOf cd.FilePathName) entry).1.exists_ = true)) := by
  unfold GetDirectoryEnumerationCallback enumerationLog enumerateFrom enumerateFromLog
  generalize enterSession (countEnumerationCall p) cd.restartScan T = es
  split
  · rw [sessionOf_setEnumState]
    refine ⟨LoopRun_nil _ _ _, fun _ => rfl, sameAnswers_refl _, ?_⟩
    intro e he; cases he
  · split
    · split
      · rw [sessionOf_setEnumState]
        refine ⟨LoopRun_nil _ _ _, fun _ => rfl, sameAnswers_refl _, ?_⟩
        intro e he; cases he
      · rename_i hempty _
        simp only
        obtain ⟨a1, _, _, _, a5, a6, a7⟩ := processEntries_loopRun os
          (loadEntries js (countEnumerationCall p) (virtualPathOf cd.FilePathName)
            es.entries).provider
          (virtualPathOf cd.FilePathName) T se
          { es with
            entries := (loadEntries js (countEnumerationCall p) (virtualPathOf cd.FilePathName)
              es.entries).entries,
            isLoading := false, isComplete := true } buf
        have hst := (loadEntries_storage js (countEnumerationCall p)
          (virtualPathOf cd.FilePathName) es.entries).1
        rw [hst] at a6
        refine ⟨?_, fun hne => absurd hempty.1 hne, a6, ?_⟩
        · rw [a1]; exact a7
        · rw [a1, a5]
          exact processEntries_kinds os _ _ se _ buf p.storage (by rw [hst]; exact sameAnswers_refl _)
    · obtain ⟨a1, _, _, _, a5, a6, a7⟩ := processEntries_loopRun os (countEnumerationCall p)
        (virtualPathOf cd.FilePathName) T se es buf
      refine ⟨?_, fun _ => a1, a6, ?_⟩
      · rw [a1]; exact a7
      · rw [a1, a5]
        exact processEntries_kinds os _ _ se _ buf p.storage (sameAnswers_refl _)

theorem enterSession_no_restart (p : ProjFSProvider) (T : GUID) :
    enterSession (countEnumerationCall p) false T =
      { sessionOf T p with callCount := incInt (sessionOf T p).callCount } := rfl

theorem enterSession_restart (p : ProjFSProvider) (T : GUID) :
    enterSession (countEnumerationCall p) true T = { callCount := incInt 0 } := rfl

theorem enumerationLog_head (os : Win32) (js : JsProvider) (p : ProjFSProvider)
    (cd : PRJ_CALLBACK_DATA) (T : GUID) (se : Option CppString) (buf : DirEntryBuffer)
    (hr : cd.restartScan = false)
    (hcap : ¬ incInt (sessionOf T p).callCount > MAX_CALLS_PER_ENUM)
    (hi : (sessionOf T p).nextIndex < (sessionOf T p).entries.length) :
    ∃ kind, (enumerationLog os js p cd T se buf).head? = some ((sessionOf T p).nextIndex, kind) := by
  unfold enumerationLog enumerateFromLog
  rw [hr, enterSession_no_restart]
  simp only
  rw [if_neg hcap]
  have hne : (sessionOf T p).entries ≠ [] := by
    intro h0
    rw [h0] at hi
    exact absurd hi (Nat.not_lt_zero _)
  rw [if_neg (fun h => hne h.1)]
  unfold processEntriesLog
  simp only
  rw [if_neg (by omega)]
  obtain ⟨m, hm⟩ : ∃ m, (sessionOf T p).entries.length - (sessionOf T p).nextIndex = m + 1 :=
    ⟨(sessionOf T p).entries.length - (sessionOf T p).nextIndex - 1, by omega⟩
  rw [hm, paginateLog_succ _ _ _ _ _ _ _ _ _ hi]
  split
  · exact ⟨_, rfl⟩
  · exact ⟨_, rfl⟩

theorem nextIndex_le_of_no_restart (os : Win32) (js : JsProvider) (p : ProjFSProvider)
    (cd : PRJ_CALLBACK_DATA) (T : GUID) (se : Option CppString) (buf : DirEntryBuffer)
    (hr : cd.restartScan = false) :
    (sessionOf T p).nextIndex ≤
      (sessionOf T (GetDirectoryEnumerationCallback os js p cd T se buf).provider).nextIndex := by
  have h := (enumeration_loopRun os js p cd T se buf).1.1
  rw [hr, enterSession_no_restart] at h
  exact h

theorem runCalls_nextIndex_le (os : Win32) (js : JsProvider) (T : GUID) :
    ∀ (calls : List EnumCall) (p : ProjFSProvider),
      (∀ c ∈ calls, c.callbackData.restartScan = false) →
      (sessionOf T p).nextIndex ≤ (sessionOf T (runCalls os js T p calls)).nextIndex := by
  intro calls
  induction calls with
  | nil => intro p _; exact le_refl _
  | cons c cs ih =>
    intro p h
    unfold runCalls
    exact le_trans
      (nextIndex_le_of_no_restart os js p c.callbackData T c.searchExpression
        c.dirEntryBufferHandle (h c (List.mem_cons_self _ _)))
      (ih _ (fun d hd => h d (List.mem_cons_of_mem _ hd)))

theorem capped_next_call (os : Win32) (js : JsProvider) (p : ProjFSProvider)
    (cd : PRJ_CALLBACK_DATA) (T : GUID) (se : Option CppString) (buf : DirEntryBuffer)
    (hr : cd.restartScan = false)
    (hcap : incInt (sessionOf T p).callCount > MAX_CALLS_PER_ENUM) :
    enumerationLog os js p cd T se buf = [] ∧
    (GetDirectoryEnumerationCallback os js p cd T se buf).buffer = buf ∧
    (sessionOf T (GetDirectoryEnumerationCallback os js p cd T se buf).provider).nextIndex =
      (sessionOf T p).nextIndex := by
  unfold enumerationLog enumerateFromLog GetDirectoryEnumerationCallback enumerateFrom
  rw [hr, enterSession_no_restart]
  simp only
  rw [if_pos hcap, if_pos hcap, sessionOf_setEnumState]
  exact ⟨rfl, rfl, rfl⟩

/-- C21 (as amended): when, in a get-batch call, the output buffer reports full for the
entry at index `i`, the call ends with `nextIndex = i`, which is an index of the listing;
every entry that the call added to the buffer has an index below `i`, and the buffer holds
what it held plus the added entries. The next get-batch call without the restart-scan flag
works on the same entries and starts its loop with the entry at index `i`, unless it is cut
off by the call cap; a call that is cut off by the cap runs no iteration, writes nothing and
leaves `nextIndex` at `i`. -/
theorem C21_buffer_full_keeps_index (os : Win32) (js : JsProvider) (provider : ProjFSProvider)
    (callbackData : PRJ_CALLBACK_DATA) (enumerationId : GUID)
    (searchExpression : Option CppString) (buf : DirEntryBuffer) (i : Nat)
    (hfull : (i, IterationKind.bufferFull) ∈
      enumerationLog os js provider callbackData enumerationId searchExpression buf) :
    (sessionOf enumerationId (GetDirectoryEnumerationCallback os js provider callbackData
      enumerationId searchExpression buf).provider).nextIndex = i ∧
    i < (sessionOf enumerationId (GetDirectoryEnumerationCallback os js provider callbackData
      enumerationId searchExpression buf).provider).entries.length ∧
    (∀ j, (j, IterationKind.added) ∈
        enumerationLog os js provider callbackData enumerationId searchExpression buf → j < i) ∧
    (GetDirectoryEnumerationCallback os js provider callbackData enumerationId
        searchExpression buf).buffer.written.map Prod.fst =
      buf.written.map Prod.fst ++
        addedEntries
          (sessionOf enumerationId (GetDirectoryEnumerationCallback os js provider callbackData
            enumerationId searchExpression buf).provider).entries
          (enumerationLog os js provider callbackData enumerationId searchExpression buf) ∧
    (∀ (next : EnumCall), next.callbackData.restartScan = false →
      ¬ incInt (sessionOf enumerationId (GetDirectoryEnumerationCallback os js provider
          callbackData enumerationId searchExpression buf).provider).callCount >
        MAX_CALLS_PER_ENUM →
      (∃ kind,
        (enumerationLog os js
          (GetDirectoryEnumerationCallback os js provider callbackData enumerationId
            searchExpression buf).provider
          next.callbackData enumerationId next.searchExpression
          next.dirEntryBufferHandle).head? = some (i, kind)) ∧
      (sessionOf enumerationId
        (GetDirectoryEnumerationCallback os js
          (GetDirectoryEnumerationCallback os js provider callbackData enumerationId
            searchExpression buf).provider
          next.callbackData enumerationId next.searchExpression
          next.dirEntryBufferHandle).provider).entries =
        (sessionOf enumerationId (GetDirectoryEnumerationCallback os js provider callbackData
          enumerationId searchExpression buf).provider).entries) ∧
    (∀ (next : EnumCall), next.callbackData.restartScan = false →
      incInt (sessionOf enumerationId (GetDirectoryEnumerationCallback os js provider
          callbackData enumerationId searchExpression buf).provider).callCount >
        MAX_CALLS_PER_ENUM →
      enumerationLog os js
        (GetDirectoryEnumerationCallback os js provider callbackData enumerationId
          searchExpression buf).provider
        next.callbackData enumerationId next.searchExpression next.dirEntryBufferHandle = [] ∧
      (GetDirectoryEnumerationCallback os js
        (GetDirectoryEnumerationCallback os js provider callbackData enumerationId
          searchExpression buf).provider
        next.callbackData enumerationId next.searchExpression
        next.dirEntryBufferHandle).buffer = next.dirEntryBufferHandle ∧
      (sessionOf enumerationId
        (GetDirectoryEnumerationCallback os js
          (GetDirectoryEnumerationCallback os js provider callbackData enumerationId
            searchExpression buf).provider
          next.callbackData enumerationId next.searchExpression
          next.dirEntryBufferHandle).provider).nextIndex = i) := by
  obtain ⟨hrun, _, _, _⟩ :=
    enumeration_loopRun os js provider callbackData enumerationId searchExpression buf
  obtain ⟨_, h2, _, _, h5, _⟩ := hrun
  obtain ⟨_, c2, c3, _⟩ := h2 _ hfull
  have hidx := (c3 rfl).1
  simp only at hidx c2
  refine ⟨hidx, c2, ?_, h5, ?_, ?_⟩
  rotate_left 2
  · intro next hnr hcap
    have hc := capped_next_call os js
      (GetDirectoryEnumerationCallback os js provider callbackData enumerationId
        searchExpression buf).provider
      next.callbackData enumerationId next.searchExpression next.dirEntryBufferHandle hnr hcap
    rw [hidx] at hc
    exact hc
  · intro j hj
    have := (h2 _ hj).2.2.2 (fun h => IterationKind.noConfusion h)
    simp only at this
    omega
  · intro next hnr hcap
    have hlt : (sessionOf enumerationId (GetDirectoryEnumerationCallback os js provider
        callbackData enumerationId searchExpression buf).provider).nextIndex <
        (sessionOf enumerationId (GetDirectoryEnumerationCallback os js provider callbackData
          enumerationId searchExpression buf).provider).entries.length := by
      rw [hidx]; exact c2
    constructor
    · have := enumerationLog_head os js _ next.callbackData enumerationId next.searchExpression
        next.dirEntryBufferHandle hnr hcap hlt
      rw [hidx] at this
      exact this
    · have h := (enumeration_loopRun os js
        (GetDirectoryEnumerationCallback os js provider callbackData enumerationId
          searchExpression buf).provider
        next.callbackData enumerationId next.searchExpression next.dirEntryBufferHandle).2.1
      rw [hnr, enterSession_no_restart] at h
      apply h
      intro h0
      simp only at h0
      rw [h0] at hlt
      exact absurd hlt (Nat.not_lt_zero _)

theorem C21_buffer_full_keeps_index_witness :
    (sessionOf 3 (GetDirectoryEnumerationCallback os0 js0 startedT (requestFor "t") 3 none
      { capacity := 2, written := [] }).provider).nextIndex = 2 ∧
    (GetDirectoryEnumerationCallback os0 js0 startedT (requestFor "t") 3 none
      { capacity := 2, written := [] }).buffer.written.map Prod.fst =
      ["a".toList, "b".toList] :=
  ⟨(C21_buffer_full_keeps_index os0 js0 startedT (requestFor "t") 3 none
      { capacity := 2, written := [] } 2 (by decide)).1, by decide⟩

set_option maxRecDepth 100000 in
/-- C21 fails as stated: on the session for `/t`, whose listing is `[a, b, c]`, a hundred
get-batch calls with a buffer that has no room each find the buffer full for the entry at
index 0 and leave `nextIndex` at 0; the next call, the 101st, has room for ten entries and
no restart-scan flag, but it is cut off by the call cap: it runs no iteration and returns
no entry. -/
theorem C21_counterexample :
    enumerationLog os0 js0 (runCalls os0 js0 3 startedT (List.replicate 99 callFull))
      callFull.callbackData 3 none { capacity := 0, written := [] } =
      [(0, IterationKind.bufferFull)] ∧
    (sessionOf 3 (runCalls os0 js0 3 startedT (List.replicate 100 callFull))).nextIndex = 0 ∧
    (sessionOf 3 (runCalls os0 js0 3 startedT (List.replicate 100 callFull))).entries =
      ["a".toList, "b".toList, "c".toList] ∧
    enumerationLog os0 js0 (runCalls os0 js0 3 startedT (List.replicate 100 callFull))
      (requestFor "t") 3 none { capacity := 10, written := [] } = [] ∧
    (GetDirectoryEnumerationCallback os0 js0
      (runCalls os0 js0 3 startedT (List.replicate 100 callFull))
      (requestFor "t") 3 none { capacity := 10, written := [] }).buffer.written = [] := by
  refine ⟨by rfl, by rfl, by rfl, by rfl, by rfl⟩

/-- C23: a get-batch call without the restart-scan flag leaves `nextIndex` at least as
large as it was, and so does every sequence of such calls; a call after which `nextIndex`
is smaller carries the restart-scan flag, and the session state on which such a call
proceeds has no entries, `nextIndex` zero, and `isComplete` and `isLoading` false. -/
theorem C23_next_index_monotone (os : Win32) (js : JsProvider) (provider : ProjFSProvider)
    (callbackData : PRJ_CALLBACK_DATA) (enumerationId : GUID)
    (searchExpression : Option CppString) (buf : DirEntryBuffer) (calls : List EnumCall) :
    (callbackData.restartScan = false →
      (sessionOf enumerationId provider).nextIndex ≤
        (sessionOf enumerationId (GetDirectoryEnumerationCallback os js provider callbackData
          enumerationId searchExpression buf).provider).nextIndex) ∧
    ((∀ c ∈ calls, c.callbackData.restartScan = false) →
      (sessionOf enumerationId provider).nextIndex ≤
        (sessionOf enumerationId (runCalls os js enumerationId provider calls)).nextIndex) ∧
    ((sessionOf enumerationId (GetDirectoryEnumerationCallback os js provider callbackData
        enumerationId searchExpression buf).provider).nextIndex <
        (sessionOf enumerationId provider).nextIndex →
      callbackData.restartScan = true) ∧
    (callbackData.restartScan = true →
      (enterSession (countEnumerationCall provider) callbackData.restartScan
        enumerationId).entries = [] ∧
      (enterSession (countEnumerationCall provider) callbackData.restartScan
        enumerationId).nextIndex = 0 ∧
      (enterSession (countEnumerationCall provider) callbackData.restartScan
        enumerationId).isComplete = false ∧
      (enterSession (countEnumerationCall provider) callbackData.restartScan
        enumerationId).isLoading = false) := by
  refine ⟨nextIndex_le_of_no_restart os js provider callbackData enumerationId searchExpression
    buf, runCalls_nextIndex_le os js enumerationId calls provider, ?_, ?_⟩
  · intro hlt
    cases hr : callbackData.restartScan with
    | true => rfl
    | false =>
      have := nextIndex_le_of_no_restart os js provider callbackData enumerationId
        searchExpression buf hr
      omega
  · intro hr
    rw [hr, enterSession_restart]
    exact ⟨rfl, rfl, rfl, rfl⟩

theorem C23_next_index_monotone_witness :
    (sessionOf 3 startedT).nextIndex ≤
      (sessionOf 3 (GetDirectoryEnumerationCallback os0 js0 startedT (requestFor "t") 3 none
        { capacity := 2, written := [] }).provider).nextIndex ∧
    (sessionOf 3 (GetDirectoryEnumerationCallback os0 js0 startedT (requestFor "t") 3 none
      { capacity := 2, written := [] }).provider).nextIndex = 2 :=
  ⟨(C23_next_index_monotone os0 js0 startedT (requestFor "t") 3 none
      { capacity := 2, written := [] } []).1 rfl, by decide⟩

/-- C25: when the loop of a get-batch call reaches an entry at index `i` that matches the
name pattern and whose metadata resolves as not existing (no cached `FileInfo` and no
existing storage metadata for `virtualPath + "/" + entry`), the iteration is a skip: the
entry is not among the entries added to the buffer, the call ends with
`nextIndex ≥ i + 1`, and in every later get-batch call of the session that follows without
a restart-scan flag in between, the loop only reads indices above `i`. -/
theorem C25_missing_entry_skipped (os : Win32) (js : JsProvider) (provider : ProjFSProvider)
    (callbackData : PRJ_CALLBACK_DATA) (enumerationId : GUID)
    (searchExpression : Option CppString) (buf : DirEntryBuffer) (i : Nat)
    (kind : IterationKind) (entry : CppString)
    (hreach : (i, kind) ∈
      enumerationLog os js provider callbackData enumerationId searchExpression buf)
    (hentry : (sessionOf enumerationId (GetDirectoryEnumerationCallback os js provider
      callbackData enumerationId searchExpression buf).provider).entries[i]? = some entry)
    (hmatch : os.PrjFileNameMatch entry (searchExpression.getD "*".toList) = true)
    (hmissing : (entryMetadata
      ((GetDirectoryEnumerationCallback os js provider callbackData enumerationId
        searchExpression buf).provider.asyncBridge.map AsyncBridge.GetCache)
      provider.storage (virtualPathOf callbackData.FilePathName) entry).1.exists_ = false) :
    kind = IterationKind.missing ∧
    (i, IterationKind.added) ∉
      enumerationLog os js provider callbackData enumerationId searchExpression buf ∧
    (GetDirectoryEnumerationCallback os js provider callbackData enumerationId
        searchExpression buf).buffer.written.map Prod.fst =
      buf.written.map Prod.fst ++
        addedEntries
          (sessionOf enumerationId (GetDirectoryEnumerationCallback os js provider callbackData
            enumerationId searchExpression buf).provider).entries
          (enumerationLog os js provider callbackData enumerationId searchExpression buf) ∧
    i + 1 ≤ (sessionOf enumerationId (GetDirectoryEnumerationCallback os js provider
      callbackData enumerationId searchExpression buf).provider).nextIndex ∧
    (∀ (calls : List EnumCall) (later : EnumCall),
      (∀ c ∈ calls, c.callbackData.restartScan = false) →
      later.callbackData.restartScan = false →
      ∀ e ∈ enumerationLog os js
          (runCalls os js enumerationId
            (GetDirectoryEnumerationCallback os js provider callbackData enumerationId
              searchExpression buf).provider calls)
          later.callbackData enumerationId later.searchExpression later.dirEntryBufferHandle,
        i < e.1) := by
  obtain ⟨hrun, _, _, hkinds⟩ :=
    enumeration_loopRun os js provider callbackData enumerationId searchExpression buf
  have hk : kind = IterationKind.missing :=
    ((hkinds _ hreach entry hentry).2.1).mpr ⟨hmatch, hmissing⟩
  subst hk
  have hlt : i < (sessionOf enumerationId (GetDirectoryEnumerationCallback os js provider
      callbackData enumerationId searchExpression buf).provider).nextIndex :=
    (hrun.2.1 _ hreach).2.2.2 (fun h => IterationKind.noConfusion h)
  refine ⟨rfl, ?_, hrun.2.2.2.2.1, hlt, ?_⟩
  · intro hadd
    exact IterationKind.noConfusion (LoopRun_unique hrun i _ _ hreach hadd)
  · intro calls later hcalls hlater e he
    have h1 := runCalls_nextIndex_le os js enumerationId calls
      (GetDirectoryEnumerationCallback os js provider callbackData enumerationId
        searchExpression buf).provider hcalls
    have h2 := ((enumeration_loopRun os js _ later.callbackData enumerationId
      later.searchExpression later.dirEntryBufferHandle).1.2.1 e he).1
    rw [hlater, enterSession_no_restart] at h2
    simp only at h2
    omega

theorem C25_missing_entry_skipped_witness :
    (GetDirectoryEnumerationCallback os0 js0 startedE (requestFor "e") 5 none
      { capacity := 1, written := [] }).buffer.written.map Prod.fst = [] ∧
    1 ≤ (sessionOf 5 (GetDirectoryEnumerationCallback os0 js0 startedE (requestFor "e") 5 none
      { capacity := 1, written := [] }).provider).nextIndex :=
  ⟨by decide,
    (C25_missing_entry_skipped os0 js0 startedE (requestFor "e") 5 none
      { capacity := 1, written := [] } 0 IterationKind.missing "x".toList (by decide)
      (by decide) rfl (by decide)).2.2.2.1⟩

theorem paginate_final (os : Win32) (cache : Option ContentCache)
    (virtualPath searchPattern : CppString) (entries : List CppString) :
    ∀ (fuel : Nat) (st : SyncStorage) (i : Nat) (buf : DirEntryBuffer),
      (paginate os cache virtualPath searchPattern entries fuel st i buf).2.1 =
        i + ((paginateLog os cache virtualPath searchPattern entries fuel st i buf).filter
          (fun e => decide (e.2 ≠ IterationKind.bufferFull))).length := by
  intro fuel
  induction fuel with
  | zero => intro st i buf; rfl
  | succ n ih =>
    intro st i buf
    by_cases h : i < entries.length
    · rw [paginate_succ _ _ _ _ _ _ _ _ _ h, paginateLog_succ _ _ _ _ _ _ _ _ _ h]
      by_cases hk : (loopBody os cache virtualPath searchPattern entries[i] st buf).1 =
          IterationKind.bufferFull
      · rw [if_pos hk, if_pos hk]
        simp
      · rw [if_neg hk, if_neg hk, ih]
        simp [List.filter_cons, hk]
        omega
    · rw [paginate_done _ _ _ _ _ _ _ _ _ h, paginateLog_done _ _ _ _ _ _ _ _ _ h]
      simp

/-- C28: the pagination loop terminates. With the bound `entries.length - nextIndex` that
the callback gives it, or any larger one, the loop yields the same result and the same
iterations; it performs at most `entries.length - nextIndex` iterations, the breaking one
included; the iterations read the consecutive indices from `nextIndex` on, each below
`entries.length`; an iteration that finds the buffer full is the last one, and every other
iteration increments `nextIndex` by one, so the final index is the initial one plus the
number of iterations that did not break; and the loop ends because the index has reached
`entries.length` or because the last iteration broke off at the final index. -/
theorem C28_pagination_terminates (os : Win32) (cache : Option ContentCache)
    (virtualPath searchPattern : CppString) (entries : List CppString) (fuel : Nat)
    (storage : SyncStorage) (nextIndex : Nat) (buf : DirEntryBuffer)
    (hfuel : entries.length - nextIndex ≤ fuel) :
    paginate os cache virtualPath searchPattern entries fuel storage nextIndex buf =
      paginate os cache virtualPath searchPattern entries (entries.length - nextIndex) storage
        nextIndex buf ∧
    paginateLog os cache virtualPath searchPattern entries fuel storage nextIndex buf =
      paginateLog os cache virtualPath searchPattern entries (entries.length - nextIndex)
        storage nextIndex buf ∧
    (paginateLog os cache virtualPath searchPattern entries fuel storage nextIndex buf).length ≤
      entries.length - nextIndex ∧
    (paginateLog os cache virtualPath searchPattern entries fuel storage nextIndex buf).map
        Prod.fst =
      List.range' nextIndex
        (paginateLog os cache virtualPath searchPattern entries fuel storage nextIndex
          buf).length ∧
    (∀ e ∈ paginateLog os cache virtualPath searchPattern entries fuel storage nextIndex buf,
      e.1 < entries.length ∧
      (e.2 = IterationKind.bufferFull →
        (paginateLog os cache virtualPath searchPattern entries fuel storage nextIndex
          buf).getLast? = some e)) ∧
    (paginate os cache virtualPath searchPattern entries fuel storage nextIndex buf).2.1 =
      nextIndex +
        ((paginateLog os cache virtualPath searchPattern entries fuel storage nextIndex
          buf).filter (fun e => decide (e.2 ≠ IterationKind.bufferFull))).length ∧
    (entries.length ≤
        (paginate os cache virtualPath searchPattern entries fuel storage nextIndex buf).2.1 ∨
      (paginateLog os cache virtualPath searchPattern entries fuel storage nextIndex
        buf).getLast? =
        some ((paginate os cache virtualPath searchPattern entries fuel storage nextIndex
          buf).2.1, IterationKind.bufferFull)) := by
  obtain ⟨f1, f2⟩ := paginate_fuel os cache virtualPath searchPattern entries fuel
    (entries.length - nextIndex) storage nextIndex buf hfuel (le_refl _)
  obtain ⟨_, a2, a3, _, a5, _, _⟩ :=
    paginate_log os cache virtualPath searchPattern entries fuel storage nextIndex buf
  exact ⟨f1, f2, a5, a3, fun e he => ⟨(a2 e he).2.1, fun hf => ((a2 e he).2.2.1 hf).2⟩,
    paginate_final os cache virtualPath searchPattern entries fuel storage nextIndex buf,
    paginate_exit os cache virtualPath searchPattern entries fuel storage nextIndex buf hfuel⟩

theorem C28_pagination_terminates_witness :
    (paginateLog os0 (some cacheT) "/t".toList "*".toList
      ["a".toList, "b".toList, "c".toList] 7 (SyncStorage.fresh []) 0
      { capacity := 2, written := [] }).length ≤ 3 - 0 ∧
    paginateLog os0 (some cacheT) "/t".toList "*".toList
      ["a".toList, "b".toList, "c".toList] 7 (SyncStorage.fresh []) 0
      { capacity := 2, written := [] } =
      [(0, IterationKind.added), (1, IterationKind.added), (2, IterationKind.bufferFull)] :=
  ⟨(C28_pagination_terminates os0 (some cacheT) "/t".toList "*".toList
      ["a".toList, "b".toList, "c".toList] 7 (SyncStorage.fresh []) 0
      { capacity := 2, written := [] } (by decide)).2.2.1, by decide⟩

/-! ## The restart-scan flag and the state of a new session -/

/-- C22: for every session state, the state on which a get-batch call with the
restart-scan flag proceeds has no entries, `nextIndex` 0, `isComplete` and `isLoading`
false, and `callCount` 1, which is the reset value 0 after the increment that follows the
reset; it is the state on which the first call proceeds after
`StartDirectoryEnumerationCallback`, which stores the state with no entries, `nextIndex` 0,
`callCount` 0 and both flags false, and the five assignments of the reset turn every state
into that stored state. -/
theorem C22_restart_equals_created (provider other : ProjFSProvider)
    (callbackData : PRJ_CALLBACK_DATA) (enumerationId : GUID) (s : EnumerationState) :
    enterSession (countEnumerationCall provider) true enumerationId =
      { entries := [], nextIndex := 0, callCount := 1, isComplete := false,
        isLoading := false } ∧
    (StartDirectoryEnumerationCallback other callbackData enumerationId).2.enumerationStates
        enumerationId =
      some { entries := [], nextIndex := 0, callCount := 0, isComplete := false,
             isLoading := false } ∧
    enterSession (countEnumerationCall provider) true enumerationId =
      enterSession
        (countEnumerationCall
          (StartDirectoryEnumerationCallback other callbackData enumerationId).2)
        false enumerationId ∧
    ({ s with nextIndex := 0, callCount := 0, entries := [], isComplete := false,
               isLoading := false } : EnumerationState) = {} ∧
    enterState true s = enterState false {} := by
  have hstart : (StartDirectoryEnumerationCallback other callbackData
      enumerationId).2.enumerationStates enumerationId = some {} := by
    unfold StartDirectoryEnumerationCallback
    simp
  refine ⟨rfl, hstart, ?_, rfl, rfl⟩
  rw [enterSession_restart, enterSession_no_restart]
  unfold sessionOf
  rw [hstart]

/-! ## One fetch per session -/

theorem performsFetch_eq (p : ProjFSProvider) (cd : PRJ_CALLBACK_DATA) (T : GUID) :
    performsFetch p cd T = true ↔
      ¬ (enterSession (countEnumerationCall p) cd.restartScan T).callCount >
          MAX_CALLS_PER_ENUM ∧
        ((enterSession (countEnumerationCall p) cd.restartScan T).entries = [] ∧
          (enterSession (countEnumerationCall p) cd.restartScan T).isComplete = false) ∧
        (enterSession (countEnumerationCall p) cd.restartScan T).isLoading = false := by
  unfold performsFetch
  simp only [decide_eq_true_eq]

theorem call_without_fetch (os : Win32) (js : JsProvider) (p : ProjFSProvider)
    (cd : PRJ_CALLBACK_DATA) (T : GUID) (se : Option CppString) (buf : DirEntryBuffer)
    (h : performsFetch p cd T = false) :
    (GetDirectoryEnumerationCallback os js p cd T se buf).provider.asyncBridge =
      p.asyncBridge := by
  have hn : ¬ (performsFetch p cd T = true) := by rw [h]; decide
  rw [performsFetch_eq] at hn
  unfold GetDirectoryEnumerationCallback enumerateFrom
  split
  · rfl
  · rename_i hcap
    split
    · rename_i hempty
      split
      · rfl
      · rename_i hl
        exact absurd ⟨hcap, hempty, by simpa using hl⟩ hn
    · exact (processEntries_loopRun os _ _ T se _ buf).2.2.2.2.1

theorem call_with_fetch (os : Win32) (js : JsProvider) (p : ProjFSProvider)
    (cd : PRJ_CALLBACK_DATA) (T : GUID) (se : Option CppString) (buf : DirEntryBuffer)
    (h : performsFetch p cd T = true) :
    GetDirectoryEnumerationCallback os js p cd T se buf =
      processEntries os
        (loadEntries js (countEnumerationCall p) (virtualPathOf cd.FilePathName) []).provider
        (virtualPathOf cd.FilePathName) T se
        { enterSession (countEnumerationCall p) cd.restartScan T with
          entries := (loadEntries js (countEnumerationCall p) (virtualPathOf cd.FilePathName)
            []).entries,
          isLoading := false, isComplete := true } buf ∧
    (sessionOf T (GetDirectoryEnumerationCallback os js p cd T se buf).provider).isComplete =
      true := by
  rw [performsFetch_eq] at h
  obtain ⟨h1, h2, h3⟩ := h
  have heq : GetDirectoryEnumerationCallback os js p cd T se buf =
      processEntries os
        (loadEntries js (countEnumerationCall p) (virtualPathOf cd.FilePathName) []).provider
        (virtualPathOf cd.FilePathName) T se
        { enterSession (countEnumerationCall p) cd.restartScan T with
          entries := (loadEntries js (countEnumerationCall p) (virtualPathOf cd.FilePathName)
            []).entries,
          isLoading := false, isComplete := true } buf := by
    unfold GetDirectoryEnumerationCallback enumerateFrom
    rw [if_neg h1, if_pos h2, h3, h2.1]
    simp
  refine ⟨heq, ?_⟩
  rw [heq]
  exact (processEntries_loopRun os _ _ T se _ buf).2.2.2.1 rfl

theorem complete_stays (os : Win32) (js : JsProvider) (p : ProjFSProvider)
    (cd : PRJ_CALLBACK_DATA) (T : GUID) (se : Option CppString) (buf : DirEntryBuffer)
    (hr : cd.restartScan = false) (hc : (sessionOf T p).isComplete = true) :
    performsFetch p cd T = false ∧
    (sessionOf T (GetDirectoryEnumerationCallback os js p cd T se buf).provider).isComplete =
      true := by
  have hes : (enterSession (countEnumerationCall p) cd.restartScan T).isComplete = true := by
    rw [hr, enterSession_no_restart]; exact hc
  constructor
  · cases hf : performsFetch p cd T with
    | false => rfl
    | true =>
      rw [performsFetch_eq] at hf
      rw [hes] at hf
      exact absurd hf.2.1.2 (by decide)
  · unfold GetDirectoryEnumerationCallback enumerateFrom
    split
    · rw [sessionOf_setEnumState]; exact hes
    · split
      · rename_i hempty
        rw [hes] at hempty
        exact absurd hempty.2 (by decide)
      · exact (processEntries_loopRun os _ _ T se _ buf).2.2.2.1 hes

theorem fetchCount_complete (os : Win32) (js : JsProvider) (T : GUID) :
    ∀ (calls : List EnumCall) (p : ProjFSProvider),
      (∀ c ∈ calls, c.callbackData.restartScan = false) →
      (sessionOf T p).isComplete = true →
      fetchCount os js T p calls = 0 ∧
        (runCalls os js T p calls).asyncBridge = p.asyncBridge := by
  intro calls
  induction calls with
  | nil => intro p _ _; exact ⟨rfl, rfl⟩
  | cons c cs ih =>
    intro p h hc
    obtain ⟨h1, h2⟩ := complete_stays os js p c.callbackData T c.searchExpression
      c.dirEntryBufferHandle (h c (List.mem_cons_self _ _)) hc
    obtain ⟨i1, i2⟩ := ih _ (fun d hd => h d (List.mem_cons_of_mem _ hd)) h2
    unfold fetchCount runCalls
    rw [h1, i1, i2]
    exact ⟨rfl, call_without_fetch os js p c.callbackData T c.searchExpression
      c.dirEntryBufferHandle h1⟩

theorem fetchCount_le_one (os : Win32) (js : JsProvider) (T : GUID) :
    ∀ (calls : List EnumCall) (p : ProjFSProvider),
      (∀ c ∈ calls, c.callbackData.restartScan = false) → fetchCount os js T p calls ≤ 1 := by
  intro calls
  induction calls with
  | nil => intro p _; exact Nat.zero_le _
  | cons c cs ih =>
    intro p h
    unfold fetchCount
    cases hf : performsFetch p c.callbackData T with
    | false =>
      simpa using ih _ (fun d hd => h d (List.mem_cons_of_mem _ hd))
    | true =>
      have hc := (call_with_fetch os js p c.callbackData T c.searchExpression
        c.dirEntryBufferHandle hf).2
      rw [(fetchCount_complete os js T cs _ (fun d hd => h d (List.mem_cons_of_mem _ hd)) hc).1]
      simp

/-- C24: in a sequence of get-batch calls on one session without the restart-scan flag,
at most one call reaches the loading step; after a call that has gone through the loading
step, whatever entries it produced, `isComplete` is true, no later call of such a sequence
reaches the loading step, and the bridge with its cache and its posted fetch requests stays
as that call left it; a call that does not reach the loading step leaves the bridge
untouched. -/
theorem C24_single_fetch (os : Win32) (js : JsProvider) (enumerationId : GUID)
    (provider : ProjFSProvider) (calls : List EnumCall)
    (hcalls : ∀ c ∈ calls, c.callbackData.restartScan = false) :
    fetchCount os js enumerationId provider calls ≤ 1 ∧
    (∀ (first : EnumCall),
      performsFetch provider first.callbackData enumerationId = true →
      (sessionOf enumerationId
        (GetDirectoryEnumerationCallback os js provider first.callbackData enumerationId
          first.searchExpression first.dirEntryBufferHandle).provider).isComplete = true ∧
      fetchCount os js enumerationId
        (GetDirectoryEnumerationCallback os js provider first.callbackData enumerationId
          first.searchExpression first.dirEntryBufferHandle).provider calls = 0 ∧
      (runCalls os js enumerationId
        (GetDirectoryEnumerationCallback os js provider first.callbackData enumerationId
          first.searchExpression first.dirEntryBufferHandle).provider calls).asyncBridge =
        (GetDirectoryEnumerationCallback os js provider first.callbackData enumerationId
          first.searchExpression first.dirEntryBufferHandle).provider.asyncBridge) ∧
    (∀ (c : EnumCall), performsFetch provider c.callbackData enumerationId = false →
      (GetDirectoryEnumerationCallback os js provider c.callbackData enumerationId
        c.searchExpression c.dirEntryBufferHandle).provider.asyncBridge =
        provider.asyncBridge) := by
  refine ⟨fetchCount_le_one os js enumerationId calls provider hcalls, ?_, ?_⟩
  · intro first hf
    have hc := (call_with_fetch os js provider first.callbackData enumerationId
      first.searchExpression first.dirEntryBufferHandle hf).2
    exact ⟨hc, fetchCount_complete os js enumerationId calls _ hcalls hc⟩
  · intro c hf
    exact call_without_fetch os js provider c.callbackData enumerationId c.searchExpression
      c.dirEntryBufferHandle hf

theorem C24_single_fetch_witness :
    fetchCount os0 js0 1 startedFoo [callFoo, callFoo, callFoo] ≤ 1 ∧
    performsFetch startedFoo callFoo.callbackData 1 = true ∧
    (sessionOf 1 (runCalls os0 js0 1 startedFoo [callFoo])).entries = [] ∧
    fetchCount os0 js0 1 (runCalls os0 js0 1 startedFoo [callFoo]) [callFoo, callFoo] = 0 :=
  ⟨(C24_single_fetch os0 js0 1 startedFoo [callFoo, callFoo, callFoo]
      (by decide)).1, by decide, by decide, by decide⟩

/-! ## The basic-info record -/

/-- C26: `CreateFileBasicInfo(m)` has `IsDirectory = m.isDirectory`; for a directory it has
the directory attribute and `FileSize` 0 whatever `m.size` is, otherwise the normal-file
attribute and `FileSize = m.size`; and its four timestamps are equal, namely the system
time read. -/
theorem C26_basic_info (m : ObjectMetadata) (ft : Nat) :
    (CreateFileBasicInfo m ft).IsDirectory = m.isDirectory ∧
    (m.isDirectory = true →
      (CreateFileBasicInfo m ft).FileAttributes = FILE_ATTRIBUTE_DIRECTORY ∧
      (CreateFileBasicInfo m ft).FileSize = 0) ∧
    (m.isDirectory = false →
      (CreateFileBasicInfo m ft).FileAttributes = FILE_ATTRIBUTE_NORMAL ∧
      (CreateFileBasicInfo m ft).FileSize = m.size) ∧
    (CreateFileBasicInfo m ft).CreationTime = ft ∧
    (CreateFileBasicInfo m ft).LastWriteTime = (CreateFileBasicInfo m ft).CreationTime ∧
    (CreateFileBasicInfo m ft).LastAccessTime = (CreateFileBasicInfo m ft).CreationTime ∧
    (CreateFileBasicInfo m ft).ChangeTime = (CreateFileBasicInfo m ft).CreationTime := by
  unfold CreateFileBasicInfo
  cases hd : m.isDirectory <;> simp

theorem C26_basic_info_witness :
    (CreateFileBasicInfo
      { exists_ := true, isDirectory := true, size := 7, type := "DIRECTORY".toList }
      5).FileAttributes = FILE_ATTRIBUTE_DIRECTORY ∧
    (CreateFileBasicInfo
      { exists_ := true, isDirectory := true, size := 7, type := "DIRECTORY".toList }
      5).FileSize = 0 :=
  (C26_basic_info
    { exists_ := true, isDirectory := true, size := 7, type := "DIRECTORY".toList } 5).2.1 rfl

/-! ## The keys of `SetCachedDirectory` and of the enumeration -/

theorem cachedEntryPath_plain (path name : CppString) (h : path.getLast? ≠ some '/') :
    cachedEntryPath path name = path ++ "/".toList ++ name := by
  unfold cachedEntryPath
  simp only
  rw [if_pos h]
  rfl

theorem cachedEntryPath_trailing_slash (dir name : CppString) :
    cachedEntryPath (dir ++ "/".toList) name = dir ++ "/".toList ++ name := by
  unfold cachedEntryPath
  simp

/-- C27, the code at the failing input: after `setCachedDirectory("/", [readme.txt])` the
cache holds the `FileInfo` of the entry under `/readme.txt` and under `readme.txt` and
nothing under `//readme.txt`, the key that the enumeration of the root looks up; a get-batch
call on a new session for the root loads the listing `[readme.txt]`, skips the entry as
missing and returns nothing. The same entry primed for `/docs` is returned by the
enumeration of `/docs`. -/
theorem C27_root_entry_not_found :
    (primedRoot.asyncBridge.map
      (fun b => b.GetCache.GetFileInfo "/readme.txt".toList)) =
      some (some { FileInfo.init with name := "readme.txt".toList, size := 5 }) ∧
    (primedRoot.asyncBridge.map
      (fun b => b.GetCache.GetFileInfo "readme.txt".toList)) =
      some (some { FileInfo.init with name := "readme.txt".toList, size := 5 }) ∧
    (primedRoot.asyncBridge.map
      (fun b => b.GetCache.GetFileInfo "//readme.txt".toList)) = some none ∧
    virtualPathOf (requestFor "").FilePathName ++ "/".toList ++ "readme.txt".toList =
      "//readme.txt".toList ∧
    (sessionOf 2 (GetDirectoryEnumerationCallback os0 js0 primedRoot (requestFor "") 2 none
      { capacity := 10, written := [] }).provider).entries = ["readme.txt".toList] ∧
    enumerationLog os0 js0 primedRoot (requestFor "") 2 none { capacity := 10, written := [] } =
      [(0, IterationKind.missing)] ∧
    (GetDirectoryEnumerationCallback os0 js0 primedRoot (requestFor "") 2 none
      { capacity := 10, written := [] }).buffer.written = [] ∧
    (GetDirectoryEnumerationCallback os0 js0 primedDocs (requestFor "docs") 2 none
      { capacity := 10, written := [] }).buffer.written.map Prod.fst =
      ["readme.txt".toList] := by
  decide

/-! ## The size of an entry -/

theorem ParseFileInfo_size (o : JsObject) :
    (ParseFileInfo o).size =
      match o.size with
      | some v => v % 2 ^ 32
      | none => 0 := by
  unfold ParseFileInfo
  cases o.name <;> cases o.hash <;> cases o.size <;> cases o.isDirectory <;>
    cases o.isBlobOrClob <;> cases o.mode <;> rfl

theorem ParseFileInfo_size_small (o : JsObject) (s : Nat) (h : o.size = some s)
    (hs : s < 2 ^ 32) : (ParseFileInfo o).size = s := by
  rw [ParseFileInfo_size, h]
  exact Nat.mod_eq_of_lt hs

/-- C29, the code at the failing input: for the entry `{name: "big.bin", size: 2^32 + 5}`
`ParseFileInfo` and the conversion of `SetCachedDirectory` both give the size 5, and the
placeholder information for the path of the entry reports the file size 5. -/
theorem C29_large_size_truncated :
    jsBigFile.size = some (2 ^ 32 + 5) ∧ 2 ^ 32 + 5 < 2 ^ 53 ∧
    (ParseFileInfo jsBigFile).size = 5 ∧
    (cachedFileInfo (SyncStorage.fresh []) "/docs".toList jsBigFile).1.size = 5 ∧
    (primedBigFile.asyncBridge.map
      (fun b => (b.GetCache.GetFileInfo "/docs/big.bin".toList).map FileInfo.size)) =
      some (some 5) ∧
    ((GetPlaceholderInfoCallback os0 HRESULT.S_OK primedBigFile
      (requestFor "docs/big.bin")).written.map (fun w => w.2.FileSize)) = some 5 := by
  decide

/-! ## Which paths are object files -/

theorem matchHashAt_hex (s h : CppString) (hm : matchHashAt s = some h) :
    h.length = 64 ∧ h.all isHexDigit = true := by
  unfold matchHashAt at hm
  split at hm
  · simp only at hm
    split at hm
    · rename_i hc
      have := Option.some.inj hm
      rw [← this]
      exact ⟨hc.1, hc.2.1⟩
    · cases hm
  · cases hm

theorem ExtractHashFromPath_hex (p : CppString) (h : ExtractHashFromPath p ≠ []) :
    (ExtractHashFromPath p).length = 64 ∧ (ExtractHashFromPath p).all isHexDigit = true := by
  induction p with
  | nil => exact absurd rfl h
  | cons c cs ih =>
    unfold ExtractHashFromPath at h ⊢
    cases hm : matchHashAt (c :: cs) with
    | some x =>
      simp only [hm]
      exact matchHashAt_hex _ _ hm
    | none =>
      simp only [hm] at h ⊢
      exact ih h

theorem IsObjectPath_not_root (p : CppString) (h : IsObjectPath p = true) :
    ¬ (p = "/".toList ∨ p = "/objects".toList ∨ p = "/chats".toList ∨ p = "/debug".toList ∨
      p = "/invites".toList ∨ p = "/types".toList) := by
  intro hr
  rcases hr with hr | hr | hr | hr | hr | hr <;> rw [hr] at h <;> exact absurd h (by decide)

/-- C30: if `GetVirtualPathMetadata(p)` reports an existing entry that is not a directory,
or if `ReadVirtualPath(p)` returns content, then `p` is `/objects/` followed by exactly 64
hexadecimal characters; every other path that begins with `/objects/` is reported as not
existing and has no content. -/
theorem C30_only_object_paths_are_files (s : SyncStorage) (p : CppString) :
    ((s.GetVirtualPathMetadata p).1.exists_ = true →
      (s.GetVirtualPathMetadata p).1.isDirectory = false →
      ∃ H : CppString, H.length = 64 ∧ H.all isHexDigit = true ∧ p = "/objects/".toList ++ H) ∧
    (∀ content, s.ReadVirtualPath p = some content →
      ∃ H : CppString, H.length = 64 ∧ H.all isHexDigit = true ∧ p = "/objects/".toList ++ H) ∧
    (IsObjectPath p = true →
      (¬ ∃ H : CppString,
        H.length = 64 ∧ H.all isHexDigit = true ∧ p = "/objects/".toList ++ H) →
      (s.GetVirtualPathMetadata p).1.exists_ = false ∧ s.ReadVirtualPath p = none) := by
  have hmeta : (s.GetVirtualPathMetadata p).1.exists_ = true →
      (s.GetVirtualPathMetadata p).1.isDirectory = false →
      ∃ H : CppString, H.length = 64 ∧ H.all isHexDigit = true ∧
        p = "/objects/".toList ++ H := by
    unfold SyncStorage.GetVirtualPathMetadata
    split
    · intro _ hd
      simp at hd
    · split
      · rename_i hobj
        simp only
        split
        · rename_i hp
          intro _ _
          exact ⟨ExtractHashFromPath p, (ExtractHashFromPath_hex p hobj.2).1,
            (ExtractHashFromPath_hex p hobj.2).2, hp⟩
        · intro he
          simp at he
      · intro he
        simp at he
  have hread : ∀ content, s.ReadVirtualPath p = some content →
      ∃ H : CppString, H.length = 64 ∧ H.all isHexDigit = true ∧
        p = "/objects/".toList ++ H := by
    intro content
    unfold SyncStorage.ReadVirtualPath
    split
    · intro h; cases h
    · simp only
      split
      · intro h; cases h
      · rename_i hne
        split
        · rename_i hp
          intro _
          exact ⟨ExtractHashFromPath p, (ExtractHashFromPath_hex p hne).1,
            (ExtractHashFromPath_hex p hne).2, hp⟩
        · intro h; cases h
  refine ⟨hmeta, hread, ?_⟩
  intro hobj hnot
  constructor
  · cases he : (s.GetVirtualPathMetadata p).1.exists_ with
    | false => rfl
    | true =>
      have hd : (s.GetVirtualPathMetadata p).1.isDirectory = false := by
        unfold SyncStorage.GetVirtualPathMetadata
        rw [if_neg (IsObjectPath_not_root p hobj)]
        split
        · simp only
          split <;> rfl
        · rfl
      exact absurd (hmeta he hd) hnot
  · cases hr : s.ReadVirtualPath p with
    | none => rfl
    | some content => exact absurd (hread content hr) hnot

theorem C30_only_object_paths_are_files_witness :
    ((SyncStorage.fresh [(hashA, "hello".toList)]).GetVirtualPathMetadata
      ("/objects/".toList ++ hashA ++ "/x".toList)).1.exists_ = false ∧
    (SyncStorage.fresh [(hashA, "hello".toList)]).ReadVirtualPath
      ("/objects/".toList ++ hashA ++ "/x".toList) = none :=
  (C30_only_object_paths_are_files (SyncStorage.fresh [(hashA, "hello".toList)])
    ("/objects/".toList ++ hashA ++ "/x".toList)).2.2 (by decide)
    (by
      intro h
      obtain ⟨H, hl, _, hp⟩ := h
      have := congrArg List.length hp
      simp [hl, hashA] at this)


end oneifsprojfs
